import Mathlib

/-!
# Load-balancer reconciler of the Linode cloud controller manager

A shallow embedding of `cloud/linode/loadbalancers.go`, followed by the properties
of the reconciler that are proved about it.

* Go values that may be `nil` (`*string`, `*int`, `*bool`) are `Option`s.
* Go maps (`service.Annotations`, `secret.Data`) are association lists read with
  `List.lookup`.
* Go integers are `Int`; the reconciler does no arithmetic on them, and
  `strconv.Atoi` checks the range of `int` itself.
* The provider client is a record of transition functions over an arbitrary
  provider state `σ`; every reconciler function threads that state and
  returns, next to its Go result, the provider calls it issued, in order.
* Loops with an early `return` are recursive functions over the list they range
  over; append loops are folds.
* A dereference of a `nil` pointer ends a run with `Outcome.nilDeref`.
* The types and option builders of package `linodego` are written out with the
  fields the reconciler touches or copies.
* Library code outside the repository that is kept abstract (Kubernetes helpers,
  `encoding/json`, `strconv.Quote`, the Unicode case table) is collected in
  `Platform`.
-/

namespace Linode

/-! ## Errors -/

/-- Go `error` values seen by the reconciler. `lbNotFound` is the package-level
sentinel, `errorf` a value made by `fmt.Errorf`, `foreign` a value handed back by
a collaborator (provider client, Kubernetes API, `encoding/json`, `strconv`). -/
inductive Error where
  | lbNotFound
  | errorf (text : String)
  | foreign (text : String)
  deriving DecidableEq, Repr

/-- The `Error()` text of an error value. -/
def Error.text : Error → String
  | .lbNotFound => "loadbalancer not found"
  | .errorf t => t
  | .foreign t => t

/-- Result of a Go function body that may dereference a `nil` pointer. -/
inductive Outcome (α : Type) where
  | ret (a : α)
  | nilDeref
  deriving DecidableEq, Repr

/-! ## Kubernetes objects -/

/-- The Go type `v1.ServicePort`. -/
structure ServicePort where
  Name : String
  Protocol : String
  Port : Int
  NodePort : Int
  deriving DecidableEq, Repr

/-- The Go type `v1.Service`, restricted to the fields the reconciler reads. -/
structure Service where
  Name : String
  Namespace : String
  UID : String
  Annotations : List (String × String)
  Ports : List ServicePort
  deriving DecidableEq, Repr

/-- The Go type `v1.NodeAddress`; `AddrType` is its field `Type`. -/
structure NodeAddress where
  AddrType : String
  Address : String
  deriving DecidableEq, Repr

/-- The Go type `v1.Node`, restricted to its name, its annotations and the
addresses of its status. -/
structure Node where
  Name : String
  Addresses : List NodeAddress
  Annotations : List (String × String) := []
  deriving DecidableEq, Repr

/-- The Go type `v1.LoadBalancerIngress`. -/
structure LoadBalancerIngress where
  IP : String
  Hostname : String
  deriving DecidableEq, Repr

/-- The Go type `v1.LoadBalancerStatus`. -/
structure LoadBalancerStatus where
  Ingress : List LoadBalancerIngress
  deriving DecidableEq, Repr

/-- The Go type `v1.Secret`, restricted to its data map. -/
structure Secret where
  Data : List (String × String)
  deriving DecidableEq, Repr

def ProtocolUDP : String := "UDP"
def NodeInternalIP : String := "InternalIP"
def TLSCertKey : String := "tls.crt"
def TLSPrivateKeyKey : String := "tls.key"

/-! ## Provider objects (package `linodego`) -/

/-- The Go type `linodego.NodeBalancer`. -/
structure NodeBalancer where
  ID : Int
  Label : Option String
  Region : String
  Hostname : Option String
  IPv4 : Option String
  IPv6 : Option String
  ClientConnThrottle : Int
  deriving DecidableEq, Repr

/-- The Go type `linodego.NodeBalancerUpdateOptions`. -/
structure NodeBalancerUpdateOptions where
  Label : Option String
  ClientConnThrottle : Option Int
  deriving DecidableEq, Repr

/-- The Go type `linodego.NodeBalancerNodeCreateOptions`. -/
structure NodeBalancerNodeCreateOptions where
  Address : String
  Label : String
  Weight : Int
  Mode : String
  deriving DecidableEq, Repr

/-- The Go type `linodego.NodeBalancerConfig`. -/
structure NodeBalancerConfig where
  ID : Int := 0
  Port : Int := 0
  Protocol : String := ""
  Algorithm : String := ""
  Stickiness : String := ""
  Check : String := ""
  CheckInterval : Int := 0
  CheckAttempts : Int := 0
  CheckPath : String := ""
  CheckBody : String := ""
  CheckPassive : Bool := false
  CheckTimeout : Int := 0
  CipherSuite : String := ""
  NodeBalancerID : Int := 0
  SSLCert : String := ""
  SSLKey : String := ""
  deriving DecidableEq, Repr

/-- The Go type `linodego.NodeBalancerConfigCreateOptions`. -/
structure NodeBalancerConfigCreateOptions where
  Port : Int
  Protocol : String
  Algorithm : String
  Stickiness : String
  Check : String
  CheckInterval : Int
  CheckAttempts : Int
  CheckPath : String
  CheckBody : String
  CheckPassive : Option Bool
  CheckTimeout : Int
  CipherSuite : String
  SSLCert : String
  SSLKey : String
  Nodes : List NodeBalancerNodeCreateOptions
  deriving DecidableEq, Repr

/-- The Go type `linodego.NodeBalancerConfigRebuildOptions`. -/
structure NodeBalancerConfigRebuildOptions where
  Port : Int
  Protocol : String
  Algorithm : String
  Stickiness : String
  Check : String
  CheckInterval : Int
  CheckAttempts : Int
  CheckPath : String
  CheckBody : String
  CheckPassive : Option Bool
  CheckTimeout : Int
  CipherSuite : String
  SSLCert : String
  SSLKey : String
  Nodes : List NodeBalancerNodeCreateOptions
  deriving DecidableEq, Repr

/-- The Go type `linodego.NodeBalancerCreateOptions`. -/
structure NodeBalancerCreateOptions where
  Label : Option String
  Region : String
  ClientConnThrottle : Option Int
  Configs : List NodeBalancerConfigCreateOptions
  deriving DecidableEq, Repr

def ProtocolHTTPS : String := "https"
def CheckConnection : String := "connection"
def CheckHTTP : String := "http"
def CheckHTTPBody : String := "http_body"

/-- The method `linodego.NodeBalancer.GetUpdateOptions`. -/
def NodeBalancer.GetUpdateOptions (i : NodeBalancer) : NodeBalancerUpdateOptions :=
  { Label := i.Label, ClientConnThrottle := some i.ClientConnThrottle }

/-- The method `linodego.NodeBalancerConfig.GetCreateOptions`. -/
def NodeBalancerConfig.GetCreateOptions (i : NodeBalancerConfig) :
    NodeBalancerConfigCreateOptions :=
  { Port := i.Port, Protocol := i.Protocol, Algorithm := i.Algorithm,
    Stickiness := i.Stickiness, Check := i.Check, CheckInterval := i.CheckInterval,
    CheckAttempts := i.CheckAttempts, CheckPath := i.CheckPath, CheckBody := i.CheckBody,
    CheckPassive := some i.CheckPassive, CheckTimeout := i.CheckTimeout,
    CipherSuite := i.CipherSuite, SSLCert := i.SSLCert, SSLKey := i.SSLKey, Nodes := [] }

/-- The method `linodego.NodeBalancerConfig.GetRebuildOptions`. -/
def NodeBalancerConfig.GetRebuildOptions (i : NodeBalancerConfig) :
    NodeBalancerConfigRebuildOptions :=
  { Port := i.Port, Protocol := i.Protocol, Algorithm := i.Algorithm,
    Stickiness := i.Stickiness, Check := i.Check, CheckInterval := i.CheckInterval,
    CheckAttempts := i.CheckAttempts, CheckPath := i.CheckPath, CheckBody := i.CheckBody,
    CheckPassive := some i.CheckPassive, CheckTimeout := i.CheckTimeout,
    CipherSuite := i.CipherSuite, SSLCert := i.SSLCert, SSLKey := i.SSLKey, Nodes := [] }

/-! ## Library functions -/

/-- Why `strconv` rejects a numeral. -/
inductive NumErr where
  | syntaxErr
  | rangeErr
  deriving DecidableEq, Repr

/-- The digit loop of `strconv.ParseUint` in base 10, from the value read so far:
a byte that is no digit is a syntax error, a value beyond 64 bits a range error,
whichever comes first. -/
def parseDigits : List Char → Nat → Except NumErr Nat
  | [], acc => .ok acc
  | c :: cs, acc =>
    if 48 ≤ c.toNat ∧ c.toNat ≤ 57 then
      if acc * 10 + (c.toNat - 48) < 2 ^ 64 then parseDigits cs (acc * 10 + (c.toNat - 48))
      else .error .rangeErr
    else .error .syntaxErr

/-- The predicate `unicode.IsSpace`. -/
def isSpace (c : Char) : Bool :=
  let n := c.toNat
  (9 ≤ n ∧ n ≤ 13) ∨ n = 32 ∨ n = 0x85 ∨ n = 0xA0 ∨ n = 0x1680 ∨ (0x2000 ≤ n ∧ n ≤ 0x200A)
    ∨ n = 0x2028 ∨ n = 0x2029 ∨ n = 0x202F ∨ n = 0x205F ∨ n = 0x3000

/-- The function `strings.TrimSpace`. -/
def TrimSpace (s : String) : String :=
  ⟨((s.data.dropWhile isSpace).reverse.dropWhile isSpace).reverse⟩

/-- The `%v` verb of `fmt` on an integer: its decimal form. -/
def fmtInt (n : Int) : String := toString n

/-- The `%v:%v` format of `fmt.Sprintf` on a string and an integer. -/
def fmtHostPort (host : String) (port : Int) : String := host ++ ":" ++ fmtInt port

/-- The Go type `portConfigAnnotation`. -/
structure portConfigAnnotation where
  TlsSecretName : String := ""
  Protocol : String := ""
  deriving DecidableEq, Repr

/-- The Go type `portConfig`. -/
structure portConfig where
  TlsSecretName : String
  Protocol : String
  Port : Int
  deriving DecidableEq, Repr

/-- The Kubernetes client, as far as it is used: reading a secret by namespace and
name. -/
structure KubeClient where
  getSecret : String → String → Except String Secret

/-- Library code outside the repository that the reconciler calls and that is kept
abstract: `cloudprovider.GetLoadBalancerName`, `json.Unmarshal` into a zero
`portConfigAnnotation`, `strconv.Quote` (the `%q` verb), `unicode.ToLower` on
runes beyond ASCII, and the construction of the in-cluster Kubernetes client
(`rest.InClusterConfig` followed by `kubernetes.NewForConfig`). -/
structure Platform where
  GetLoadBalancerName : Service → String
  Unmarshal : String → Except String portConfigAnnotation
  Quote : String → String
  lowerRune : Char → Char
  InClusterClient : Except String KubeClient

/-- The function `strconv.Atoi` on a 64-bit platform: an optional sign followed by
at least one decimal digit, the value within the range of `int`. -/
def Atoi (P : Platform) (s : String) : Except String Int :=
  let syntaxErr : Except String Int :=
    .error ("strconv.Atoi: parsing " ++ P.Quote s ++ ": invalid syntax")
  let rangeErr : Except String Int :=
    .error ("strconv.Atoi: parsing " ++ P.Quote s ++ ": value out of range")
  match s.data with
  | [] => syntaxErr
  | c :: cs =>
    let digits := if c = '-' ∨ c = '+' then cs else c :: cs
    if digits = [] then syntaxErr
    else
      match parseDigits digits 0 with
      | .error .syntaxErr => syntaxErr
      | .error .rangeErr => rangeErr
      | .ok n =>
        if c = '-' then (if n ≤ 2 ^ 63 then .ok (-(n : Int)) else rangeErr)
        else (if n < 2 ^ 63 then .ok (n : Int) else rangeErr)

/-- The function `strconv.ParseBool`. -/
def ParseBool (P : Platform) (str : String) : Except String Bool :=
  if str = "1" ∨ str = "t" ∨ str = "T" ∨ str = "TRUE" ∨ str = "true" ∨ str = "True" then
    .ok true
  else if str = "0" ∨ str = "f" ∨ str = "F" ∨ str = "FALSE" ∨ str = "false"
      ∨ str = "False" then
    .ok false
  else .error ("strconv.ParseBool: parsing " ++ P.Quote str ++ ": invalid syntax")

/-- The function `strings.ToLower`: ASCII letters are folded directly, other runes
through the Unicode table. -/
def ToLower (P : Platform) (s : String) : String :=
  ⟨s.data.map fun c =>
    if c.toNat < 128 then (if 65 ≤ c.toNat ∧ c.toNat ≤ 90 then Char.ofNat (c.toNat + 32) else c)
    else P.lowerRune c⟩

/-! ## Annotation keys -/

def annLinodeDefaultProtocol : String :=
  "service.beta.kubernetes.io/linode-loadbalancer-default-protocol"
def annLinodePortConfigPrefix : String :=
  "service.beta.kubernetes.io/linode-loadbalancer-port-"
def annLinodeCheckPath : String := "service.beta.kubernetes.io/linode-loadbalancer-check-path"
def annLinodeCheckBody : String := "service.beta.kubernetes.io/linode-loadbalancer-check-body"
def annLinodeHealthCheckType : String :=
  "service.beta.kubernetes.io/linode-loadbalancer-check-type"
def annLinodeHealthCheckInterval : String :=
  "service.beta.kubernetes.io/linode-loadbalancer-check-interval"
def annLinodeHealthCheckTimeout : String :=
  "service.beta.kubernetes.io/linode-loadbalancer-check-timeout"
def annLinodeHealthCheckAttempts : String :=
  "service.beta.kubernetes.io/linode-loadbalancer-check-attempts"
def annLinodeHealthCheckPassive : String :=
  "service.beta.kubernetes.io/linode-loadbalancer-check-passive"
def annLinodeThrottle : String := "service.beta.kubernetes.io/linode-loadbalancer-throttle"

/-- A map read `m[key]` with the zero value for a missing key. -/
def mapGet (m : List (String × String)) (key : String) : String :=
  (m.lookup key).getD ""

/-! ## Annotation translation -/

def getPortConfigAnnotation (P : Platform) (service : Service) (port : Int) :
    Except Error portConfigAnnotation :=
  let annotationKey := annLinodePortConfigPrefix ++ fmtInt port
  match service.Annotations.lookup annotationKey with
  | none => .ok {}
  | some annotationJSON =>
    match P.Unmarshal annotationJSON with
    | .error e => .error (.foreign e)
    | .ok a => .ok a

def getPortConfig (P : Platform) (service : Service) (port : Int) : Except Error portConfig :=
  match getPortConfigAnnotation P service port with
  | .error err => .error err
  | .ok ann =>
    let protocol :=
      if ann.Protocol = "" then
        match service.Annotations.lookup annLinodeDefaultProtocol with
        | some v => v
        | none => "tcp"
      else ann.Protocol
    let protocol := ToLower P protocol
    if protocol ≠ "tcp" ∧ protocol ≠ "http" ∧ protocol ≠ "https" then
      .error (.errorf ("invalid protocol: " ++ P.Quote protocol ++ " specified"))
    else
      .ok { TlsSecretName := ann.TlsSecretName, Protocol := protocol, Port := port }

/-- The function `getHealthCheckType`; the result is the Go pair `(type, err)`. -/
def getHealthCheckType (P : Platform) (service : Service) : String × Option Error :=
  match service.Annotations.lookup annLinodeHealthCheckType with
  | none => (CheckConnection, none)
  | some hType =>
    if hType ≠ "none" ∧ hType ≠ "connection" ∧ hType ≠ "http" ∧ hType ≠ "http_body" then
      ("", some (.errorf ("invalid health check type: " ++ P.Quote hType
        ++ " specified in annotation: " ++ P.Quote annLinodeHealthCheckType)))
    else (hType, none)

def getNodeInternalIp (node : Node) : String :=
  let rec loop : List NodeAddress → String
    | [] => ""
    | addr :: rest => if addr.AddrType = NodeInternalIP then addr.Address else loop rest
  loop node.Addresses

/-- The function `getTLSCertInfo`; the result is the Go triple `(cert, key, err)`. -/
def getTLSCertInfo (kubeClient : KubeClient) (ns : String) (pc : portConfig) :
    String × String × Option Error :=
  if pc.TlsSecretName = "" then
    ("", "", some (.errorf ("cert & key for port " ++ fmtInt pc.Port ++ " is not specified")))
  else
    match kubeClient.getSecret ns pc.TlsSecretName with
    | .error e => ("", "", some (.foreign e))
    | .ok secret =>
      let cert := TrimSpace (mapGet secret.Data TLSCertKey)
      let key := TrimSpace (mapGet secret.Data TLSPrivateKeyKey)
      (cert, key, none)

def getConnectionThrottle (P : Platform) (service : Service) : Int :=
  let connThrottleString := mapGet service.Annotations annLinodeThrottle
  if connThrottleString ≠ "" then
    match Atoi P connThrottleString with
    | .ok parsed =>
      let parsed := if parsed < 0 then 0 else parsed
      let parsed := if parsed > 20 then 20 else parsed
      parsed
    | .error _ => 20
  else 20

/-! ## Provider client -/

/-- A provider call, with its arguments. `ListNodeBalancers label` is the listing
filtered by the JSON filter `\x7b"label": label\x7d` that `lbByName` marshals. -/
inductive Call where
  | ListNodeBalancers (label : String)
  | CreateNodeBalancer (opts : NodeBalancerCreateOptions)
  | UpdateNodeBalancer (id : Int) (opts : NodeBalancerUpdateOptions)
  | DeleteNodeBalancer (id : Int)
  | ListNodeBalancerConfigs (id : Int)
  | CreateNodeBalancerConfig (id : Int) (opts : NodeBalancerConfigCreateOptions)
  | RebuildNodeBalancerConfig (id : Int) (configID : Int)
      (opts : NodeBalancerConfigRebuildOptions)
  | DeleteNodeBalancerConfig (id : Int) (configID : Int)
  deriving DecidableEq, Repr

/-- Calls that change the provider's state. -/
def Call.isMutating : Call → Bool
  | .ListNodeBalancers _ => false
  | .ListNodeBalancerConfigs _ => false
  | _ => true

/-- The part of `linodego.Client` the reconciler uses, over a provider state `σ`.
Each method maps the state before the call to its Go result and the state after;
a failed call carries the text of the provider's error, a successful call that
returns a pointer carries the value pointed to. -/
structure Client (σ : Type) where
  ListNodeBalancers : String → σ → Except String (List NodeBalancer) × σ
  CreateNodeBalancer : NodeBalancerCreateOptions → σ → Except String NodeBalancer × σ
  UpdateNodeBalancer : Int → NodeBalancerUpdateOptions → σ → Except String NodeBalancer × σ
  DeleteNodeBalancer : Int → σ → Option String × σ
  ListNodeBalancerConfigs : Int → σ → Except String (List NodeBalancerConfig) × σ
  CreateNodeBalancerConfig :
    Int → NodeBalancerConfigCreateOptions → σ → Except String NodeBalancerConfig × σ
  RebuildNodeBalancerConfig :
    Int → Int → NodeBalancerConfigRebuildOptions → σ → Except String NodeBalancerConfig × σ
  DeleteNodeBalancerConfig : Int → Int → σ → Option String × σ

/-- The Go type `loadbalancers`. -/
structure loadbalancers (σ : Type) where
  client : Client σ
  zone : String
  kubeClient : Option KubeClient

/-- A finished run: the Go result, the provider state afterwards and the provider
calls issued, in order. -/
structure Run (σ α : Type) where
  val : α
  state : σ
  calls : List Call

/-- The run `r` preceded by the calls `pre`. -/
def Run.after {σ α : Type} (pre : List Call) (r : Run σ α) : Run σ α :=
  { r with calls := pre ++ r.calls }

/-! ## Building port configs -/

/-- The method `retrieveKubeClient`, returning the client that `l.kubeClient` holds
afterwards. -/
def retrieveKubeClient {σ : Type} (P : Platform) (l : loadbalancers σ) :
    Except Error KubeClient :=
  match l.kubeClient with
  | some k => .ok k
  | none =>
    match P.InClusterClient with
    | .error e => .error (.foreign e)
    | .ok k => .ok k

/-- The method `addSSLCert`; the first component is `*nbConfig` afterwards. -/
def addSSLCert {σ : Type} (P : Platform) (l : loadbalancers σ) (service : Service)
    (nbConfig : NodeBalancerConfig) (pc : portConfig) : NodeBalancerConfig × Option Error :=
  match retrieveKubeClient P l with
  | .error err => (nbConfig, some err)
  | .ok kubeClient =>
    let r := getTLSCertInfo kubeClient service.Namespace pc
    ({ nbConfig with SSLCert := r.1, SSLKey := r.2.1 }, r.2.2)

/-- An integer annotation with a default: `strconv.Atoi` of the value when the key
is present. -/
def intAnnotation (P : Platform) (service : Service) (key : String) (dflt : Int) :
    Except String Int :=
  match service.Annotations.lookup key with
  | some v => Atoi P v
  | none => .ok dflt

/-- The method `buildNodeBalancerConfig`; the result is the Go pair `(config, err)`. -/
def buildNodeBalancerConfig {σ : Type} (P : Platform) (l : loadbalancers σ)
    (service : Service) (port : Int) : NodeBalancerConfig × Option Error :=
  match getPortConfig P service port with
  | .error err => ({}, some err)
  | .ok pc =>
    match getHealthCheckType P service with
    | (_, some _) => ({}, none)
    | (health, none) =>
      let config : NodeBalancerConfig := { Port := port, Protocol := pc.Protocol, Check := health }
      let config :=
        if health = CheckHTTP ∨ health = CheckHTTPBody then
          let path := mapGet service.Annotations annLinodeCheckPath
          { config with CheckPath := if path = "" then "/" else path }
        else config
      let body := mapGet service.Annotations annLinodeCheckBody
      if health = CheckHTTPBody ∧ body = "" then
        (config, some (.errorf
          ("for health check type http_body need body regex annotation " ++ annLinodeCheckBody)))
      else
        let config := if health = CheckHTTPBody then { config with CheckBody := body } else config
        match intAnnotation P service annLinodeHealthCheckInterval 5 with
        | .error e => (config, some (.foreign e))
        | .ok checkInterval =>
          let config := { config with CheckInterval := checkInterval }
          match intAnnotation P service annLinodeHealthCheckTimeout 3 with
          | .error e => (config, some (.foreign e))
          | .ok checkTimeout =>
            let config := { config with CheckTimeout := checkTimeout }
            match intAnnotation P service annLinodeHealthCheckAttempts 2 with
            | .error e => (config, some (.foreign e))
            | .ok checkAttempts =>
              let config := { config with CheckAttempts := checkAttempts }
              match (match service.Annotations.lookup annLinodeHealthCheckPassive with
                     | some cp => ParseBool P cp
                     | none => .ok true) with
              | .error e => (config, some (.foreign e))
              | .ok checkPassive =>
                let config := { config with CheckPassive := checkPassive }
                if pc.Protocol = ProtocolHTTPS then addSSLCert P l service config pc
                else (config, none)

def buildNodeBalancerNodeCreateOptions (node : Node) (nodePort : Int) :
    NodeBalancerNodeCreateOptions :=
  { Address := fmtHostPort (getNodeInternalIp node) nodePort,
    Label := node.Name,
    Mode := "accept",
    Weight := 100 }

/-- The loop `for _, node := range nodes` that appends one backend entry per node
to `acc`. -/
def appendNodes (nodes : List Node) (nodePort : Int)
    (acc : List NodeBalancerNodeCreateOptions) : List NodeBalancerNodeCreateOptions :=
  nodes.foldl (fun acc node => acc ++ [buildNodeBalancerNodeCreateOptions node nodePort]) acc

/-! ## The reconciler -/

/-- The method `lbByName`. Marshalling the label filter cannot fail, so the method
starts with the listing. -/
def lbByName {σ : Type} (l : loadbalancers σ) (name : String) (s : σ) :
    Run σ (Except Error NodeBalancer) :=
  let r := l.client.ListNodeBalancers name s
  match r.1 with
  | .error err => ⟨.error (.foreign err), r.2, [.ListNodeBalancers name]⟩
  | .ok lbs =>
    match lbs with
    | lb :: _ => ⟨.ok lb, r.2, [.ListNodeBalancers name]⟩
    | [] => ⟨.error .lbNotFound, r.2, [.ListNodeBalancers name]⟩

/-- The `LoadBalancerStatus` literal built from `*lb.IPv4` and `*lb.Hostname`. -/
def statusOf (lb : NodeBalancer) : Outcome LoadBalancerStatus :=
  match lb.IPv4, lb.Hostname with
  | some ip, some hostname => .ret { Ingress := [{ IP := ip, Hostname := hostname }] }
  | _, _ => .nilDeref

/-- The method `GetLoadBalancer`; the result is the Go triple
`(status, exists, err)`. -/
def GetLoadBalancer {σ : Type} (P : Platform) (l : loadbalancers σ) (service : Service)
    (s : σ) : Run σ (Outcome (Option LoadBalancerStatus × Bool × Option Error)) :=
  let lbName := P.GetLoadBalancerName service
  let r := lbByName l lbName s
  match r.val with
  | .error err =>
    if err = .lbNotFound then ⟨.ret (none, false, none), r.state, r.calls⟩
    else ⟨.ret (none, false, some err), r.state, r.calls⟩
  | .ok lb =>
    match statusOf lb with
    | .ret st => ⟨.ret (some st, true, none), r.state, r.calls⟩
    | .nilDeref => ⟨.nilDeref, r.state, r.calls⟩

/-- The inner loop of `deleteUnusedConfigs`: whether some service port equals the
port of `nbc`. -/
def portInUse (nbc : NodeBalancerConfig) (servicePorts : List ServicePort) : Bool :=
  servicePorts.foldl (fun found sp => if nbc.Port = sp.Port then true else found) false

/-- The method `deleteUnusedConfigs`. -/
def deleteUnusedConfigs {σ : Type} (l : loadbalancers σ) :
    List NodeBalancerConfig → List ServicePort → σ → Run σ (Option Error)
  | [], _, s => ⟨none, s, []⟩
  | nbc :: rest, servicePorts, s =>
    if portInUse nbc servicePorts then deleteUnusedConfigs l rest servicePorts s
    else
      let r := l.client.DeleteNodeBalancerConfig nbc.NodeBalancerID nbc.ID s
      match r.1 with
      | some err =>
        ⟨some (.foreign err), r.2, [.DeleteNodeBalancerConfig nbc.NodeBalancerID nbc.ID]⟩
      | none =>
        (deleteUnusedConfigs l rest servicePorts r.2).after
          [.DeleteNodeBalancerConfig nbc.NodeBalancerID nbc.ID]

/-- The body of the loop `for _, port := range service.Spec.Ports` of
`UpdateLoadBalancer`, for one port: `some err` when the body returns `err`, `none`
when the loop goes on. -/
def UpdateLoadBalancer.syncPort {σ : Type} (P : Platform) (l : loadbalancers σ)
    (service : Service) (nodes : List Node) (lbID : Int) (nbCfgs : List NodeBalancerConfig)
    (port : ServicePort) (s : σ) : Run σ (Option Error) :=
  if port.Protocol = ProtocolUDP then
    ⟨some (.errorf
      "Error updating NodeBalancer Config: ports with the UDP protocol are not supported"),
      s, []⟩
  else
    let built := buildNodeBalancerConfig P l service port.Port
    match built.2 with
    | some err => ⟨some err, s, []⟩
    | none =>
      let newNBCfg := built.1
      let newNBNodes := appendNodes nodes port.NodePort []
      match nbCfgs.find? (fun nbc => nbc.Port = port.Port) with
      | some existingNBCfg =>
        let rebuildOpts := { newNBCfg.GetRebuildOptions with Nodes := newNBNodes }
        let r := l.client.RebuildNodeBalancerConfig lbID existingNBCfg.ID rebuildOpts s
        match r.1 with
        | .error err =>
          ⟨some (.errorf ("[port " ++ fmtInt port.Port
              ++ "] Error rebuilding NodeBalancer config: " ++ err)),
            r.2, [.RebuildNodeBalancerConfig lbID existingNBCfg.ID rebuildOpts]⟩
        | .ok _ => ⟨none, r.2, [.RebuildNodeBalancerConfig lbID existingNBCfg.ID rebuildOpts]⟩
      | none =>
        let createOpts := { newNBCfg.GetCreateOptions with Nodes := newNBNodes }
        let r := l.client.CreateNodeBalancerConfig lbID createOpts s
        match r.1 with
        | .error err => ⟨some (.foreign err), r.2, [.CreateNodeBalancerConfig lbID createOpts]⟩
        | .ok _ => ⟨none, r.2, [.CreateNodeBalancerConfig lbID createOpts]⟩

/-- The loop `for _, port := range service.Spec.Ports` of `UpdateLoadBalancer`. -/
def UpdateLoadBalancer.syncPorts {σ : Type} (P : Platform) (l : loadbalancers σ)
    (service : Service) (nodes : List Node) (lbID : Int) (nbCfgs : List NodeBalancerConfig) :
    List ServicePort → σ → Run σ (Option Error)
  | [], s => ⟨none, s, []⟩
  | port :: rest, s =>
    let r := UpdateLoadBalancer.syncPort P l service nodes lbID nbCfgs port s
    match r.val with
    | some err => ⟨some err, r.state, r.calls⟩
    | none => (UpdateLoadBalancer.syncPorts P l service nodes lbID nbCfgs rest r.state).after r.calls

/-- The connection-throttle step of `UpdateLoadBalancer`: the balancer held in `lb`
afterwards, or the error returned. -/
def UpdateLoadBalancer.syncThrottle {σ : Type} (P : Platform) (l : loadbalancers σ)
    (service : Service) (lb : NodeBalancer) (s : σ) : Run σ (Except Error NodeBalancer) :=
  let connThrottle := getConnectionThrottle P service
  if connThrottle ≠ lb.ClientConnThrottle then
    let update := { lb.GetUpdateOptions with ClientConnThrottle := some connThrottle }
    let r := l.client.UpdateNodeBalancer lb.ID update s
    match r.1 with
    | .error err => ⟨.error (.foreign err), r.2, [.UpdateNodeBalancer lb.ID update]⟩
    | .ok updated => ⟨.ok updated, r.2, [.UpdateNodeBalancer lb.ID update]⟩
  else ⟨.ok lb, s, []⟩

/-- The second half of `UpdateLoadBalancer`, from the listing of the balancer's
configs on: delete the unused configs, then add or overwrite a config for each
service port. -/
def UpdateLoadBalancer.syncConfigs {σ : Type} (P : Platform) (l : loadbalancers σ)
    (service : Service) (nodes : List Node) (lb : NodeBalancer) (s : σ) :
    Run σ (Option Error) :=
  let r := l.client.ListNodeBalancerConfigs lb.ID s
  match r.1 with
  | .error err => ⟨some (.foreign err), r.2, [.ListNodeBalancerConfigs lb.ID]⟩
  | .ok nbCfgs =>
    let d := deleteUnusedConfigs l nbCfgs service.Ports r.2
    match d.val with
    | some err => ⟨some err, d.state, .ListNodeBalancerConfigs lb.ID :: d.calls⟩
    | none =>
      (UpdateLoadBalancer.syncPorts P l service nodes lb.ID nbCfgs service.Ports
        d.state).after (.ListNodeBalancerConfigs lb.ID :: d.calls)

/-- The method `UpdateLoadBalancer`: resolve the balancer, bring the connection
throttle in line, then reconcile the port configs. -/
def UpdateLoadBalancer {σ : Type} (P : Platform) (l : loadbalancers σ) (service : Service)
    (nodes : List Node) (s : σ) : Run σ (Option Error) :=
  let lbName := P.GetLoadBalancerName service
  let r0 := lbByName l lbName s
  match r0.val with
  | .error err => ⟨some err, r0.state, r0.calls⟩
  | .ok lb =>
    let r1 := UpdateLoadBalancer.syncThrottle P l service lb r0.state
    match r1.val with
    | .error err => ⟨some err, r1.state, r0.calls ++ r1.calls⟩
    | .ok lb =>
      (UpdateLoadBalancer.syncConfigs P l service nodes lb r1.state).after
        (r0.calls ++ r1.calls)

/-- The method `createNodeBalancer`. -/
def createNodeBalancer {σ : Type} (P : Platform) (l : loadbalancers σ) (service : Service)
    (configs : List NodeBalancerConfigCreateOptions) (s : σ) :
    Run σ (Except Error NodeBalancer) :=
  let lbName := P.GetLoadBalancerName service
  let connThrottle := getConnectionThrottle P service
  let createOpts : NodeBalancerCreateOptions :=
    { Label := some lbName, Region := l.zone, ClientConnThrottle := some connThrottle,
      Configs := configs }
  let r := l.client.CreateNodeBalancer createOpts s
  match r.1 with
  | .error err => ⟨.error (.foreign err), r.2, [.CreateNodeBalancer createOpts]⟩
  | .ok lb => ⟨.ok lb, r.2, [.CreateNodeBalancer createOpts]⟩

/-- The loop `for _, port := range ports` of `buildLoadBalancerRequest`, started
with the configs collected so far. -/
def buildLoadBalancerRequest.configs {σ : Type} (P : Platform) (l : loadbalancers σ)
    (service : Service) (nodes : List Node) :
    List ServicePort → List NodeBalancerConfigCreateOptions →
      Except Error (List NodeBalancerConfigCreateOptions)
  | [], configs => .ok configs
  | port :: rest, configs =>
    if port.Protocol = ProtocolUDP then
      .error (.errorf
        "Error creating NodeBalancer Config: ports with the UDP protocol are not supported")
    else
      let built := buildNodeBalancerConfig P l service port.Port
      match built.2 with
      | some err => .error err
      | none =>
        let createOpt := built.1.GetCreateOptions
        let createOpt :=
          { createOpt with Nodes := appendNodes nodes port.NodePort createOpt.Nodes }
        buildLoadBalancerRequest.configs P l service nodes rest (configs ++ [createOpt])

/-- The method `buildLoadBalancerRequest`. -/
def buildLoadBalancerRequest {σ : Type} (P : Platform) (l : loadbalancers σ)
    (service : Service) (nodes : List Node) (s : σ) : Run σ (Except Error NodeBalancer) :=
  match buildLoadBalancerRequest.configs P l service nodes service.Ports [] with
  | .error err => ⟨.error err, s, []⟩
  | .ok configs => createNodeBalancer P l service configs s

/-- The method `EnsureLoadBalancer`; the result is the Go pair `(status, err)`. -/
def EnsureLoadBalancer {σ : Type} (P : Platform) (l : loadbalancers σ) (service : Service)
    (nodes : List Node) (s : σ) : Run σ (Outcome (Option LoadBalancerStatus × Option Error)) :=
  let g := GetLoadBalancer P l service s
  match g.val with
  | .nilDeref => ⟨.nilDeref, g.state, g.calls⟩
  | .ret (_, exists_, err) =>
    match err with
    | some e => ⟨.ret (none, some e), g.state, g.calls⟩
    | none =>
      if !exists_ then
        let b := buildLoadBalancerRequest P l service nodes g.state
        match b.val with
        | .error e => ⟨.ret (none, some e), b.state, g.calls ++ b.calls⟩
        | .ok lb =>
          match statusOf lb with
          | .nilDeref => ⟨.nilDeref, b.state, g.calls ++ b.calls⟩
          | .ret st => ⟨.ret (some st, none), b.state, g.calls ++ b.calls⟩
      else
        let u := UpdateLoadBalancer P l service nodes g.state
        match u.val with
        | some e => ⟨.ret (none, some e), u.state, g.calls ++ u.calls⟩
        | none =>
          let g2 := GetLoadBalancer P l service u.state
          match g2.val with
          | .nilDeref => ⟨.nilDeref, g2.state, g.calls ++ u.calls ++ g2.calls⟩
          | .ret (lbStatus, _, err) =>
            match err with
            | some e => ⟨.ret (none, some e), g2.state, g.calls ++ u.calls ++ g2.calls⟩
            | none => ⟨.ret (lbStatus, none), g2.state, g.calls ++ u.calls ++ g2.calls⟩

/-- The method `EnsureLoadBalancerDeleted`. -/
def EnsureLoadBalancerDeleted {σ : Type} (P : Platform) (l : loadbalancers σ)
    (service : Service) (s : σ) : Run σ (Outcome (Option Error)) :=
  let g := GetLoadBalancer P l service s
  match g.val with
  | .nilDeref => ⟨.nilDeref, g.state, g.calls⟩
  | .ret (_, exists_, err) =>
    match err with
    | some e => ⟨.ret (some e), g.state, g.calls⟩
    | none =>
      if !exists_ then ⟨.ret none, g.state, g.calls⟩
      else
        let lbName := P.GetLoadBalancerName service
        let r := lbByName l lbName g.state
        match r.val with
        | .error e => ⟨.ret (some e), r.state, g.calls ++ r.calls⟩
        | .ok lb =>
          let d := l.client.DeleteNodeBalancer lb.ID r.state
          ⟨.ret (d.1.map Error.foreign), d.2, g.calls ++ r.calls ++ [.DeleteNodeBalancer lb.ID]⟩

/-! ## A provider that applies every call

An in-memory provider: balancers, their port configs (a config records the id of
its balancer) and the backend entries of each config. Ids are handed out from a
counter. Within one balancer a port number is a unique key, so a create or
rebuild that would put a second config on a port is refused. -/

/-- The state of the in-memory provider. -/
structure Cloud where
  balancers : List NodeBalancer
  configs : List NodeBalancerConfig
  backends : List (Int × List NodeBalancerNodeCreateOptions)
  nextID : Int
  deriving DecidableEq, Repr

def Cloud.hasBalancer (c : Cloud) (id : Int) : Bool :=
  c.balancers.any fun b => b.ID = id

/-- The port configs of balancer `id`, in creation order. -/
def Cloud.configsOf (c : Cloud) (id : Int) : List NodeBalancerConfig :=
  c.configs.filter fun x => x.NodeBalancerID = id

/-- The config stored for a create request. -/
def configOfCreate (nbID id : Int) (o : NodeBalancerConfigCreateOptions) :
    NodeBalancerConfig :=
  { ID := id, NodeBalancerID := nbID, Port := o.Port, Protocol := o.Protocol,
    Algorithm := o.Algorithm, Stickiness := o.Stickiness, Check := o.Check,
    CheckInterval := o.CheckInterval, CheckAttempts := o.CheckAttempts,
    CheckPath := o.CheckPath, CheckBody := o.CheckBody,
    CheckPassive := o.CheckPassive.getD true, CheckTimeout := o.CheckTimeout,
    CipherSuite := o.CipherSuite, SSLCert := o.SSLCert, SSLKey := o.SSLKey }

/-- The config stored for a rebuild request. -/
def configOfRebuild (nbID id : Int) (o : NodeBalancerConfigRebuildOptions) :
    NodeBalancerConfig :=
  { ID := id, NodeBalancerID := nbID, Port := o.Port, Protocol := o.Protocol,
    Algorithm := o.Algorithm, Stickiness := o.Stickiness, Check := o.Check,
    CheckInterval := o.CheckInterval, CheckAttempts := o.CheckAttempts,
    CheckPath := o.CheckPath, CheckBody := o.CheckBody,
    CheckPassive := o.CheckPassive.getD true, CheckTimeout := o.CheckTimeout,
    CipherSuite := o.CipherSuite, SSLCert := o.SSLCert, SSLKey := o.SSLKey }

def Cloud.listBalancers (label : String) (c : Cloud) :
    Except String (List NodeBalancer) × Cloud :=
  (.ok (c.balancers.filter fun b => b.Label = some label), c)

def Cloud.createConfig (nbID : Int) (o : NodeBalancerConfigCreateOptions) (c : Cloud) :
    Except String NodeBalancerConfig × Cloud :=
  if !c.hasBalancer nbID then (.error "Not found", c)
  else if c.configs.any (fun x => x.NodeBalancerID = nbID ∧ x.Port = o.Port) then
    (.error "Port already in use", c)
  else
    let cfg := configOfCreate nbID c.nextID o
    (.ok cfg, { c with configs := c.configs ++ [cfg],
                       backends := c.backends ++ [(c.nextID, o.Nodes)],
                       nextID := c.nextID + 1 })

def Cloud.rebuildConfig (nbID cfgID : Int) (o : NodeBalancerConfigRebuildOptions)
    (c : Cloud) : Except String NodeBalancerConfig × Cloud :=
  if !c.configs.any (fun x => x.NodeBalancerID = nbID ∧ x.ID = cfgID) then
    (.error "Not found", c)
  else if c.configs.any (fun x => x.NodeBalancerID = nbID ∧ x.ID ≠ cfgID ∧ x.Port = o.Port) then
    (.error "Port already in use", c)
  else
    let cfg := configOfRebuild nbID cfgID o
    (.ok cfg, { c with
      configs := c.configs.map fun x => if x.NodeBalancerID = nbID ∧ x.ID = cfgID then cfg else x,
      backends := (c.backends.filter fun e => e.1 ≠ cfgID) ++ [(cfgID, o.Nodes)] })

def Cloud.deleteConfig (nbID cfgID : Int) (c : Cloud) : Option String × Cloud :=
  if !c.configs.any (fun x => x.NodeBalancerID = nbID ∧ x.ID = cfgID) then
    (some "Not found", c)
  else
    (none, { c with
      configs := c.configs.filter fun x => ¬ (x.NodeBalancerID = nbID ∧ x.ID = cfgID),
      backends := c.backends.filter fun e => e.1 ≠ cfgID })

def Cloud.listConfigs (nbID : Int) (c : Cloud) :
    Except String (List NodeBalancerConfig) × Cloud :=
  if !c.hasBalancer nbID then (.error "Not found", c) else (.ok (c.configsOf nbID), c)

/-- The balancer after an update request: a field that the request leaves out
keeps its value. -/
def applyUpdate (o : NodeBalancerUpdateOptions) (b : NodeBalancer) : NodeBalancer :=
  { b with Label := (match o.Label with | some x => some x | none => b.Label),
           ClientConnThrottle := o.ClientConnThrottle.getD b.ClientConnThrottle }

def Cloud.updateBalancer (id : Int) (o : NodeBalancerUpdateOptions) (c : Cloud) :
    Except String NodeBalancer × Cloud :=
  match c.balancers.find? (fun b => b.ID = id) with
  | none => (.error "Not found", c)
  | some b =>
    (.ok (applyUpdate o b),
      { c with balancers := c.balancers.map fun x => if x.ID = id then applyUpdate o x else x })

def Cloud.deleteBalancer (id : Int) (c : Cloud) : Option String × Cloud :=
  if !c.hasBalancer id then (some "Not found", c)
  else
    (none, { c with balancers := c.balancers.filter fun b => b.ID ≠ id,
                    configs := c.configs.filter fun x => x.NodeBalancerID ≠ id })

/-- The configs of a new balancer, created one after the other. -/
def Cloud.createConfigs (nbID : Int) :
    List NodeBalancerConfigCreateOptions → Cloud → Except String Cloud
  | [], c => .ok c
  | o :: os, c =>
    let r := c.createConfig nbID o
    match r.1 with
    | .error e => .error e
    | .ok _ => Cloud.createConfigs nbID os r.2

def Cloud.createBalancer (o : NodeBalancerCreateOptions) (c : Cloud) :
    Except String NodeBalancer × Cloud :=
  let nb : NodeBalancer :=
    { ID := c.nextID, Label := o.Label, Region := o.Region,
      Hostname := some ("nb-" ++ fmtInt c.nextID ++ ".nodebalancer.linode.com"),
      IPv4 := some ("192.0.2." ++ fmtInt c.nextID), IPv6 := none,
      ClientConnThrottle := o.ClientConnThrottle.getD 0 }
  match Cloud.createConfigs nb.ID o.Configs
      { c with balancers := c.balancers ++ [nb], nextID := c.nextID + 1 } with
  | .error e => (.error e, c)
  | .ok c1 => (.ok nb, c1)

/-- The in-memory provider as a client. -/
def cloudClient : Client Cloud :=
  { ListNodeBalancers := Cloud.listBalancers,
    CreateNodeBalancer := Cloud.createBalancer,
    UpdateNodeBalancer := Cloud.updateBalancer,
    DeleteNodeBalancer := Cloud.deleteBalancer,
    ListNodeBalancerConfigs := Cloud.listConfigs,
    CreateNodeBalancerConfig := Cloud.createConfig,
    RebuildNodeBalancerConfig := Cloud.rebuildConfig,
    DeleteNodeBalancerConfig := Cloud.deleteConfig }

/-- A provider with no balancer. -/
def Cloud.empty : Cloud := { balancers := [], configs := [], backends := [], nextID := 1 }

/-! ## Sample inputs -/

/-- A platform for concrete runs: the balancer name is `a` followed by the UID, no
per-port annotation carries a field, quoting adds double quotes, and no in-cluster
client can be built. -/
def samplePlatform : Platform :=
  { GetLoadBalancerName := fun service => "a" ++ service.UID,
    Unmarshal := fun _ => .ok {},
    Quote := fun s => "\"" ++ s ++ "\"",
    lowerRune := fun c => c,
    InClusterClient := .error "unable to load in-cluster configuration" }

/-- The reconciler of zone `us-west` over the in-memory provider. -/
def sampleLB : loadbalancers Cloud :=
  { client := cloudClient, zone := "us-west", kubeClient := none }

/-- A service with the single TCP port 80 and no annotation. -/
def sampleService : Service :=
  { Name := "test", Namespace := "default", UID := "foobar123", Annotations := [],
    Ports := [{ Name := "test", Protocol := "TCP", Port := 80, NodePort := 30000 }] }

/-- A node with one internal address. -/
def sampleNode : Node :=
  { Name := "node-1", Addresses := [{ AddrType := "InternalIP", Address := "10.0.0.1" }] }

/-! ## Expected provider calls -/

/-- The delete call that addresses the port config `nbc`. -/
def deleteCallOf (nbc : NodeBalancerConfig) : Call :=
  .DeleteNodeBalancerConfig nbc.NodeBalancerID nbc.ID

/-- The observed configs whose port equals no service port, in observed order. -/
def unusedConfigs (nbConfigs : List NodeBalancerConfig) (servicePorts : List ServicePort) :
    List NodeBalancerConfig :=
  nbConfigs.filter fun nbc => decide (∀ sp ∈ servicePorts, nbc.Port ≠ sp.Port)

/-- A provider that accepts every call and stores nothing: listings are empty,
creations and updates return a fixed balancer or config. -/
def permissiveClient : Client Unit :=
  { ListNodeBalancers := fun _ s => (.ok [], s),
    CreateNodeBalancer := fun o s =>
      (.ok { ID := 1, Label := o.Label, Region := o.Region, Hostname := some "nb-1",
             IPv4 := some "192.0.2.1", IPv6 := none,
             ClientConnThrottle := o.ClientConnThrottle.getD 0 }, s),
    UpdateNodeBalancer := fun id o s =>
      (.ok { ID := id, Label := o.Label, Region := "", Hostname := some "nb-1",
             IPv4 := some "192.0.2.1", IPv6 := none,
             ClientConnThrottle := o.ClientConnThrottle.getD 0 }, s),
    DeleteNodeBalancer := fun _ s => (none, s),
    ListNodeBalancerConfigs := fun _ s => (.ok [], s),
    CreateNodeBalancerConfig := fun id o s => (.ok (configOfCreate id 1 o), s),
    RebuildNodeBalancerConfig := fun id cid o s => (.ok (configOfRebuild id cid o), s),
    DeleteNodeBalancerConfig := fun _ _ s => (none, s) }

/-- The reconciler of zone `us-west` over the permissive provider. -/
def permissiveLB : loadbalancers Unit :=
  { client := permissiveClient, zone := "us-west", kubeClient := none }

/-- An observed config of balancer 1 with id 11 on port 80. -/
def sampleConfig80 : NodeBalancerConfig := { ID := 11, Port := 80, NodeBalancerID := 1 }

/-- An observed config of balancer 1 with id 12 on port 8080. -/
def sampleConfig8080 : NodeBalancerConfig := { ID := 12, Port := 8080, NodeBalancerID := 1 }

/-- The update call of the connection-throttle step for the observed balancer `lb`:
the options taken from `lb`, with the throttle replaced by the desired value. -/
def throttleCallOf (P : Platform) (service : Service) (lb : NodeBalancer) : Call :=
  .UpdateNodeBalancer lb.ID
    { Label := lb.Label, ClientConnThrottle := some (getConnectionThrottle P service) }

def Call.isUpdateNodeBalancer : Call → Bool
  | .UpdateNodeBalancer _ _ => true
  | _ => false

def Call.isCreateNodeBalancer : Call → Bool
  | .CreateNodeBalancer _ => true
  | _ => false

def Call.isDeleteNodeBalancer : Call → Bool
  | .DeleteNodeBalancer _ => true
  | _ => false

def Call.isConfigCreate : Call → Bool
  | .CreateNodeBalancerConfig _ _ => true
  | _ => false

def Call.isConfigRebuild : Call → Bool
  | .RebuildNodeBalancerConfig _ _ _ => true
  | _ => false

def Call.isConfigDelete : Call → Bool
  | .DeleteNodeBalancerConfig _ _ => true
  | _ => false

/-- Calls on the port configs of a balancer: listing, create, rebuild, delete. -/
def Call.isConfigCall : Call → Bool
  | .ListNodeBalancerConfigs _ => true
  | .CreateNodeBalancerConfig _ _ => true
  | .RebuildNodeBalancerConfig _ _ _ => true
  | .DeleteNodeBalancerConfig _ _ => true
  | _ => false

/-- A provider that cannot be reached: every call fails. -/
def offlineClient : Client Unit :=
  { ListNodeBalancers := fun _ s => (.error "connection refused", s),
    CreateNodeBalancer := fun _ s => (.error "connection refused", s),
    UpdateNodeBalancer := fun _ _ s => (.error "connection refused", s),
    DeleteNodeBalancer := fun _ s => (some "connection refused", s),
    ListNodeBalancerConfigs := fun _ s => (.error "connection refused", s),
    CreateNodeBalancerConfig := fun _ _ s => (.error "connection refused", s),
    RebuildNodeBalancerConfig := fun _ _ _ s => (.error "connection refused", s),
    DeleteNodeBalancerConfig := fun _ _ s => (some "connection refused", s) }

/-- The reconciler of zone `us-west` over the unreachable provider. -/
def offlineLB : loadbalancers Unit :=
  { client := offlineClient, zone := "us-west", kubeClient := none }

/-- The balancer of `sampleService` as the in-memory provider creates it. -/
def sampleBalancer : NodeBalancer :=
  { ID := 1, Label := some "afoobar123", Region := "us-west",
    Hostname := some "nb-1.nodebalancer.linode.com", IPv4 := some "192.0.2.1", IPv6 := none,
    ClientConnThrottle := 20 }

/-- The in-memory provider holding `sampleBalancer` with one config on port 80 and
the backend entry of `sampleNode`. -/
def sampleCloud : Cloud :=
  { balancers := [sampleBalancer],
    configs := [{ ID := 2, Port := 80, Protocol := "tcp", Check := "connection",
                  CheckInterval := 5, CheckAttempts := 2, CheckPassive := true,
                  CheckTimeout := 3, NodeBalancerID := 1 }],
    backends := [(2, [{ Address := "10.0.0.1:30000", Label := "node-1", Weight := 100,
                        Mode := "accept" }])],
    nextID := 3 }

/-- The backend entries `UpdateLoadBalancer` and `buildLoadBalancerRequest` send
for a service port: one entry per node, in node order. -/
def backendsOf (nodes : List Node) (nodePort : Int) : List NodeBalancerNodeCreateOptions :=
  nodes.map fun node => buildNodeBalancerNodeCreateOptions node nodePort

/-- The provider call that the port loop of `UpdateLoadBalancer` issues for `port`
once its config is built: a rebuild of the first observed config on that port, or
a create when no observed config is on that port. -/
def portCallOf {σ : Type} (P : Platform) (l : loadbalancers σ) (service : Service)
    (nodes : List Node) (lbID : Int) (nbCfgs : List NodeBalancerConfig) (port : ServicePort) :
    Call :=
  match nbCfgs.find? (fun nbc => nbc.Port = port.Port) with
  | some existingNBCfg =>
    .RebuildNodeBalancerConfig lbID existingNBCfg.ID
      { (buildNodeBalancerConfig P l service port.Port).1.GetRebuildOptions with
        Nodes := backendsOf nodes port.NodePort }
  | none =>
    .CreateNodeBalancerConfig lbID
      { (buildNodeBalancerConfig P l service port.Port).1.GetCreateOptions with
        Nodes := backendsOf nodes port.NodePort }

/-- The sample service with the connection-throttle annotation set to 10. -/
def throttledService : Service :=
  { sampleService with Annotations := [(annLinodeThrottle, "10")] }

/-- The port config `buildLoadBalancerRequest` puts in the create request for
`port`: the create options of the built config with one backend entry per node. -/
def createOptsOf {σ : Type} (P : Platform) (l : loadbalancers σ) (service : Service)
    (nodes : List Node) (port : ServicePort) : NodeBalancerConfigCreateOptions :=
  { (buildNodeBalancerConfig P l service port.Port).1.GetCreateOptions with
    Nodes := backendsOf nodes port.NodePort }

/-- The request `createNodeBalancer` sends for `service` with the given configs. -/
def createRequestOf {σ : Type} (P : Platform) (l : loadbalancers σ) (service : Service)
    (configs : List NodeBalancerConfigCreateOptions) : NodeBalancerCreateOptions :=
  { Label := some (P.GetLoadBalancerName service), Region := l.zone,
    ClientConnThrottle := some (getConnectionThrottle P service), Configs := configs }

/-- The backend list carried by a port-config create or rebuild request. -/
def Call.configBackends : Call → Option (List NodeBalancerNodeCreateOptions)
  | .CreateNodeBalancerConfig _ opts => some opts.Nodes
  | .RebuildNodeBalancerConfig _ _ opts => some opts.Nodes
  | _ => none

/-- The backend entry of a node as the specification words it: the address is the
node's first `InternalIP` address (empty when it has none), a colon and the node
port in decimal; the mode is `accept` and the weight 100. -/
def mirrorsNode (nodePort : Int) (node : Node) (entry : NodeBalancerNodeCreateOptions) :
    Prop :=
  entry.Address
      = (match node.Addresses.find? (fun a => a.AddrType = "InternalIP") with
         | some a => a.Address
         | none => "") ++ ":" ++ toString nodePort ∧
    entry.Mode = "accept" ∧ entry.Weight = 100

/-- The identifying data of the stored port configs: config id, then the pair of
balancer id and port. -/
def Cloud.keys (c : Cloud) : List (Int × Int × Int) :=
  c.configs.map fun x => (x.ID, x.NodeBalancerID, x.Port)

/-- A well-formed provider state: config ids are unique and below the id counter,
and within a balancer a port carries at most one config. -/
structure Cloud.WF (c : Cloud) : Prop where
  ids_nodup : (c.keys.map fun k => k.1).Nodup
  ids_lt : ∀ k ∈ c.keys, k.1 < c.nextID
  ports_nodup : (c.keys.map fun k => k.2).Nodup

/-- What holds of the provider state while `UpdateLoadBalancer` adds or overwrites
the port configs of balancer `b`, `nbCfgs` being the configs listed before: the
state is well formed, every config of `b` is on a service port, a listed config
that is still stored has kept its balancer and port, and the listed ids are below
the id counter. -/
structure PortsInv (service : Service) (b : Int) (nbCfgs : List NodeBalancerConfig)
    (c : Cloud) : Prop where
  wf : c.WF
  used : ∀ k ∈ c.keys, k.2.1 = b → ∃ sp ∈ service.Ports, k.2.2 = sp.Port
  kept : ∀ e ∈ nbCfgs, ∀ k ∈ c.keys, k.1 = e.ID → k.2 = (b, e.Port)
  old : ∀ e ∈ nbCfgs, e.ID < c.nextID

/-- The sample service with a second TCP port, 8080. -/
def twoPortService : Service :=
  { sampleService with
    Ports := [{ Name := "web", Protocol := "TCP", Port := 80, NodePort := 30000 },
              { Name := "alt", Protocol := "TCP", Port := 8080, NodePort := 30001 }] }

/-- The provider state `sampleCloud` with a further config of the sample balancer,
on port 9090. -/
def staleCloud : Cloud :=
  { sampleCloud with
    configs := sampleCloud.configs ++ [{ ID := 3, Port := 9090, Protocol := "tcp",
                                         NodeBalancerID := 1 }],
    nextID := 4 }

/-- The sample service with a second port, 53, of protocol UDP. -/
def udpService : Service :=
  { sampleService with
    Ports := [{ Name := "web", Protocol := "TCP", Port := 80, NodePort := 30000 },
              { Name := "dns", Protocol := "UDP", Port := 53, NodePort := 30053 }] }

/-- The in-memory provider with a fault: every rebuild of a port config is refused. -/
def rebuildRefusingClient : Client Cloud :=
  { cloudClient with
    RebuildNodeBalancerConfig := fun _ _ _ c => (.error "rebuild refused", c) }

/-- The reconciler of zone `us-west` over the provider that refuses rebuilds. -/
def rebuildRefusingLB : loadbalancers Cloud :=
  { client := rebuildRefusingClient, zone := "us-west", kubeClient := none }

/-- The provider answers `call` with the error `e`, in some state. -/
def Client.fails {σ : Type} (c : Client σ) (call : Call) (e : String) : Prop :=
  match call with
  | .ListNodeBalancers label => ∃ t, (c.ListNodeBalancers label t).1 = .error e
  | .CreateNodeBalancer opts => ∃ t, (c.CreateNodeBalancer opts t).1 = .error e
  | .UpdateNodeBalancer id opts => ∃ t, (c.UpdateNodeBalancer id opts t).1 = .error e
  | .DeleteNodeBalancer id => ∃ t, (c.DeleteNodeBalancer id t).1 = some e
  | .ListNodeBalancerConfigs id => ∃ t, (c.ListNodeBalancerConfigs id t).1 = .error e
  | .CreateNodeBalancerConfig id opts =>
    ∃ t, (c.CreateNodeBalancerConfig id opts t).1 = .error e
  | .RebuildNodeBalancerConfig id configID opts =>
    ∃ t, (c.RebuildNodeBalancerConfig id configID opts t).1 = .error e
  | .DeleteNodeBalancerConfig id configID =>
    ∃ t, (c.DeleteNodeBalancerConfig id configID t).1 = some e

/-- How the error `err` of a run comes from a provider call: the last call of the
run was answered with an error `e`, and `err` is `e` itself, unless that call is a
config rebuild for one of the ports, in which case `err` is the new error with the
text `[port N] Error rebuilding NodeBalancer config: ` followed by the text of `e`. -/
def fromFailedCall {σ : Type} (l : loadbalancers σ) (ports : List ServicePort)
    (calls : List Call) (err : Error) : Prop :=
  ∃ pre call e, calls = pre ++ [call] ∧ l.client.fails call e ∧
    ((call.isConfigRebuild = false ∧ err = .foreign e) ∨
     (call.isConfigRebuild = true ∧ ∃ port ∈ ports,
        err = .errorf ("[port " ++ fmtInt port.Port
          ++ "] Error rebuilding NodeBalancer config: " ++ e)))

/-- A platform whose JSON decoder knows three per-port annotation texts. -/
def jsonPlatform : Platform :=
  { samplePlatform with
    Unmarshal := fun json =>
      if json = "\x7b\"protocol\": \"http\"\x7d" then .ok { Protocol := "http" }
      else if json = "\x7b\"protocol\": \"HTTp\"\x7d" then .ok { Protocol := "HTTp" }
      else if json = "\x7b\"tls-secret-name\": \"prod-app-tls\", \"protocol\": \"https\"\x7d"
      then .ok { TlsSecretName := "prod-app-tls", Protocol := "https" }
      else if json = "\x7b \"tls-secret-name\": \"prod-app-tls\" \x7d"
      then .ok { TlsSecretName := "prod-app-tls" }
      else if json = "\x7b\"protocol\": \"invalid\"\x7d" then .ok { Protocol := "invalid" }
      else .error "invalid character" }

/-- A service with per-port annotations for the ports 80 and 443 and the
default-protocol annotation. -/
def portAnnotatedService : Service :=
  { sampleService with
    Annotations :=
      [(annLinodePortConfigPrefix ++ "443",
          "\x7b\"tls-secret-name\": \"prod-app-tls\", \"protocol\": \"https\"\x7d"),
       (annLinodeDefaultProtocol, "tcp"),
       (annLinodePortConfigPrefix ++ "80", "\x7b\"protocol\": \"http\"\x7d")] }

/-- The sample service with the per-port annotation `\x7b"protocol": "HTTp"\x7d` for
port 80. -/
def mixedCaseService : Service :=
  { sampleService with
    Annotations := [(annLinodePortConfigPrefix ++ "80", "\x7b\"protocol\": \"HTTp\"\x7d")] }

/-- The sample service with the check-type annotation set to `value`. -/
def checkTypeService (value : String) : Service :=
  { sampleService with Annotations := [(annLinodeHealthCheckType, value)] }

/-- The sample service with the check type `http_body` and, when `body` is given,
the check-body annotation `body`. -/
def httpBodyService (body : Option String) : Service :=
  { sampleService with
    Annotations :=
      (annLinodeHealthCheckType, "http_body") ::
        (match body with
         | some b => [(annLinodeCheckBody, b)]
         | none => []) }

/-- A Kubernetes client that knows the one secret `tls-secret`, with white space
around its certificate and key. -/
def sampleKube : KubeClient :=
  { getSecret := fun _ name =>
      if name = "tls-secret" then
        .ok { Data := [("tls.crt", "  -----CERT-----\n"), ("tls.key", "\t-----KEY----- \n")] }
      else .error ("secrets \"" ++ name ++ "\" not found") }

/-- The sample service with the default protocol `https` and no per-port
annotation, so without a tls-secret-name; `checkType`, when given, is the value of
its check-type annotation. -/
def httpsService (checkType : Option String) : Service :=
  { sampleService with
    Annotations :=
      (annLinodeDefaultProtocol, "https") ::
        (match checkType with
         | some t => [(annLinodeHealthCheckType, t)]
         | none => []) }

/-- The sample service with the connection-throttle annotation set to `value`. -/
def throttleService (value : String) : Service :=
  { sampleService with Annotations := [(annLinodeThrottle, value)] }

/-- The nodes of the name-coercion test: named `n`, `node1` and
`infra-logging-controlplane-3-atl1-us-prod`. -/
def shortNameNode : Node :=
  { Name := "n", Addresses := [{ AddrType := "InternalIP", Address := "10.0.0.2" }] }

def plainNameNode : Node :=
  { Name := "node1", Addresses := [{ AddrType := "InternalIP", Address := "10.0.0.3" }] }

def longNameNode : Node :=
  { Name := "infra-logging-controlplane-3-atl1-us-prod",
    Addresses := [{ AddrType := "InternalIP", Address := "10.0.0.4" }] }

/-- A node with the internal address `10.0.1.1` that carries the annotation `key`
with the value `192.168.42.42`. -/
def annotatedNode (key : String) : Node :=
  { Name := "node-2", Addresses := [{ AddrType := "InternalIP", Address := "10.0.1.1" }],
    Annotations := [(key, "192.168.42.42")] }

/-- A node with an external address only. -/
def externalOnlyNode : Node :=
  { Name := "node-3", Addresses := [{ AddrType := "ExternalIP", Address := "127.0.0.1" }] }

/-- The config id a config delete call addresses. -/
def Call.deletedConfig : Call → Option Int
  | .DeleteNodeBalancerConfig _ configID => some configID
  | _ => none

/-- The config id a config rebuild call addresses. -/
def Call.rebuiltConfig : Call → Option Int
  | .RebuildNodeBalancerConfig _ configID _ => some configID
  | _ => none

/-- The config list that `UpdateLoadBalancer` observes: what
`ListNodeBalancerConfigs` returns in the run, when the run gets that far. -/
def UpdateLoadBalancer.observedConfigs {σ : Type} (P : Platform) (l : loadbalancers σ)
    (service : Service) (s : σ) : Option (List NodeBalancerConfig) :=
  let r0 := lbByName l (P.GetLoadBalancerName service) s
  match r0.val with
  | .error _ => none
  | .ok lb =>
    let r1 := UpdateLoadBalancer.syncThrottle P l service lb r0.state
    match r1.val with
    | .error _ => none
    | .ok lb =>
      match (l.client.ListNodeBalancerConfigs lb.ID r1.state).1 with
      | .error _ => none
      | .ok nbCfgs => some nbCfgs

/-- The service `udpService`, with the ports 80 (TCP) and 53 (UDP), carrying the
connection-throttle annotation `10`. -/
def udpThrottledService : Service :=
  { udpService with Annotations := [(annLinodeThrottle, "10")] }

/-- A provider call that creates or rebuilds a port config. -/
def Call.isConfigWrite (call : Call) : Bool :=
  call.isConfigCreate || call.isConfigRebuild

/-- A provider whose state counts the balancer listings: the first two listings
return the sample balancer, every later one returns no balancer (the balancer has
been removed by someone else in between); the balancer has no config, and every
other call succeeds. -/
def vanishingClient : Client Nat :=
  { ListNodeBalancers := fun _ n =>
      (if n < 2 then .ok [sampleBalancer] else .ok [], n + 1),
    CreateNodeBalancer := fun o n =>
      (.ok { ID := 1, Label := o.Label, Region := o.Region,
             Hostname := some "nb-1.nodebalancer.linode.com", IPv4 := some "192.0.2.1",
             IPv6 := none, ClientConnThrottle := o.ClientConnThrottle.getD 0 }, n),
    UpdateNodeBalancer := fun id o n =>
      (.ok { ID := id, Label := o.Label, Region := "us-west",
             Hostname := some "nb-1.nodebalancer.linode.com", IPv4 := some "192.0.2.1",
             IPv6 := none, ClientConnThrottle := o.ClientConnThrottle.getD 0 }, n),
    DeleteNodeBalancer := fun _ n => (none, n),
    ListNodeBalancerConfigs := fun _ n => (.ok [], n),
    CreateNodeBalancerConfig := fun id o n => (.ok (configOfCreate id 2 o), n),
    RebuildNodeBalancerConfig := fun id cid o n => (.ok (configOfRebuild id cid o), n),
    DeleteNodeBalancerConfig := fun _ _ n => (none, n) }

/-- The reconciler of zone `us-west` over the provider whose balancer vanishes. -/
def vanishingLB : loadbalancers Nat :=
  { client := vanishingClient, zone := "us-west", kubeClient := none }

/-- The in-memory provider holding the sample balancer without its IPv4 address. -/
def noAddressCloud : Cloud :=
  { sampleCloud with balancers := [{ sampleBalancer with IPv4 := none }] }

/-- The in-memory provider holding the sample balancer without its hostname. -/
def noHostnameCloud : Cloud :=
  { sampleCloud with balancers := [{ sampleBalancer with Hostname := none }] }

/-! # Properties -/

/-! ## Unused port configs -/

theorem portInUse_foldl (nbc : NodeBalancerConfig) (servicePorts : List ServicePort)
    (b : Bool) :
    servicePorts.foldl (fun found sp => if nbc.Port = sp.Port then true else found) b
      = (b || servicePorts.any fun sp => nbc.Port = sp.Port) := by
  induction servicePorts generalizing b with
  | nil => simp
  | cons sp rest ih =>
    simp only [List.foldl_cons, ih, List.any_cons]
    by_cases h : nbc.Port = sp.Port <;> simp [h]

theorem portInUse_iff (nbc : NodeBalancerConfig) (servicePorts : List ServicePort) :
    portInUse nbc servicePorts = true ↔ ∃ sp ∈ servicePorts, nbc.Port = sp.Port := by
  unfold portInUse
  rw [portInUse_foldl]
  simp

theorem portInUse_eq_false_iff (nbc : NodeBalancerConfig) (servicePorts : List ServicePort) :
    portInUse nbc servicePorts = false ↔ ∀ sp ∈ servicePorts, nbc.Port ≠ sp.Port := by
  rw [← Bool.not_eq_true, portInUse_iff]
  simp

theorem unusedConfigs_cons_used (nbc : NodeBalancerConfig) (rest : List NodeBalancerConfig)
    (servicePorts : List ServicePort) (h : portInUse nbc servicePorts = true) :
    unusedConfigs (nbc :: rest) servicePorts = unusedConfigs rest servicePorts := by
  have h2 : ¬ ∀ sp ∈ servicePorts, nbc.Port ≠ sp.Port := by
    rw [← portInUse_eq_false_iff]; simp [h]
  simp [unusedConfigs, List.filter_cons, h2]

theorem unusedConfigs_cons_unused (nbc : NodeBalancerConfig) (rest : List NodeBalancerConfig)
    (servicePorts : List ServicePort) (h : portInUse nbc servicePorts = false) :
    unusedConfigs (nbc :: rest) servicePorts = nbc :: unusedConfigs rest servicePorts := by
  have h2 : ∀ sp ∈ servicePorts, nbc.Port ≠ sp.Port := (portInUse_eq_false_iff _ _).1 h
  simp only [unusedConfigs, List.filter_cons]
  rw [if_pos (by simpa using h2)]

/-- With a provider whose config deletions succeed, `deleteUnusedConfigs` returns no
error and issues the delete calls of the unused configs, in observed order. -/
theorem deleteUnusedConfigs_of_success {σ : Type} (l : loadbalancers σ)
    (hdel : ∀ a b t, (l.client.DeleteNodeBalancerConfig a b t).1 = none)
    (nbConfigs : List NodeBalancerConfig) (servicePorts : List ServicePort) (s : σ) :
    (deleteUnusedConfigs l nbConfigs servicePorts s).val = none ∧
    (deleteUnusedConfigs l nbConfigs servicePorts s).calls
      = (unusedConfigs nbConfigs servicePorts).map deleteCallOf := by
  induction nbConfigs generalizing s with
  | nil => simp [deleteUnusedConfigs, unusedConfigs]
  | cons nbc rest ih =>
    by_cases hu : portInUse nbc servicePorts = true
    · rw [unusedConfigs_cons_used _ _ _ hu]
      simp only [deleteUnusedConfigs, hu, if_true]
      exact ih s
    · have hu2 : portInUse nbc servicePorts = false := by simpa using hu
      rw [unusedConfigs_cons_unused _ _ _ hu2]
      simp only [deleteUnusedConfigs, hu2, hdel, Run.after]
      have := ih (l.client.DeleteNodeBalancerConfig nbc.NodeBalancerID nbc.ID s).2
      simp [this.1, this.2, deleteCallOf]

/-- Every delete call of `deleteUnusedConfigs` addresses an observed config whose
port equals no service port, whatever the provider answers. -/
theorem deleteUnusedConfigs_calls_unused {σ : Type} (l : loadbalancers σ)
    (nbConfigs : List NodeBalancerConfig) (servicePorts : List ServicePort) (s : σ) :
    ∀ call ∈ (deleteUnusedConfigs l nbConfigs servicePorts s).calls,
      ∃ nbc ∈ nbConfigs, call = deleteCallOf nbc ∧ ∀ sp ∈ servicePorts, nbc.Port ≠ sp.Port := by
  induction nbConfigs generalizing s with
  | nil => simp [deleteUnusedConfigs]
  | cons nbc rest ih =>
    intro call hcall
    by_cases hu : portInUse nbc servicePorts = true
    · simp only [deleteUnusedConfigs, hu, if_true] at hcall
      obtain ⟨x, hx, hx2⟩ := ih s call hcall
      exact ⟨x, List.mem_cons_of_mem _ hx, hx2⟩
    · have hu2 : portInUse nbc servicePorts = false := by simpa using hu
      have hun := (portInUse_eq_false_iff _ _).1 hu2
      simp only [deleteUnusedConfigs, hu2] at hcall
      cases hd : (l.client.DeleteNodeBalancerConfig nbc.NodeBalancerID nbc.ID s).1 with
      | some e =>
        simp only [hd, Bool.false_eq_true, if_false, List.mem_singleton] at hcall
        exact ⟨nbc, List.mem_cons_self _ _, hcall, hun⟩
      | none =>
        simp only [hd, Bool.false_eq_true, if_false, Run.after, List.singleton_append,
          List.mem_cons] at hcall
        rcases hcall with hcall | hcall
        · exact ⟨nbc, List.mem_cons_self _ _, hcall, hun⟩
        · obtain ⟨x, hx, hx2⟩ := ih _ call hcall
          exact ⟨x, List.mem_cons_of_mem _ hx, hx2⟩

/-! ## Empty node list -/

/-- C1 (the code lacks the check). `EnsureLoadBalancer` called with an empty node
list for a service with one TCP port, against a provider with no balancer, returns
a status and a nil error after a mutating call (it creates the balancer, with a
port config without backends); `UpdateLoadBalancer` called with an empty node list
on the balancer so created returns a nil error after a mutating call (it rebuilds
the port config with an empty backend list). -/
theorem empty_node_list_is_reconciled :
    (EnsureLoadBalancer samplePlatform sampleLB sampleService [] Cloud.empty).val
      = .ret (some { Ingress := [{ IP := "192.0.2.1",
                                   Hostname := "nb-1.nodebalancer.linode.com" }] }, none)
    ∧ (EnsureLoadBalancer samplePlatform sampleLB sampleService [] Cloud.empty).calls.any
        Call.isMutating = true
    ∧ (UpdateLoadBalancer samplePlatform sampleLB sampleService []
        (EnsureLoadBalancer samplePlatform sampleLB sampleService [] Cloud.empty).state).val
      = none
    ∧ (UpdateLoadBalancer samplePlatform sampleLB sampleService []
        (EnsureLoadBalancer samplePlatform sampleLB sampleService [] Cloud.empty).state).calls.any
        Call.isMutating = true := by
  decide

/-- C3. When every config deletion succeeds, `deleteUnusedConfigs` returns no error
and its calls are exactly the deletions of the observed configs whose port equals
no service port: one call per such config, in observed order, with that config's
balancer id and config id, and no call for a config whose port is a service port.
In particular, when `c` is the only observed config whose port equals no service
port (the service ports being what is left after the port of `c` was removed), the
calls are the single deletion of `c`. -/
theorem deleteUnusedConfigs_deletes_exactly_unused {σ : Type} (l : loadbalancers σ)
    (hdel : ∀ a b t, (l.client.DeleteNodeBalancerConfig a b t).1 = none)
    (nbConfigs : List NodeBalancerConfig) (servicePorts : List ServicePort) (s : σ) :
    ((deleteUnusedConfigs l nbConfigs servicePorts s).val = none ∧
      (deleteUnusedConfigs l nbConfigs servicePorts s).calls
        = (nbConfigs.filter fun nbc => decide (∀ sp ∈ servicePorts, nbc.Port ≠ sp.Port)).map
            fun nbc => Call.DeleteNodeBalancerConfig nbc.NodeBalancerID nbc.ID) ∧
    (∀ before after c, nbConfigs = before ++ c :: after →
      (∀ sp ∈ servicePorts, c.Port ≠ sp.Port) →
      (∀ x ∈ before ++ after, ∃ sp ∈ servicePorts, x.Port = sp.Port) →
      (deleteUnusedConfigs l nbConfigs servicePorts s).calls
        = [Call.DeleteNodeBalancerConfig c.NodeBalancerID c.ID]) := by
  have key := deleteUnusedConfigs_of_success l hdel nbConfigs servicePorts s
  refine ⟨⟨key.1, ?_⟩, ?_⟩
  · rw [key.2]; rfl
  · intro before after c hnb hc hrest
    rw [key.2, hnb]
    have hb : ∀ x ∈ before, ¬ ∀ sp ∈ servicePorts, x.Port ≠ sp.Port := by
      intro x hx hall
      obtain ⟨sp, hsp, he⟩ := hrest x (List.mem_append_left _ hx)
      exact hall sp hsp he
    have ha : ∀ x ∈ after, ¬ ∀ sp ∈ servicePorts, x.Port ≠ sp.Port := by
      intro x hx hall
      obtain ⟨sp, hsp, he⟩ := hrest x (List.mem_append_right _ hx)
      exact hall sp hsp he
    have fb : (before.filter fun nbc => decide (∀ sp ∈ servicePorts, nbc.Port ≠ sp.Port))
        = [] := by
      rw [List.filter_eq_nil_iff]
      intro x hx
      simpa using hb x hx
    have fa : (after.filter fun nbc => decide (∀ sp ∈ servicePorts, nbc.Port ≠ sp.Port))
        = [] := by
      rw [List.filter_eq_nil_iff]
      intro x hx
      simpa using ha x hx
    have fc : decide (∀ sp ∈ servicePorts, c.Port ≠ sp.Port) = true := by simpa using hc
    simp only [unusedConfigs, List.filter_append, List.filter_cons, fb, fa, fc, if_true,
      List.nil_append, List.map_cons, List.map_nil, deleteCallOf]

/-- C3 at a concrete input: with the configs on ports 80 and 8080 observed and only
port 80 left in the service, the one call is the deletion of the config on 8080. -/
theorem deleteUnusedConfigs_deletes_exactly_unused_witness :
    (deleteUnusedConfigs permissiveLB [sampleConfig80, sampleConfig8080]
        sampleService.Ports ()).calls = [Call.DeleteNodeBalancerConfig 1 12] := by
  have h := (deleteUnusedConfigs_deletes_exactly_unused permissiveLB (fun _ _ _ => rfl)
    [sampleConfig80, sampleConfig8080] sampleService.Ports ()).2 [sampleConfig80] []
    sampleConfig8080 rfl (by decide) (by decide)
  exact h

/-! ## Resolving the balancer -/

theorem lbByName_calls {σ : Type} (l : loadbalancers σ) (name : String) (s : σ) :
    (lbByName l name s).calls = [.ListNodeBalancers name] := by
  unfold lbByName
  simp only
  split
  · rfl
  · split <;> rfl

theorem lbByName_state {σ : Type} (l : loadbalancers σ) (name : String) (s : σ) :
    (lbByName l name s).state = (l.client.ListNodeBalancers name s).2 := by
  unfold lbByName
  simp only
  split
  · rfl
  · split <;> rfl

theorem lbByName_val_error {σ : Type} (l : loadbalancers σ) (name : String) (s : σ)
    (e : String) (h : (l.client.ListNodeBalancers name s).1 = .error e) :
    (lbByName l name s).val = .error (.foreign e) := by
  simp [lbByName, h]

theorem lbByName_val_nil {σ : Type} (l : loadbalancers σ) (name : String) (s : σ)
    (h : (l.client.ListNodeBalancers name s).1 = .ok []) :
    (lbByName l name s).val = .error .lbNotFound := by
  simp [lbByName, h]

theorem lbByName_val_cons {σ : Type} (l : loadbalancers σ) (name : String) (s : σ)
    (lb : NodeBalancer) (rest : List NodeBalancer)
    (h : (l.client.ListNodeBalancers name s).1 = .ok (lb :: rest)) :
    (lbByName l name s).val = .ok lb := by
  simp [lbByName, h]

theorem statusOf_present (lb : NodeBalancer) (ip hostname : String)
    (hip : lb.IPv4 = some ip) (hhost : lb.Hostname = some hostname) :
    statusOf lb = .ret { Ingress := [{ IP := ip, Hostname := hostname }] } := by
  simp [statusOf, hip, hhost]

theorem GetLoadBalancer_calls {σ : Type} (P : Platform) (l : loadbalancers σ)
    (service : Service) (s : σ) :
    (GetLoadBalancer P l service s).calls
      = [.ListNodeBalancers (P.GetLoadBalancerName service)] := by
  have hc := lbByName_calls l (P.GetLoadBalancerName service) s
  unfold GetLoadBalancer
  simp only
  split
  · split <;> simpa using hc
  · split <;> simpa using hc

theorem GetLoadBalancer_state {σ : Type} (P : Platform) (l : loadbalancers σ)
    (service : Service) (s : σ) :
    (GetLoadBalancer P l service s).state
      = (l.client.ListNodeBalancers (P.GetLoadBalancerName service) s).2 := by
  have hc := lbByName_state l (P.GetLoadBalancerName service) s
  unfold GetLoadBalancer
  simp only
  split
  · split <;> simpa using hc
  · split <;> simpa using hc

theorem GetLoadBalancer_val_nil {σ : Type} (P : Platform) (l : loadbalancers σ)
    (service : Service) (s : σ)
    (h : (l.client.ListNodeBalancers (P.GetLoadBalancerName service) s).1 = .ok []) :
    (GetLoadBalancer P l service s).val = .ret (none, false, none) := by
  simp [GetLoadBalancer, lbByName_val_nil l _ s h]

theorem GetLoadBalancer_val_error {σ : Type} (P : Platform) (l : loadbalancers σ)
    (service : Service) (s : σ) (e : String)
    (h : (l.client.ListNodeBalancers (P.GetLoadBalancerName service) s).1 = .error e) :
    (GetLoadBalancer P l service s).val = .ret (none, false, some (.foreign e)) := by
  simp [GetLoadBalancer, lbByName_val_error l _ s e h]

theorem GetLoadBalancer_val_cons {σ : Type} (P : Platform) (l : loadbalancers σ)
    (service : Service) (s : σ) (lb : NodeBalancer) (rest : List NodeBalancer)
    (ip hostname : String)
    (h : (l.client.ListNodeBalancers (P.GetLoadBalancerName service) s).1 = .ok (lb :: rest))
    (hip : lb.IPv4 = some ip) (hhost : lb.Hostname = some hostname) :
    (GetLoadBalancer P l service s).val
      = .ret (some { Ingress := [{ IP := ip, Hostname := hostname }] }, true, none) := by
  simp [GetLoadBalancer, lbByName_val_cons l _ s lb rest h, statusOf_present lb ip hostname hip hhost]

/-- When the first match of the listing lacks its IPv4 or its hostname,
`GetLoadBalancer` ends in the dereference of a nil pointer. -/
theorem GetLoadBalancer_val_absent {σ : Type} (P : Platform) (l : loadbalancers σ)
    (service : Service) (s : σ) (lb : NodeBalancer) (rest : List NodeBalancer)
    (h : (l.client.ListNodeBalancers (P.GetLoadBalancerName service) s).1 = .ok (lb :: rest))
    (habsent : lb.IPv4 = none ∨ lb.Hostname = none) :
    (GetLoadBalancer P l service s).val = .nilDeref := by
  have hs : statusOf lb = .nilDeref := by
    unfold statusOf
    rcases habsent with h1 | h1
    · simp [h1]
    · cases hip : lb.IPv4 <;> simp [h1]
  simp [GetLoadBalancer, lbByName_val_cons l _ s lb rest h, hs]

/-- C8. `GetLoadBalancer` follows the listing by the service's derived label: zero
matches give `(nil, false, nil)`; a failed listing gives `exists = false` together
with the listing's error, so never with a nil error; at least one match, whose IPv4
and hostname the provider has filled in, gives `exists = true`, a nil error and a
status with the single ingress entry of the first match's IPv4 and hostname. -/
theorem GetLoadBalancer_follows_listing {σ : Type} (P : Platform) (l : loadbalancers σ)
    (service : Service) (s : σ) :
    ((l.client.ListNodeBalancers (P.GetLoadBalancerName service) s).1 = .ok [] →
      (GetLoadBalancer P l service s).val = .ret (none, false, none)) ∧
    (∀ e, (l.client.ListNodeBalancers (P.GetLoadBalancerName service) s).1 = .error e →
      (GetLoadBalancer P l service s).val = .ret (none, false, some (.foreign e))) ∧
    (∀ lb rest ip hostname,
      (l.client.ListNodeBalancers (P.GetLoadBalancerName service) s).1 = .ok (lb :: rest) →
      lb.IPv4 = some ip → lb.Hostname = some hostname →
      (GetLoadBalancer P l service s).val
        = .ret (some { Ingress := [{ IP := ip, Hostname := hostname }] }, true, none)) :=
  ⟨GetLoadBalancer_val_nil P l service s,
   fun e h => GetLoadBalancer_val_error P l service s e h,
   fun lb rest ip hostname h hip hhost =>
     GetLoadBalancer_val_cons P l service s lb rest ip hostname h hip hhost⟩

/-- C8 at concrete inputs: no balancer, an unreachable provider, and the balancer
of the sample service. -/
theorem GetLoadBalancer_follows_listing_witness :
    (GetLoadBalancer samplePlatform sampleLB sampleService Cloud.empty).val
      = .ret (none, false, none) ∧
    (GetLoadBalancer samplePlatform offlineLB sampleService ()).val
      = .ret (none, false, some (.foreign "connection refused")) ∧
    (GetLoadBalancer samplePlatform sampleLB sampleService sampleCloud).val
      = .ret (some { Ingress := [{ IP := "192.0.2.1",
                                   Hostname := "nb-1.nodebalancer.linode.com" }] }, true, none) :=
  ⟨(GetLoadBalancer_follows_listing samplePlatform sampleLB sampleService Cloud.empty).1
      rfl,
   (GetLoadBalancer_follows_listing samplePlatform offlineLB sampleService ()).2.1
      "connection refused" rfl,
   (GetLoadBalancer_follows_listing samplePlatform sampleLB sampleService sampleCloud).2.2
      sampleBalancer [] "192.0.2.1" "nb-1.nodebalancer.linode.com" rfl rfl
      rfl⟩

/-! ## Deleting the balancer -/

/-- C10. `EnsureLoadBalancerDeleted` on a service whose balancer does not exist (the
listing by its label has zero matches) returns nil after that one listing, without
any delete call. When the balancer exists (the listing returns it, with its IPv4 and
hostname filled in, and returns the same when asked again), the calls are the two
listings followed by exactly one `DeleteNodeBalancer`, for the id of that balancer;
the result is nil if that call succeeds and its error otherwise. -/
theorem EnsureLoadBalancerDeleted_deletes_once {σ : Type} (P : Platform)
    (l : loadbalancers σ) (service : Service) (s : σ) :
    ((l.client.ListNodeBalancers (P.GetLoadBalancerName service) s).1 = .ok [] →
      (EnsureLoadBalancerDeleted P l service s).val = .ret none ∧
      (EnsureLoadBalancerDeleted P l service s).calls
        = [.ListNodeBalancers (P.GetLoadBalancerName service)]) ∧
    (∀ lb rest ip hostname,
      (l.client.ListNodeBalancers (P.GetLoadBalancerName service) s).1 = .ok (lb :: rest) →
      lb.IPv4 = some ip → lb.Hostname = some hostname →
      (l.client.ListNodeBalancers (P.GetLoadBalancerName service)
        (l.client.ListNodeBalancers (P.GetLoadBalancerName service) s).2).1
          = .ok (lb :: rest) →
      (EnsureLoadBalancerDeleted P l service s).calls
        = [.ListNodeBalancers (P.GetLoadBalancerName service),
           .ListNodeBalancers (P.GetLoadBalancerName service),
           .DeleteNodeBalancer lb.ID] ∧
      ((l.client.DeleteNodeBalancer lb.ID
          (l.client.ListNodeBalancers (P.GetLoadBalancerName service)
            (l.client.ListNodeBalancers (P.GetLoadBalancerName service) s).2).2).1 = none →
        (EnsureLoadBalancerDeleted P l service s).val = .ret none) ∧
      (∀ e, (l.client.DeleteNodeBalancer lb.ID
          (l.client.ListNodeBalancers (P.GetLoadBalancerName service)
            (l.client.ListNodeBalancers (P.GetLoadBalancerName service) s).2).2).1 = some e →
        (EnsureLoadBalancerDeleted P l service s).val = .ret (some (.foreign e)))) := by
  have hc := GetLoadBalancer_calls P l service s
  have hs := GetLoadBalancer_state P l service s
  refine ⟨fun h => ?_, fun lb rest ip hostname h hip hhost h2 => ?_⟩
  · have hv := GetLoadBalancer_val_nil P l service s h
    simp [EnsureLoadBalancerDeleted, hv, hc]
  · have hv := GetLoadBalancer_val_cons P l service s lb rest ip hostname h hip hhost
    have hb := lbByName_val_cons l (P.GetLoadBalancerName service) _ lb rest h2
    have hbc := lbByName_calls l (P.GetLoadBalancerName service)
      (l.client.ListNodeBalancers (P.GetLoadBalancerName service) s).2
    have hbs := lbByName_state l (P.GetLoadBalancerName service)
      (l.client.ListNodeBalancers (P.GetLoadBalancerName service) s).2
    refine ⟨?_, fun hd => ?_, fun e hd => ?_⟩
    · simp [EnsureLoadBalancerDeleted, hv, hc, hs, hb, hbc]
    · simp [EnsureLoadBalancerDeleted, hv, hs, hb, hbs, hd]
    · simp [EnsureLoadBalancerDeleted, hv, hs, hb, hbs, hd]

/-- C10 at concrete inputs: nothing to delete on the empty provider; the sample
balancer is deleted by one call for its id 1. -/
theorem EnsureLoadBalancerDeleted_deletes_once_witness :
    ((EnsureLoadBalancerDeleted samplePlatform sampleLB sampleService Cloud.empty).val
        = .ret none ∧
      (EnsureLoadBalancerDeleted samplePlatform sampleLB sampleService Cloud.empty).calls
        = [.ListNodeBalancers "afoobar123"]) ∧
    (EnsureLoadBalancerDeleted samplePlatform sampleLB sampleService sampleCloud).calls
      = [.ListNodeBalancers "afoobar123", .ListNodeBalancers "afoobar123",
         .DeleteNodeBalancer 1] ∧
    (EnsureLoadBalancerDeleted samplePlatform sampleLB sampleService sampleCloud).val
      = .ret none :=
  ⟨(EnsureLoadBalancerDeleted_deletes_once samplePlatform sampleLB sampleService
      Cloud.empty).1 rfl,
   ((EnsureLoadBalancerDeleted_deletes_once samplePlatform sampleLB sampleService
      sampleCloud).2 sampleBalancer [] "192.0.2.1" "nb-1.nodebalancer.linode.com"
      rfl rfl rfl rfl).1,
   ((EnsureLoadBalancerDeleted_deletes_once samplePlatform sampleLB sampleService
      sampleCloud).2 sampleBalancer [] "192.0.2.1" "nb-1.nodebalancer.linode.com"
      rfl rfl rfl rfl).2.1 rfl⟩

/-! ## Shape of an `UpdateLoadBalancer` run -/

theorem appendNodes_eq (nodes : List Node) (nodePort : Int)
    (acc : List NodeBalancerNodeCreateOptions) :
    appendNodes nodes nodePort acc = acc ++ backendsOf nodes nodePort := by
  unfold appendNodes backendsOf
  induction nodes generalizing acc with
  | nil => simp
  | cons n ns ih => simp [List.foldl_cons, ih, List.append_assoc]

theorem appendNodes_nil (nodes : List Node) (nodePort : Int) :
    appendNodes nodes nodePort [] = backendsOf nodes nodePort := by
  simp [appendNodes_eq]

theorem syncThrottle_calls {σ : Type} (P : Platform) (l : loadbalancers σ)
    (service : Service) (lb : NodeBalancer) (s : σ) :
    (UpdateLoadBalancer.syncThrottle P l service lb s).calls
      = if getConnectionThrottle P service ≠ lb.ClientConnThrottle then
          [throttleCallOf P service lb] else [] := by
  unfold UpdateLoadBalancer.syncThrottle
  simp only
  split
  · split <;> rfl
  · rfl

/-- The port loop body issues no call, or the one call `portCallOf` names. -/
theorem syncPort_calls {σ : Type} (P : Platform) (l : loadbalancers σ) (service : Service)
    (nodes : List Node) (lbID : Int) (nbCfgs : List NodeBalancerConfig) (port : ServicePort)
    (s : σ) :
    ((UpdateLoadBalancer.syncPort P l service nodes lbID nbCfgs port s).calls = [] ∧
      (UpdateLoadBalancer.syncPort P l service nodes lbID nbCfgs port s).val ≠ none) ∨
    (UpdateLoadBalancer.syncPort P l service nodes lbID nbCfgs port s).calls
      = [portCallOf P l service nodes lbID nbCfgs port] := by
  unfold UpdateLoadBalancer.syncPort portCallOf
  simp only [appendNodes_nil]
  split
  · left; simp
  · split
    · left; simp
    · right
      split
      · split <;> rfl
      · split <;> rfl

/-- A port that the loop body finishes without error has issued its one call. -/
theorem syncPort_calls_of_ok {σ : Type} (P : Platform) (l : loadbalancers σ)
    (service : Service) (nodes : List Node) (lbID : Int) (nbCfgs : List NodeBalancerConfig)
    (port : ServicePort) (s : σ)
    (h : (UpdateLoadBalancer.syncPort P l service nodes lbID nbCfgs port s).val = none) :
    (UpdateLoadBalancer.syncPort P l service nodes lbID nbCfgs port s).calls
      = [portCallOf P l service nodes lbID nbCfgs port] := by
  rcases syncPort_calls P l service nodes lbID nbCfgs port s with h1 | h1
  · exact absurd h h1.2
  · exact h1

/-- The calls of the port loop are the calls of a prefix of the ports, in order;
the prefix is the whole list when the loop ends without error. -/
theorem syncPorts_calls {σ : Type} (P : Platform) (l : loadbalancers σ) (service : Service)
    (nodes : List Node) (lbID : Int) (nbCfgs : List NodeBalancerConfig)
    (ports : List ServicePort) (s : σ) :
    ∃ done rest, ports = done ++ rest ∧
      (UpdateLoadBalancer.syncPorts P l service nodes lbID nbCfgs ports s).calls
        = done.map (portCallOf P l service nodes lbID nbCfgs) ∧
      ((UpdateLoadBalancer.syncPorts P l service nodes lbID nbCfgs ports s).val = none →
        rest = []) := by
  induction ports generalizing s with
  | nil => exact ⟨[], [], rfl, rfl, fun _ => rfl⟩
  | cons port ports ih =>
    unfold UpdateLoadBalancer.syncPorts
    simp only
    cases hv : (UpdateLoadBalancer.syncPort P l service nodes lbID nbCfgs port s).val with
    | some err =>
      simp only
      rcases syncPort_calls P l service nodes lbID nbCfgs port s with h1 | h1
      · exact ⟨[], port :: ports, rfl, by simp [h1.1], by simp⟩
      · exact ⟨[port], ports, rfl, by simp [h1], by simp⟩
    | none =>
      simp only [Run.after]
      have h1 := syncPort_calls_of_ok P l service nodes lbID nbCfgs port s hv
      obtain ⟨done, rest, hp, hcalls, hrest⟩ :=
        ih (UpdateLoadBalancer.syncPort P l service nodes lbID nbCfgs port s).state
      exact ⟨port :: done, rest, by simp [hp], by simp [h1, hcalls], hrest⟩

theorem deleteUnusedConfigs_calls_isConfigDelete {σ : Type} (l : loadbalancers σ)
    (nbConfigs : List NodeBalancerConfig) (servicePorts : List ServicePort) (s : σ) :
    ∀ call ∈ (deleteUnusedConfigs l nbConfigs servicePorts s).calls,
      call.isConfigDelete = true := by
  intro call hcall
  obtain ⟨nbc, _, hc, _⟩ := deleteUnusedConfigs_calls_unused l nbConfigs servicePorts s call hcall
  rw [hc]; rfl

theorem portCallOf_kind {σ : Type} (P : Platform) (l : loadbalancers σ) (service : Service)
    (nodes : List Node) (lbID : Int) (nbCfgs : List NodeBalancerConfig) (port : ServicePort) :
    (portCallOf P l service nodes lbID nbCfgs port).isConfigCreate = true ∨
    (portCallOf P l service nodes lbID nbCfgs port).isConfigRebuild = true := by
  unfold portCallOf
  split
  · right; rfl
  · left; rfl

theorem syncPorts_calls_kind {σ : Type} (P : Platform) (l : loadbalancers σ)
    (service : Service) (nodes : List Node) (lbID : Int) (nbCfgs : List NodeBalancerConfig)
    (ports : List ServicePort) (s : σ) :
    ∀ call ∈ (UpdateLoadBalancer.syncPorts P l service nodes lbID nbCfgs ports s).calls,
      call.isConfigCreate = true ∨ call.isConfigRebuild = true := by
  intro call hcall
  obtain ⟨done, rest, _, hcalls, _⟩ := syncPorts_calls P l service nodes lbID nbCfgs ports s
  rw [hcalls, List.mem_map] at hcall
  obtain ⟨port, _, hp⟩ := hcall
  rw [← hp]
  exact portCallOf_kind P l service nodes lbID nbCfgs port

/-- Every call of the second half of `UpdateLoadBalancer` is a call on port
configs. -/
theorem syncConfigs_calls_isConfigCall {σ : Type} (P : Platform) (l : loadbalancers σ)
    (service : Service) (nodes : List Node) (lb : NodeBalancer) (s : σ) :
    ∀ call ∈ (UpdateLoadBalancer.syncConfigs P l service nodes lb s).calls,
      call.isConfigCall = true := by
  intro call hcall
  unfold UpdateLoadBalancer.syncConfigs at hcall
  simp only at hcall
  have hdel : ∀ nbCfgs (t : σ), ∀ c ∈ (deleteUnusedConfigs l nbCfgs service.Ports t).calls,
      c.isConfigCall = true := by
    intro nbCfgs t c hc
    have := deleteUnusedConfigs_calls_isConfigDelete l nbCfgs service.Ports t c hc
    cases c <;> simp_all [Call.isConfigDelete, Call.isConfigCall]
  have hports : ∀ nbCfgs (t : σ),
      ∀ c ∈ (UpdateLoadBalancer.syncPorts P l service nodes lb.ID nbCfgs service.Ports t).calls,
      c.isConfigCall = true := by
    intro nbCfgs t c hc
    have := syncPorts_calls_kind P l service nodes lb.ID nbCfgs service.Ports t c hc
    cases c <;> simp_all [Call.isConfigCreate, Call.isConfigRebuild, Call.isConfigCall]
  split at hcall
  · simp only [List.mem_singleton] at hcall
    rw [hcall]; rfl
  · split at hcall
    · simp only [List.mem_cons] at hcall
      rcases hcall with hcall | hcall
      · rw [hcall]; rfl
      · exact hdel _ _ call hcall
    · simp only [Run.after, List.cons_append, List.mem_cons, List.mem_append] at hcall
      rcases hcall with hcall | hcall | hcall
      · rw [hcall]; rfl
      · exact hdel _ _ call hcall
      · exact hports _ _ call hcall

/-- The calls of `UpdateLoadBalancer` once the listing has returned `lb` first: the
listing, the calls of the throttle step for `lb`, then calls on port configs only. -/
theorem UpdateLoadBalancer_calls {σ : Type} (P : Platform) (l : loadbalancers σ)
    (service : Service) (nodes : List Node) (s : σ) (lb : NodeBalancer)
    (rest : List NodeBalancer)
    (h : (l.client.ListNodeBalancers (P.GetLoadBalancerName service) s).1 = .ok (lb :: rest)) :
    ∃ tail, (UpdateLoadBalancer P l service nodes s).calls
        = .ListNodeBalancers (P.GetLoadBalancerName service)
          :: ((if getConnectionThrottle P service ≠ lb.ClientConnThrottle then
                [throttleCallOf P service lb] else []) ++ tail) ∧
      ∀ call ∈ tail, call.isConfigCall = true := by
  have hb := lbByName_val_cons l (P.GetLoadBalancerName service) s lb rest h
  have hbc := lbByName_calls l (P.GetLoadBalancerName service) s
  unfold UpdateLoadBalancer
  simp only [hb, hbc]
  have ht := syncThrottle_calls P l service lb (lbByName l (P.GetLoadBalancerName service) s).state
  split
  · exact ⟨[], by simp [ht], by simp⟩
  · rename_i lb2 _
    refine ⟨(UpdateLoadBalancer.syncConfigs P l service nodes lb2
      (UpdateLoadBalancer.syncThrottle P l service lb
        (lbByName l (P.GetLoadBalancerName service) s).state).state).calls, ?_, ?_⟩
    · simp [Run.after, ht]
    · exact syncConfigs_calls_isConfigCall P l service nodes lb2 _

/-! ## Connection throttle -/

/-- C7. When `UpdateLoadBalancer` resolves the balancer `lb` (the first match of
the listing), it issues an `UpdateNodeBalancer` call if and only if
`getConnectionThrottle service` differs from the throttle of `lb`; every such call
is for the id of `lb`, sets the throttle to the desired value and carries the label
as taken from `lb`, the only other update option. -/
theorem UpdateLoadBalancer_updates_throttle_iff_differs {σ : Type} (P : Platform)
    (l : loadbalancers σ) (service : Service) (nodes : List Node) (s : σ)
    (lb : NodeBalancer) (rest : List NodeBalancer)
    (h : (l.client.ListNodeBalancers (P.GetLoadBalancerName service) s).1 = .ok (lb :: rest)) :
    ((∃ call ∈ (UpdateLoadBalancer P l service nodes s).calls,
        call.isUpdateNodeBalancer = true)
      ↔ getConnectionThrottle P service ≠ lb.ClientConnThrottle) ∧
    (∀ call ∈ (UpdateLoadBalancer P l service nodes s).calls,
      call.isUpdateNodeBalancer = true →
      call = .UpdateNodeBalancer lb.ID
        { Label := lb.GetUpdateOptions.Label,
          ClientConnThrottle := some (getConnectionThrottle P service) }) := by
  obtain ⟨tail, hcalls, htail⟩ := UpdateLoadBalancer_calls P l service nodes s lb rest h
  have hnot : ∀ call ∈ tail, call.isUpdateNodeBalancer = true → False := by
    intro call hc hu
    have := htail call hc
    cases call <;> simp_all [Call.isUpdateNodeBalancer, Call.isConfigCall]
  rw [hcalls]
  by_cases hd : getConnectionThrottle P service ≠ lb.ClientConnThrottle
  · simp only [hd, if_true, ne_eq, not_false_eq_true, iff_true, List.singleton_append,
      List.mem_cons]
    refine ⟨⟨throttleCallOf P service lb, Or.inr (Or.inl rfl), rfl⟩, ?_⟩
    intro call hc hu
    rcases hc with hc | hc | hc
    · rw [hc] at hu; simp [Call.isUpdateNodeBalancer] at hu
    · rw [hc]; rfl
    · exact absurd hu (fun hu => hnot call hc hu)
  · simp only [hd, if_false, List.nil_append, List.mem_cons, iff_false, not_exists, not_and]
    refine ⟨?_, ?_⟩
    · intro call hc hu
      rcases hc with hc | hc
      · rw [hc] at hu; simp [Call.isUpdateNodeBalancer] at hu
      · exact hnot call hc hu
    · intro call hc hu
      rcases hc with hc | hc
      · rw [hc] at hu; simp [Call.isUpdateNodeBalancer] at hu
      · exact absurd hu (fun hu => hnot call hc hu)

/-- C7 at a concrete input: the sample balancer has throttle 20 and the service asks
for 10, so the update call is issued, with throttle 10 and the label of the
balancer. -/
theorem UpdateLoadBalancer_updates_throttle_iff_differs_witness :
    (∃ call ∈ (UpdateLoadBalancer samplePlatform sampleLB throttledService [sampleNode]
        sampleCloud).calls, call.isUpdateNodeBalancer = true) ∧
    (∀ call ∈ (UpdateLoadBalancer samplePlatform sampleLB throttledService [sampleNode]
        sampleCloud).calls, call.isUpdateNodeBalancer = true →
      call = .UpdateNodeBalancer 1 { Label := some "afoobar123", ClientConnThrottle := some 10 }) :=
  ⟨(UpdateLoadBalancer_updates_throttle_iff_differs samplePlatform sampleLB throttledService
      [sampleNode] sampleCloud sampleBalancer [] rfl).1.2 (by decide),
   (UpdateLoadBalancer_updates_throttle_iff_differs samplePlatform sampleLB throttledService
      [sampleNode] sampleCloud sampleBalancer [] rfl).2⟩

/-! ## Built port configs -/

/-- A config that `buildNodeBalancerConfig` returns without error, for a service
whose health-check type is accepted, is on the requested port. -/
theorem buildNodeBalancerConfig_port {σ : Type} (P : Platform) (l : loadbalancers σ)
    (service : Service) (port : Int) (t : String)
    (hcheck : getHealthCheckType P service = (t, none))
    (hok : (buildNodeBalancerConfig P l service port).2 = none) :
    (buildNodeBalancerConfig P l service port).1.Port = port := by
  unfold buildNodeBalancerConfig at hok ⊢
  rw [hcheck] at hok ⊢
  simp only at hok ⊢
  unfold addSSLCert at hok ⊢
  repeat' split
  all_goals first
    | rfl
    | simp_all

/-! ## Creating the balancer -/

/-- The configs collected by the loop of `buildLoadBalancerRequest`, when it ends
without error, are the configs collected before followed by one per port, in port
order. -/
theorem buildLoadBalancerRequest_configs_eq {σ : Type} (P : Platform) (l : loadbalancers σ)
    (service : Service) (nodes : List Node) (ports : List ServicePort)
    (acc cs : List NodeBalancerConfigCreateOptions)
    (h : buildLoadBalancerRequest.configs P l service nodes ports acc = .ok cs) :
    cs = acc ++ ports.map (createOptsOf P l service nodes) := by
  induction ports generalizing acc with
  | nil =>
    simp only [buildLoadBalancerRequest.configs, Except.ok.injEq] at h
    simp [h]
  | cons port ports ih =>
    unfold buildLoadBalancerRequest.configs at h
    split at h
    · cases h
    · simp only at h
      split at h
      · cases h
      · have := ih _ h
        rw [this]
        simp [createOptsOf, appendNodes_eq, NodeBalancerConfig.GetCreateOptions]

/-- The loop of `buildLoadBalancerRequest` ends without error when no port is UDP
and every port's config is built without error. -/
theorem buildLoadBalancerRequest_configs_ok {σ : Type} (P : Platform) (l : loadbalancers σ)
    (service : Service) (nodes : List Node) (ports : List ServicePort)
    (acc : List NodeBalancerConfigCreateOptions)
    (hvalid : ∀ port ∈ ports, port.Protocol ≠ ProtocolUDP ∧
      (buildNodeBalancerConfig P l service port.Port).2 = none) :
    buildLoadBalancerRequest.configs P l service nodes ports acc
      = .ok (acc ++ ports.map (createOptsOf P l service nodes)) := by
  induction ports generalizing acc with
  | nil => simp [buildLoadBalancerRequest.configs]
  | cons port ports ih =>
    have hp := hvalid port (List.mem_cons_self _ _)
    unfold buildLoadBalancerRequest.configs
    rw [if_neg hp.1]
    simp only [hp.2]
    rw [ih _ (fun q hq => hvalid q (List.mem_cons_of_mem _ hq))]
    simp [createOptsOf, appendNodes_eq, NodeBalancerConfig.GetCreateOptions]

theorem createNodeBalancer_calls {σ : Type} (P : Platform) (l : loadbalancers σ)
    (service : Service) (configs : List NodeBalancerConfigCreateOptions) (s : σ) :
    (createNodeBalancer P l service configs s).calls
      = [.CreateNodeBalancer (createRequestOf P l service configs)] := by
  unfold createNodeBalancer createRequestOf
  simp only
  split <;> rfl

theorem createNodeBalancer_val_ok {σ : Type} (P : Platform) (l : loadbalancers σ)
    (service : Service) (configs : List NodeBalancerConfigCreateOptions) (s : σ)
    (lb : NodeBalancer)
    (h : (l.client.CreateNodeBalancer (createRequestOf P l service configs) s).1 = .ok lb) :
    (createNodeBalancer P l service configs s).val = .ok lb := by
  unfold createRequestOf at h
  unfold createNodeBalancer
  simp only [h]

/-- Every call of `buildLoadBalancerRequest` is the one create request, with one
config per service port in port order. -/
theorem buildLoadBalancerRequest_calls {σ : Type} (P : Platform) (l : loadbalancers σ)
    (service : Service) (nodes : List Node) (s : σ) :
    (buildLoadBalancerRequest P l service nodes s).calls = [] ∨
    (buildLoadBalancerRequest P l service nodes s).calls
      = [.CreateNodeBalancer (createRequestOf P l service
          (service.Ports.map (createOptsOf P l service nodes)))] := by
  unfold buildLoadBalancerRequest
  cases h : buildLoadBalancerRequest.configs P l service nodes service.Ports [] with
  | error e => left; rfl
  | ok cs =>
    right
    have := buildLoadBalancerRequest_configs_eq P l service nodes service.Ports [] cs h
    simp only [List.nil_append] at this
    simp only [createNodeBalancer_calls, this]

/-- Every call of `UpdateLoadBalancer` is a listing of balancers, a balancer update
or a call on port configs. -/
theorem UpdateLoadBalancer_calls_kind {σ : Type} (P : Platform) (l : loadbalancers σ)
    (service : Service) (nodes : List Node) (s : σ) :
    ∀ call ∈ (UpdateLoadBalancer P l service nodes s).calls,
      call = .ListNodeBalancers (P.GetLoadBalancerName service) ∨
      call.isUpdateNodeBalancer = true ∨ call.isConfigCall = true := by
  intro call hcall
  have hbc := lbByName_calls l (P.GetLoadBalancerName service) s
  unfold UpdateLoadBalancer at hcall
  simp only [hbc] at hcall
  split at hcall
  · simp only [List.mem_singleton] at hcall
    exact Or.inl hcall
  · rename_i lb _
    have ht := syncThrottle_calls P l service lb
      (lbByName l (P.GetLoadBalancerName service) s).state
    have hthr : ∀ c ∈ (UpdateLoadBalancer.syncThrottle P l service lb
        (lbByName l (P.GetLoadBalancerName service) s).state).calls,
        c.isUpdateNodeBalancer = true := by
      intro c hc
      rw [ht] at hc
      split at hc
      · simp only [List.mem_singleton] at hc
        rw [hc]; rfl
      · simp at hc
    split at hcall
    · simp only [List.singleton_append, List.mem_cons] at hcall
      rcases hcall with hcall | hcall
      · exact Or.inl hcall
      · exact Or.inr (Or.inl (hthr call hcall))
    · simp only [Run.after, List.mem_append, List.mem_singleton] at hcall
      rcases hcall with (hcall | hcall) | hcall
      · exact Or.inl hcall
      · exact Or.inr (Or.inl (hthr call hcall))
      · exact Or.inr (Or.inr (syncConfigs_calls_isConfigCall P l service nodes _ _ call hcall))

/-- C9. When no balancer resolves (the listing by the service's name has zero
matches), every port is TCP and the annotations are valid (the health-check type is
accepted and every port's config is built without error), `EnsureLoadBalancer`
issues, after the listing, exactly one `CreateNodeBalancer`, whose request has the
service's load-balancer name as label, the configured zone as region, the throttle
`getConnectionThrottle service` and one port config per service port in port
order, each on its port and with the backend entries of all nodes; when the
creation succeeds with a balancer whose IPv4 and hostname are filled in, the result
is a status carrying them and a nil error. When a balancer resolves (with IPv4 and
hostname filled in), no call is a `CreateNodeBalancer`; the calls are the listing
followed by the calls of `UpdateLoadBalancer`, whose error is returned if it fails;
otherwise the balancer is fetched again and the status of that second fetch is
returned. -/
theorem EnsureLoadBalancer_creates_or_updates {σ : Type} (P : Platform)
    (l : loadbalancers σ) (service : Service) (nodes : List Node) (s : σ) :
    ((l.client.ListNodeBalancers (P.GetLoadBalancerName service) s).1 = .ok [] →
      (∀ port ∈ service.Ports, port.Protocol = "TCP") →
      (∃ t, getHealthCheckType P service = (t, none)) →
      (∀ port ∈ service.Ports, (buildNodeBalancerConfig P l service port.Port).2 = none) →
      ∃ request,
        (EnsureLoadBalancer P l service nodes s).calls
          = [.ListNodeBalancers (P.GetLoadBalancerName service),
             .CreateNodeBalancer request] ∧
        request.Label = some (P.GetLoadBalancerName service) ∧
        request.Region = l.zone ∧
        request.ClientConnThrottle = some (getConnectionThrottle P service) ∧
        List.Forall₂ (fun port cfg => cfg.Port = port.Port ∧
            cfg.Nodes = nodes.map fun node => buildNodeBalancerNodeCreateOptions node port.NodePort)
          service.Ports request.Configs ∧
        (∀ lb ip hostname,
          (l.client.CreateNodeBalancer request
            (l.client.ListNodeBalancers (P.GetLoadBalancerName service) s).2).1 = .ok lb →
          lb.IPv4 = some ip → lb.Hostname = some hostname →
          (EnsureLoadBalancer P l service nodes s).val
            = .ret (some { Ingress := [{ IP := ip, Hostname := hostname }] }, none))) ∧
    (∀ lb rest ip hostname,
      (l.client.ListNodeBalancers (P.GetLoadBalancerName service) s).1 = .ok (lb :: rest) →
      lb.IPv4 = some ip → lb.Hostname = some hostname →
      (∀ call ∈ (EnsureLoadBalancer P l service nodes s).calls,
        call.isCreateNodeBalancer = false) ∧
      (∀ e, (UpdateLoadBalancer P l service nodes
            (l.client.ListNodeBalancers (P.GetLoadBalancerName service) s).2).val = some e →
        (EnsureLoadBalancer P l service nodes s).calls
          = .ListNodeBalancers (P.GetLoadBalancerName service)
            :: (UpdateLoadBalancer P l service nodes
                (l.client.ListNodeBalancers (P.GetLoadBalancerName service) s).2).calls ∧
        (EnsureLoadBalancer P l service nodes s).val = .ret (none, some e)) ∧
      ((UpdateLoadBalancer P l service nodes
            (l.client.ListNodeBalancers (P.GetLoadBalancerName service) s).2).val = none →
        (EnsureLoadBalancer P l service nodes s).calls
          = .ListNodeBalancers (P.GetLoadBalancerName service)
            :: ((UpdateLoadBalancer P l service nodes
                (l.client.ListNodeBalancers (P.GetLoadBalancerName service) s).2).calls
              ++ [.ListNodeBalancers (P.GetLoadBalancerName service)]) ∧
        ∀ st ex, (GetLoadBalancer P l service
            (UpdateLoadBalancer P l service nodes
              (l.client.ListNodeBalancers (P.GetLoadBalancerName service) s).2).state).val
              = .ret (st, ex, none) →
          (EnsureLoadBalancer P l service nodes s).val = .ret (st, none))) := by
  have hc := GetLoadBalancer_calls P l service s
  have hs := GetLoadBalancer_state P l service s
  refine ⟨fun h htcp hcheck hbuilt => ?_, fun lb rest ip hostname h hip hhost => ?_⟩
  · have hv := GetLoadBalancer_val_nil P l service s h
    have hvalid : ∀ port ∈ service.Ports, port.Protocol ≠ ProtocolUDP ∧
        (buildNodeBalancerConfig P l service port.Port).2 = none := by
      intro port hp
      refine ⟨?_, hbuilt port hp⟩
      rw [htcp port hp]
      decide
    have hcfg := buildLoadBalancerRequest_configs_ok P l service nodes service.Ports [] hvalid
    simp only [List.nil_append] at hcfg
    have hbr : ∀ t, buildLoadBalancerRequest P l service nodes t
        = createNodeBalancer P l service (service.Ports.map (createOptsOf P l service nodes)) t := by
      intro t
      unfold buildLoadBalancerRequest
      rw [hcfg]
    refine ⟨createRequestOf P l service (service.Ports.map (createOptsOf P l service nodes)),
      ?_, rfl, rfl, rfl, ?_, ?_⟩
    · unfold EnsureLoadBalancer
      simp only [hv, hc, hbr, createNodeBalancer_calls]
      simp only [Bool.not_false, if_true]
      split
      · rfl
      · split <;> rfl
    · simp only [createRequestOf]
      rw [List.forall₂_map_right_iff]
      apply List.forall₂_same.2
      intro port hp
      obtain ⟨t, ht⟩ := hcheck
      refine ⟨?_, rfl⟩
      simp only [createOptsOf, NodeBalancerConfig.GetCreateOptions]
      exact buildNodeBalancerConfig_port P l service port.Port t ht (hbuilt port hp)
    · intro lb ip hostname hcreate hip hhost
      have hcv := createNodeBalancer_val_ok P l service _ _ lb hcreate
      unfold EnsureLoadBalancer
      simp only [hv, hs, hbr, hcv, statusOf_present lb ip hostname hip hhost]
      simp
  · have hv := GetLoadBalancer_val_cons P l service s lb rest ip hostname h hip hhost
    have hkind := UpdateLoadBalancer_calls_kind P l service nodes
      (l.client.ListNodeBalancers (P.GetLoadBalancerName service) s).2
    have hc2 := GetLoadBalancer_calls P l service
      (UpdateLoadBalancer P l service nodes
        (l.client.ListNodeBalancers (P.GetLoadBalancerName service) s).2).state
    have hcalls : (EnsureLoadBalancer P l service nodes s).calls
        = .ListNodeBalancers (P.GetLoadBalancerName service)
          :: ((UpdateLoadBalancer P l service nodes
              (l.client.ListNodeBalancers (P.GetLoadBalancerName service) s).2).calls
            ++ (if (UpdateLoadBalancer P l service nodes
                (l.client.ListNodeBalancers (P.GetLoadBalancerName service) s).2).val = none
              then [.ListNodeBalancers (P.GetLoadBalancerName service)] else [])) := by
      unfold EnsureLoadBalancer
      simp only [hv, hc, hs]
      simp only [Bool.not_true, Bool.false_eq_true, if_false]
      split
      · rename_i e he
        simp [he]
      · rename_i he
        simp only [he, if_true, hc2]
        split
        · simp
        · split <;> simp
    refine ⟨?_, ?_, ?_⟩
    · intro call hcall
      rw [hcalls] at hcall
      simp only [List.mem_cons, List.mem_append] at hcall
      rcases hcall with hcall | hcall | hcall
      · rw [hcall]; rfl
      · rcases hkind call hcall with hk | hk | hk
        · rw [hk]; rfl
        · cases call <;> simp_all [Call.isUpdateNodeBalancer, Call.isCreateNodeBalancer]
        · cases call <;> simp_all [Call.isConfigCall, Call.isCreateNodeBalancer]
      · split at hcall
        · simp only [List.mem_singleton] at hcall
          rw [hcall]; rfl
        · simp at hcall
    · intro e he
      refine ⟨by rw [hcalls]; simp [he], ?_⟩
      unfold EnsureLoadBalancer
      simp only [hv, hs, he]
      simp
    · intro hnone
      refine ⟨by rw [hcalls]; simp [hnone], ?_⟩
      intro st ex hg
      unfold EnsureLoadBalancer
      simp only [hv, hs, hnone, hg]
      simp

/-- C9 at concrete inputs: on the empty provider the sample service gets its
balancer created in zone `us-west`; on the provider that holds the balancer no
create request is issued. -/
theorem EnsureLoadBalancer_creates_or_updates_witness :
    (∃ request,
      (EnsureLoadBalancer samplePlatform sampleLB sampleService [sampleNode] Cloud.empty).calls
        = [.ListNodeBalancers "afoobar123", .CreateNodeBalancer request] ∧
      request.Region = "us-west") ∧
    (∀ call ∈ (EnsureLoadBalancer samplePlatform sampleLB sampleService [sampleNode]
        sampleCloud).calls, call.isCreateNodeBalancer = false) :=
  ⟨match (EnsureLoadBalancer_creates_or_updates samplePlatform sampleLB sampleService
        [sampleNode] Cloud.empty).1 rfl (by decide) ⟨"connection", rfl⟩ (by decide) with
    | ⟨request, h1, _, h3, _⟩ => ⟨request, h1, h3⟩,
   ((EnsureLoadBalancer_creates_or_updates samplePlatform sampleLB sampleService
        [sampleNode] sampleCloud).2 sampleBalancer [] "192.0.2.1"
        "nb-1.nodebalancer.linode.com" rfl rfl rfl).1⟩

/-! ## Shape of the config reconciliation -/

/-- The calls of the second half of `UpdateLoadBalancer`: the listing of configs,
then deletions of observed configs whose port is no service port, then the calls
for a prefix of the service ports, the whole list when the run ends without error. -/
theorem syncConfigs_shape {σ : Type} (P : Platform) (l : loadbalancers σ)
    (service : Service) (nodes : List Node) (lb : NodeBalancer) (s : σ) :
    ∃ (dels : List Call) (nbCfgs : List NodeBalancerConfig) (done rest : List ServicePort),
      (UpdateLoadBalancer.syncConfigs P l service nodes lb s).calls
        = .ListNodeBalancerConfigs lb.ID
          :: (dels ++ done.map (portCallOf P l service nodes lb.ID nbCfgs)) ∧
      service.Ports = done ++ rest ∧
      (∀ call ∈ dels, ∃ nbc ∈ nbCfgs, call = deleteCallOf nbc ∧
        ∀ sp ∈ service.Ports, nbc.Port ≠ sp.Port) ∧
      ((l.client.ListNodeBalancerConfigs lb.ID s).1 = .ok nbCfgs ∨ (dels = [] ∧ done = [])) ∧
      ((UpdateLoadBalancer.syncConfigs P l service nodes lb s).val = none → rest = []) := by
  unfold UpdateLoadBalancer.syncConfigs
  simp only
  cases hl : (l.client.ListNodeBalancerConfigs lb.ID s).1 with
  | error e =>
    exact ⟨[], [], [], service.Ports, by simp, by simp, by simp, Or.inr ⟨rfl, rfl⟩, by simp⟩
  | ok nbCfgs =>
    simp only
    have hd := deleteUnusedConfigs_calls_unused l nbCfgs service.Ports
      (l.client.ListNodeBalancerConfigs lb.ID s).2
    cases hdv : (deleteUnusedConfigs l nbCfgs service.Ports
        (l.client.ListNodeBalancerConfigs lb.ID s).2).val with
    | some e =>
      exact ⟨_, nbCfgs, [], service.Ports, by simp, by simp, hd, Or.inl rfl, by simp⟩
    | none =>
      simp only [Run.after]
      obtain ⟨done, rest, hp, hcalls, hrest⟩ := syncPorts_calls P l service nodes lb.ID nbCfgs
        service.Ports (deleteUnusedConfigs l nbCfgs service.Ports
          (l.client.ListNodeBalancerConfigs lb.ID s).2).state
      exact ⟨_, nbCfgs, done, rest, by simp [hcalls], hp, hd, Or.inl rfl, hrest⟩

/-- The calls of `UpdateLoadBalancer`: first calls that touch no port config
(listings and the throttle update), then deletions of observed configs whose port
is no service port, then the calls of the port loop for a prefix of the service
ports, the whole list when the run ends without error. The observed configs are
what the provider listed for the balancer. -/
theorem UpdateLoadBalancer_shape {σ : Type} (P : Platform) (l : loadbalancers σ)
    (service : Service) (nodes : List Node) (s : σ) :
    ∃ (pre dels : List Call) (lbID : Int) (nbCfgs : List NodeBalancerConfig)
      (done rest : List ServicePort),
      (UpdateLoadBalancer P l service nodes s).calls
        = pre ++ (dels ++ done.map (portCallOf P l service nodes lbID nbCfgs)) ∧
      service.Ports = done ++ rest ∧
      (∀ call ∈ pre, call.isConfigCreate = false ∧ call.isConfigRebuild = false ∧
        call.isConfigDelete = false) ∧
      (∀ call ∈ dels, ∃ nbc ∈ nbCfgs, call = deleteCallOf nbc ∧
        ∀ sp ∈ service.Ports, nbc.Port ≠ sp.Port) ∧
      ((∃ t, (l.client.ListNodeBalancerConfigs lbID t).1 = .ok nbCfgs) ∨
        (dels = [] ∧ done = [])) ∧
      ((UpdateLoadBalancer P l service nodes s).val = none → rest = []) := by
  have hbc := lbByName_calls l (P.GetLoadBalancerName service) s
  have hpre : ∀ (cs : List Call), (∀ c ∈ cs, c = .ListNodeBalancers (P.GetLoadBalancerName service)
      ∨ c.isUpdateNodeBalancer = true ∨ c = .ListNodeBalancerConfigs 0 ∨ False) →
      ∀ call ∈ cs, call.isConfigCreate = false ∧ call.isConfigRebuild = false ∧
        call.isConfigDelete = false := by
    intro cs hcs call hcall
    rcases hcs call hcall with h | h | h | h
    · rw [h]; exact ⟨rfl, rfl, rfl⟩
    · cases call <;> simp_all [Call.isUpdateNodeBalancer, Call.isConfigCreate,
        Call.isConfigRebuild, Call.isConfigDelete]
    · rw [h]; exact ⟨rfl, rfl, rfl⟩
    · exact absurd h id
  unfold UpdateLoadBalancer
  simp only [hbc]
  split
  · refine ⟨[.ListNodeBalancers (P.GetLoadBalancerName service)], [], 0, [], [],
      service.Ports, by simp, by simp, ?_, by simp, Or.inr ⟨rfl, rfl⟩, by simp⟩
    exact hpre _ (by simp)
  · rename_i lb _
    have ht := syncThrottle_calls P l service lb
      (lbByName l (P.GetLoadBalancerName service) s).state
    have hthr : ∀ c ∈ (UpdateLoadBalancer.syncThrottle P l service lb
        (lbByName l (P.GetLoadBalancerName service) s).state).calls,
        c.isUpdateNodeBalancer = true := by
      intro c hc
      rw [ht] at hc
      split at hc
      · simp only [List.mem_singleton] at hc
        rw [hc]; rfl
      · simp at hc
    split
    · refine ⟨[.ListNodeBalancers (P.GetLoadBalancerName service)]
          ++ (UpdateLoadBalancer.syncThrottle P l service lb
            (lbByName l (P.GetLoadBalancerName service) s).state).calls,
        [], 0, [], [], service.Ports, by simp, by simp, ?_, by simp,
        Or.inr ⟨rfl, rfl⟩, by simp⟩
      apply hpre
      intro c hc
      simp only [List.mem_append, List.mem_singleton] at hc
      rcases hc with hc | hc
      · exact Or.inl hc
      · exact Or.inr (Or.inl (hthr c hc))
    · rename_i lb2 _
      obtain ⟨dels, nbCfgs, done, rest, hcalls, hp, hdels, hlist, hrest⟩ :=
        syncConfigs_shape P l service nodes lb2
          (UpdateLoadBalancer.syncThrottle P l service lb
            (lbByName l (P.GetLoadBalancerName service) s).state).state
      refine ⟨[.ListNodeBalancers (P.GetLoadBalancerName service)]
          ++ (UpdateLoadBalancer.syncThrottle P l service lb
            (lbByName l (P.GetLoadBalancerName service) s).state).calls
          ++ [.ListNodeBalancerConfigs lb2.ID],
        dels, lb2.ID, nbCfgs, done, rest, ?_, hp, ?_, hdels, ?_, ?_⟩
      · simp [Run.after, hcalls]
      · intro call hcall
        simp only [List.mem_append, List.mem_singleton] at hcall
        rcases hcall with (hcall | hcall) | hcall
        · rw [hcall]; exact ⟨rfl, rfl, rfl⟩
        · have := hthr call hcall
          cases call <;> simp_all [Call.isUpdateNodeBalancer, Call.isConfigCreate,
            Call.isConfigRebuild, Call.isConfigDelete]
        · rw [hcall]; exact ⟨rfl, rfl, rfl⟩
      · rcases hlist with hlist | hlist
        · exact Or.inl ⟨_, hlist⟩
        · exact Or.inr hlist
      · simpa [Run.after] using hrest

/-! ## One call per service port -/

theorem portCallOf_cases {σ : Type} (P : Platform) (l : loadbalancers σ) (service : Service)
    (nodes : List Node) (lbID : Int) (nbCfgs : List NodeBalancerConfig) (port : ServicePort) :
    match nbCfgs.find? (fun nbc => nbc.Port = port.Port) with
    | some existing =>
      ∃ opts, portCallOf P l service nodes lbID nbCfgs port
        = .RebuildNodeBalancerConfig lbID existing.ID opts
    | none =>
      ∃ opts, portCallOf P l service nodes lbID nbCfgs port
        = .CreateNodeBalancerConfig lbID opts := by
  unfold portCallOf
  split
  · exact ⟨_, rfl⟩
  · exact ⟨_, rfl⟩

/-- C4. The calls of `UpdateLoadBalancer` end with exactly one call per processed
service port, in port order (for all service ports when the run returns no error):
a rebuild, addressed by the id of the first observed config on that port, when the
listed configs hold one on that port, and otherwise a create; never both. No other
call of the run is a config create or rebuild, and every config deletion of the run
addresses a config, of those the provider listed for the balancer, whose port
equals no service port. -/
theorem UpdateLoadBalancer_one_call_per_port {σ : Type} (P : Platform)
    (l : loadbalancers σ) (service : Service) (nodes : List Node) (s : σ) :
    ∃ (pre portCalls : List Call) (lbID : Int) (nbCfgs : List NodeBalancerConfig)
      (done rest : List ServicePort),
      (UpdateLoadBalancer P l service nodes s).calls = pre ++ portCalls ∧
      service.Ports = done ++ rest ∧
      ((UpdateLoadBalancer P l service nodes s).val = none → rest = []) ∧
      ((∃ t, (l.client.ListNodeBalancerConfigs lbID t).1 = .ok nbCfgs) ∨
        (portCalls = [] ∧ ∀ call ∈ pre, call.isConfigDelete = false)) ∧
      List.Forall₂ (fun port call =>
          match nbCfgs.find? (fun nbc => nbc.Port = port.Port) with
          | some existing => ∃ opts, call = .RebuildNodeBalancerConfig lbID existing.ID opts
          | none => ∃ opts, call = .CreateNodeBalancerConfig lbID opts)
        done portCalls ∧
      (∀ call ∈ pre, call.isConfigCreate = false ∧ call.isConfigRebuild = false) ∧
      (∀ call ∈ pre, call.isConfigDelete = true →
        ∃ nbc ∈ nbCfgs, call = .DeleteNodeBalancerConfig nbc.NodeBalancerID nbc.ID ∧
          ∀ sp ∈ service.Ports, nbc.Port ≠ sp.Port) := by
  obtain ⟨pre, dels, lbID, nbCfgs, done, rest, hcalls, hp, hpre, hdels, hlist, hrest⟩ :=
    UpdateLoadBalancer_shape P l service nodes s
  refine ⟨pre ++ dels, done.map (portCallOf P l service nodes lbID nbCfgs), lbID, nbCfgs,
    done, rest, by rw [hcalls, List.append_assoc], hp, hrest, ?_, ?_, ?_, ?_⟩
  · rcases hlist with hlist | hlist
    · exact Or.inl hlist
    · refine Or.inr ⟨by simp [hlist.2], ?_⟩
      intro call hcall
      rw [hlist.1, List.append_nil] at hcall
      exact (hpre call hcall).2.2
  · rw [List.forall₂_map_right_iff]
    apply List.forall₂_same.2
    intro port _
    exact portCallOf_cases P l service nodes lbID nbCfgs port
  · intro call hcall
    rcases List.mem_append.1 hcall with hcall | hcall
    · exact ⟨(hpre call hcall).1, (hpre call hcall).2.1⟩
    · obtain ⟨nbc, _, hc, _⟩ := hdels call hcall
      rw [hc]; exact ⟨rfl, rfl⟩
  · intro call hcall hdel
    rcases List.mem_append.1 hcall with hcall | hcall
    · rw [(hpre call hcall).2.2] at hdel
      cases hdel
    · exact hdels call hcall

/-- C4 at a concrete input: the sample service on the provider that holds its
balancer and the config on port 80; the run ends without error and its one port
call is the rebuild of that config, which has id 2. -/
theorem UpdateLoadBalancer_one_call_per_port_witness :
    ∃ (pre portCalls : List Call) (lbID : Int) (nbCfgs : List NodeBalancerConfig)
      (done rest : List ServicePort),
      (UpdateLoadBalancer samplePlatform sampleLB sampleService [sampleNode] sampleCloud).calls
        = pre ++ portCalls ∧
      sampleService.Ports = done ++ rest ∧ rest = [] ∧
      List.Forall₂ (fun port call =>
          match nbCfgs.find? (fun nbc => nbc.Port = port.Port) with
          | some existing => ∃ opts, call = .RebuildNodeBalancerConfig lbID existing.ID opts
          | none => ∃ opts, call = .CreateNodeBalancerConfig lbID opts)
        done portCalls :=
  match UpdateLoadBalancer_one_call_per_port samplePlatform sampleLB sampleService
      [sampleNode] sampleCloud with
  | ⟨pre, portCalls, lbID, nbCfgs, done, rest, h1, h2, h3, _, h5, _, _⟩ =>
    ⟨pre, portCalls, lbID, nbCfgs, done, rest, h1, h2, h3 (by decide), h5⟩

/-! ## Backend entries -/

theorem getNodeInternalIp_loop_eq (addrs : List NodeAddress) :
    getNodeInternalIp.loop addrs
      = (match addrs.find? (fun a => a.AddrType = "InternalIP") with
         | some a => a.Address
         | none => "") := by
  induction addrs with
  | nil => rfl
  | cons a rest ih =>
    unfold getNodeInternalIp.loop
    simp only [NodeInternalIP, List.find?_cons]
    by_cases h : a.AddrType = "InternalIP"
    · simp [h]
    · simp [h, ih]

theorem backendsOf_mirrors (nodes : List Node) (nodePort : Int) :
    List.Forall₂ (mirrorsNode nodePort) nodes (backendsOf nodes nodePort) := by
  unfold backendsOf
  rw [List.forall₂_map_right_iff]
  apply List.forall₂_same.2
  intro node _
  refine ⟨?_, rfl, rfl⟩
  simp only [buildNodeBalancerNodeCreateOptions, fmtHostPort, fmtInt, getNodeInternalIp,
    getNodeInternalIp_loop_eq]

theorem portCallOf_configBackends {σ : Type} (P : Platform) (l : loadbalancers σ)
    (service : Service) (nodes : List Node) (lbID : Int) (nbCfgs : List NodeBalancerConfig)
    (port : ServicePort) :
    (portCallOf P l service nodes lbID nbCfgs port).configBackends
      = some (backendsOf nodes port.NodePort) := by
  unfold portCallOf
  split <;> rfl

/-- C5. The create request of `buildLoadBalancerRequest` carries one port config
per service port, in port order, and every port-config create or rebuild request
of `UpdateLoadBalancer` belongs to one service port, in port order; in each of
them the backend list has exactly one entry per node of the node list, in node
order, and the entry of a node has the address made of the node's first
`InternalIP` address, a colon and that port's `NodePort` in decimal, the mode
`accept` and the weight 100. -/
theorem backend_lists_mirror_nodes {σ : Type} (P : Platform) (l : loadbalancers σ)
    (service : Service) (nodes : List Node) (s : σ) :
    (∀ call ∈ (buildLoadBalancerRequest P l service nodes s).calls,
      ∃ request, call = .CreateNodeBalancer request ∧
        List.Forall₂ (fun port cfg => List.Forall₂ (mirrorsNode port.NodePort) nodes cfg.Nodes)
          service.Ports request.Configs) ∧
    (∃ (pre portCalls : List Call) (done rest : List ServicePort),
      (UpdateLoadBalancer P l service nodes s).calls = pre ++ portCalls ∧
      service.Ports = done ++ rest ∧
      ((UpdateLoadBalancer P l service nodes s).val = none → rest = []) ∧
      (∀ call ∈ pre, call.isConfigCreate = false ∧ call.isConfigRebuild = false) ∧
      List.Forall₂ (fun port call =>
          (call.isConfigCreate = true ∨ call.isConfigRebuild = true) ∧
          ∃ sent, call.configBackends = some sent ∧
            List.Forall₂ (mirrorsNode port.NodePort) nodes sent)
        done portCalls) := by
  refine ⟨?_, ?_⟩
  · intro call hcall
    rcases buildLoadBalancerRequest_calls P l service nodes s with h | h
    · rw [h] at hcall; simp at hcall
    · rw [h, List.mem_singleton] at hcall
      refine ⟨_, hcall, ?_⟩
      simp only [createRequestOf]
      rw [List.forall₂_map_right_iff]
      apply List.forall₂_same.2
      intro port _
      exact backendsOf_mirrors nodes port.NodePort
  · obtain ⟨pre, dels, lbID, nbCfgs, done, rest, hcalls, hp, hpre, hdels, _, hrest⟩ :=
      UpdateLoadBalancer_shape P l service nodes s
    refine ⟨pre ++ dels, done.map (portCallOf P l service nodes lbID nbCfgs), done, rest,
      by rw [hcalls, List.append_assoc], hp, hrest, ?_, ?_⟩
    · intro call hcall
      rcases List.mem_append.1 hcall with hcall | hcall
      · exact ⟨(hpre call hcall).1, (hpre call hcall).2.1⟩
      · obtain ⟨nbc, _, hc, _⟩ := hdels call hcall
        rw [hc]; exact ⟨rfl, rfl⟩
    · rw [List.forall₂_map_right_iff]
      apply List.forall₂_same.2
      intro port _
      exact ⟨portCallOf_kind P l service nodes lbID nbCfgs port, _,
        portCallOf_configBackends P l service nodes lbID nbCfgs port,
        backendsOf_mirrors nodes port.NodePort⟩

/-! ## The in-memory provider -/

theorem Cloud.mem_keys {c : Cloud} {k : Int × Int × Int} :
    k ∈ c.keys ↔ ∃ x ∈ c.configs, (x.ID, x.NodeBalancerID, x.Port) = k := by
  simp [Cloud.keys]

theorem Cloud.empty_wf : Cloud.empty.WF :=
  ⟨by simp [Cloud.keys, Cloud.empty], by simp [Cloud.keys, Cloud.empty],
    by simp [Cloud.keys, Cloud.empty]⟩

theorem Cloud.deleteConfig_state (nb id : Int) (c : Cloud) :
    (c.deleteConfig nb id).2.configs.Sublist c.configs ∧
    (c.deleteConfig nb id).2.nextID = c.nextID ∧
    (c.deleteConfig nb id).2.balancers = c.balancers ∧
    ((c.deleteConfig nb id).1 = none →
      ∀ x ∈ (c.deleteConfig nb id).2.configs, ¬ (x.NodeBalancerID = nb ∧ x.ID = id)) := by
  unfold Cloud.deleteConfig
  split
  · exact ⟨List.Sublist.refl _, rfl, rfl, by simp⟩
  · refine ⟨List.filter_sublist _, rfl, rfl, ?_⟩
    intro _ x hx
    have := (List.mem_filter.1 hx).2
    simp only [decide_not, Bool.not_eq_true', decide_eq_false_iff_not] at this
    exact this

theorem Cloud.listConfigs_state (nb : Int) (c : Cloud) : (c.listConfigs nb).2 = c := by
  unfold Cloud.listConfigs
  split <;> rfl

theorem Cloud.listConfigs_ok (nb : Int) (c : Cloud) (cfgs : List NodeBalancerConfig)
    (h : (c.listConfigs nb).1 = .ok cfgs) : cfgs = c.configsOf nb ∧ c.hasBalancer nb = true := by
  unfold Cloud.listConfigs at h
  split at h
  · cases h
  · rename_i hb
    simp only [Except.ok.injEq] at h
    exact ⟨h.symm, by simpa using hb⟩

theorem Cloud.listConfigs_of_hasBalancer (nb : Int) (c : Cloud)
    (h : c.hasBalancer nb = true) : (c.listConfigs nb).1 = .ok (c.configsOf nb) := by
  unfold Cloud.listConfigs
  simp [h]

theorem Cloud.mem_configsOf {c : Cloud} {nb : Int} {x : NodeBalancerConfig} :
    x ∈ c.configsOf nb ↔ x ∈ c.configs ∧ x.NodeBalancerID = nb := by
  simp [Cloud.configsOf, List.mem_filter]

theorem Cloud.updateBalancer_state (id : Int) (o : NodeBalancerUpdateOptions) (c : Cloud) :
    (c.updateBalancer id o).2.configs = c.configs ∧
    (c.updateBalancer id o).2.nextID = c.nextID ∧
    (∀ lb, (c.updateBalancer id o).1 = .ok lb → lb.ID = id ∧
      (c.updateBalancer id o).2.balancers
        = c.balancers.map fun x => if x.ID = id then applyUpdate o x else x) := by
  unfold Cloud.updateBalancer
  split
  · exact ⟨rfl, rfl, fun lb h => by cases h⟩
  · rename_i b hb
    refine ⟨rfl, rfl, fun lb h => ?_⟩
    simp only [Except.ok.injEq] at h
    have := List.find?_some hb
    refine ⟨?_, rfl⟩
    rw [← h]
    simpa [applyUpdate] using this

theorem Cloud.hasBalancer_map (c : Cloud) (f : NodeBalancer → NodeBalancer)
    (hf : ∀ x, (f x).ID = x.ID) (id : Int) :
    (c.balancers.map f).any (fun b => b.ID = id) = c.hasBalancer id := by
  simp [Cloud.hasBalancer, List.any_map, Function.comp_def, hf]

theorem Cloud.createConfig_ok (nb : Int) (o : NodeBalancerConfigCreateOptions) (c : Cloud)
    (cfg : NodeBalancerConfig) (h : (c.createConfig nb o).1 = .ok cfg) :
    (nb, o.Port) ∉ c.keys.map (fun k => k.2) ∧
    (c.createConfig nb o).2.keys = c.keys ++ [(c.nextID, nb, o.Port)] ∧
    (c.createConfig nb o).2.nextID = c.nextID + 1 ∧
    (c.createConfig nb o).2.balancers = c.balancers := by
  unfold Cloud.createConfig at h ⊢
  split at h
  · cases h
  · split at h
    · cases h
    · rename_i hb ht
      rw [if_neg hb, if_neg ht]
      refine ⟨?_, ?_, rfl, rfl⟩
      · intro hmem
        apply ht
        simp only [Cloud.keys, List.map_map, List.mem_map, Function.comp_apply,
          Prod.mk.injEq] at hmem
        obtain ⟨x, hx, h1, h2⟩ := hmem
        simp only [List.any_eq_true, decide_eq_true_eq]
        exact ⟨x, hx, h1, h2⟩
      · simp [Cloud.keys, configOfCreate]

theorem Cloud.rebuildConfig_ok (nb id : Int) (o : NodeBalancerConfigRebuildOptions)
    (c : Cloud) (cfg : NodeBalancerConfig) (h : (c.rebuildConfig nb id o).1 = .ok cfg) :
    (∃ x ∈ c.configs, x.NodeBalancerID = nb ∧ x.ID = id) ∧
    (c.rebuildConfig nb id o).2.configs
      = (c.configs.map fun x =>
          if x.NodeBalancerID = nb ∧ x.ID = id then configOfRebuild nb id o else x) ∧
    (c.rebuildConfig nb id o).2.nextID = c.nextID ∧
    (c.rebuildConfig nb id o).2.balancers = c.balancers := by
  unfold Cloud.rebuildConfig at h ⊢
  split at h
  · cases h
  · split at h
    · cases h
    · rename_i hb ht
      rw [if_neg hb, if_neg ht]
      refine ⟨?_, rfl, rfl, rfl⟩
      simpa using hb

/-- A rebuild that keeps the port of the config it replaces leaves the identifying
data of all configs as they were. -/
theorem Cloud.rebuildConfig_keys (nb id : Int) (o : NodeBalancerConfigRebuildOptions)
    (c : Cloud) (cfg : NodeBalancerConfig) (h : (c.rebuildConfig nb id o).1 = .ok cfg)
    (hport : ∀ x ∈ c.configs, x.NodeBalancerID = nb → x.ID = id → x.Port = o.Port) :
    (c.rebuildConfig nb id o).2.keys = c.keys := by
  have hc := (Cloud.rebuildConfig_ok nb id o c cfg h).2.1
  unfold Cloud.keys
  rw [hc, List.map_map]
  apply List.map_congr_left
  intro x hx
  simp only [Function.comp_apply]
  split
  · rename_i hcond
    simp [configOfRebuild, hcond.1, hcond.2, hport x hx hcond.1 hcond.2]
  · rfl

theorem Cloud.rebuildConfig_succeeds (nb id : Int) (o : NodeBalancerConfigRebuildOptions)
    (c : Cloud) (hex : ∃ x ∈ c.configs, x.NodeBalancerID = nb ∧ x.ID = id)
    (hfree : ∀ x ∈ c.configs, x.NodeBalancerID = nb → x.Port = o.Port → x.ID = id) :
    (c.rebuildConfig nb id o).1 = .ok (configOfRebuild nb id o) := by
  unfold Cloud.rebuildConfig
  have h1 : c.configs.any (fun x => x.NodeBalancerID = nb ∧ x.ID = id) = true := by
    simpa using hex
  have h2 : c.configs.any (fun x => x.NodeBalancerID = nb ∧ x.ID ≠ id ∧ x.Port = o.Port)
      = false := by
    rw [List.any_eq_false]
    intro x hx
    simp only [ne_eq, decide_eq_true_eq, not_and]
    intro hnb hid hp
    exact hid (hfree x hx hnb hp)
  rw [h1, h2]
  rfl

theorem Cloud.WF_of_keys_eq {c c2 : Cloud} (hk : c2.keys = c.keys) (hn : c2.nextID = c.nextID)
    (h : c.WF) : c2.WF :=
  ⟨by rw [hk]; exact h.ids_nodup, by rw [hk, hn]; exact h.ids_lt,
    by rw [hk]; exact h.ports_nodup⟩

theorem Cloud.WF_of_sublist {c c2 : Cloud} (hs : c2.configs.Sublist c.configs)
    (hn : c2.nextID = c.nextID) (h : c.WF) : c2.WF := by
  have hk : c2.keys.Sublist c.keys := List.Sublist.map _ hs
  refine ⟨List.Nodup.sublist (List.Sublist.map _ hk) h.ids_nodup, ?_,
    List.Nodup.sublist (List.Sublist.map _ hk) h.ports_nodup⟩
  intro k hkm
  rw [hn]
  exact h.ids_lt k (hk.subset hkm)

theorem Cloud.WF_append {c c2 : Cloud} (nb port : Int)
    (hk : c2.keys = c.keys ++ [(c.nextID, nb, port)]) (hn : c2.nextID = c.nextID + 1)
    (hfree : (nb, port) ∉ c.keys.map (fun k => k.2)) (h : c.WF) : c2.WF := by
  refine ⟨?_, ?_, ?_⟩
  · rw [hk, List.map_append, List.nodup_append]
    refine ⟨h.ids_nodup, by simp, ?_⟩
    intro i hi hi2
    simp only [List.map_cons, List.map_nil, List.mem_singleton] at hi2
    obtain ⟨k, hkm, hki⟩ := List.mem_map.1 hi
    have := h.ids_lt k hkm
    rw [hki, hi2] at this
    exact lt_irrefl _ this
  · intro k hkm
    rw [hk, List.mem_append] at hkm
    rw [hn]
    rcases hkm with hkm | hkm
    · exact lt_trans (h.ids_lt k hkm) (by omega)
    · simp only [List.mem_singleton] at hkm
      rw [hkm]
      simp
  · rw [hk, List.map_append, List.nodup_append]
    refine ⟨h.ports_nodup, by simp, ?_⟩
    intro i hi hi2
    simp only [List.map_cons, List.map_nil, List.mem_singleton] at hi2
    rw [hi2] at hi
    exact hfree hi

/-! ## `UpdateLoadBalancer` against the in-memory provider -/

/-- Deleting the unused configs on the in-memory provider: configs are only
removed, the id counter and the balancers stay, and no config addressed by an
unused listed config is left. -/
theorem deleteUnusedConfigs_cloud (l : loadbalancers Cloud) (hl : l.client = cloudClient)
    (cfgs : List NodeBalancerConfig) (ports : List ServicePort) (c : Cloud)
    (hok : (deleteUnusedConfigs l cfgs ports c).val = none) :
    (deleteUnusedConfigs l cfgs ports c).state.configs.Sublist c.configs ∧
    (deleteUnusedConfigs l cfgs ports c).state.nextID = c.nextID ∧
    (deleteUnusedConfigs l cfgs ports c).state.balancers = c.balancers ∧
    (∀ e ∈ cfgs, (∀ sp ∈ ports, e.Port ≠ sp.Port) →
      ∀ x ∈ (deleteUnusedConfigs l cfgs ports c).state.configs,
        ¬ (x.NodeBalancerID = e.NodeBalancerID ∧ x.ID = e.ID)) := by
  induction cfgs generalizing c with
  | nil => exact ⟨List.Sublist.refl _, rfl, rfl, by simp⟩
  | cons e rest ih =>
    by_cases hu : portInUse e ports = true
    · have heq : deleteUnusedConfigs l (e :: rest) ports c = deleteUnusedConfigs l rest ports c := by
        simp [deleteUnusedConfigs, hu]
      rw [heq] at hok ⊢
      obtain ⟨h1, h2, h3, h4⟩ := ih c hok
      refine ⟨h1, h2, h3, ?_⟩
      intro e2 he2 hun
      rcases List.mem_cons.1 he2 with he2 | he2
      · subst he2
        obtain ⟨sp, hsp, hp⟩ := (portInUse_iff _ _).1 hu
        exact absurd hp (hun sp hsp)
      · exact h4 e2 he2 hun
    · have hu2 : portInUse e ports = false := by simpa using hu
      have hdc : l.client.DeleteNodeBalancerConfig = Cloud.deleteConfig := by rw [hl]; rfl
      obtain ⟨d1, d2, d3, d4⟩ := Cloud.deleteConfig_state e.NodeBalancerID e.ID c
      cases hd : (c.deleteConfig e.NodeBalancerID e.ID).1 with
      | some err =>
        simp [deleteUnusedConfigs, hu2, hdc, hd] at hok
      | none =>
        have heq : deleteUnusedConfigs l (e :: rest) ports c
            = (deleteUnusedConfigs l rest ports (c.deleteConfig e.NodeBalancerID e.ID).2).after
                [.DeleteNodeBalancerConfig e.NodeBalancerID e.ID] := by
          simp [deleteUnusedConfigs, hu2, hdc, hd]
        rw [heq] at hok ⊢
        simp only [Run.after] at hok ⊢
        obtain ⟨h1, h2, h3, h4⟩ := ih _ hok
        refine ⟨h1.trans d1, h2.trans d2, h3.trans d3, ?_⟩
        intro e2 he2 hun x hx
        rcases List.mem_cons.1 he2 with he2 | he2
        · subst he2
          exact d4 hd x (h1.subset hx)
        · exact h4 e2 he2 hun x hx

/-- One pass of the port loop body on the in-memory provider, ending without
error: the invariant is kept, the port has its config afterwards, and no pair of
balancer and port loses its config. -/
theorem syncPort_cloud (P : Platform) (l : loadbalancers Cloud) (hl : l.client = cloudClient)
    (service : Service) (nodes : List Node) (b : Int) (nbCfgs : List NodeBalancerConfig)
    (sp : ServicePort) (c : Cloud) (t : String)
    (hcheck : getHealthCheckType P service = (t, none))
    (hinv : PortsInv service b nbCfgs c) (hsp : sp ∈ service.Ports)
    (hok : (UpdateLoadBalancer.syncPort P l service nodes b nbCfgs sp c).val = none) :
    PortsInv service b nbCfgs (UpdateLoadBalancer.syncPort P l service nodes b nbCfgs sp c).state ∧
    (b, sp.Port) ∈ (UpdateLoadBalancer.syncPort P l service nodes b nbCfgs sp c).state.keys.map
      (fun k => k.2) ∧
    (∀ k ∈ c.keys.map (fun k => k.2),
      k ∈ (UpdateLoadBalancer.syncPort P l service nodes b nbCfgs sp c).state.keys.map
        (fun k => k.2)) ∧
    (UpdateLoadBalancer.syncPort P l service nodes b nbCfgs sp c).state.balancers = c.balancers := by
  have hrc : l.client.RebuildNodeBalancerConfig = Cloud.rebuildConfig := by rw [hl]; rfl
  have hcc : l.client.CreateNodeBalancerConfig = Cloud.createConfig := by rw [hl]; rfl
  by_cases hudp : sp.Protocol = ProtocolUDP
  · simp [UpdateLoadBalancer.syncPort, hudp] at hok
  cases hb : (buildNodeBalancerConfig P l service sp.Port).2 with
  | some err => simp [UpdateLoadBalancer.syncPort, hudp, hb] at hok
  | none =>
    have hport := buildNodeBalancerConfig_port P l service sp.Port t hcheck hb
    cases hf : nbCfgs.find? (fun nbc => nbc.Port = sp.Port) with
    | some e =>
      have hemem := List.mem_of_find?_eq_some hf
      have heport : e.Port = sp.Port := by simpa using List.find?_some hf
      generalize hopts : ({ (buildNodeBalancerConfig P l service sp.Port).1.GetRebuildOptions with
        Nodes := appendNodes nodes sp.NodePort [] } : NodeBalancerConfigRebuildOptions) = opts
      have hoport : opts.Port = sp.Port := by
        rw [← hopts]; simpa [NodeBalancerConfig.GetRebuildOptions] using hport
      cases hr : (c.rebuildConfig b e.ID opts).1 with
      | error err =>
        simp [UpdateLoadBalancer.syncPort, hudp, hb, hf, hrc, hopts, hr] at hok
      | ok cfg =>
        have hst : (UpdateLoadBalancer.syncPort P l service nodes b nbCfgs sp c).state
            = (c.rebuildConfig b e.ID opts).2 := by
          simp [UpdateLoadBalancer.syncPort, hudp, hb, hf, hrc, hopts, hr]
        rw [hst]
        obtain ⟨hex, _, hn, hbal⟩ := Cloud.rebuildConfig_ok b e.ID opts c cfg hr
        have hkeys : (c.rebuildConfig b e.ID opts).2.keys = c.keys := by
          apply Cloud.rebuildConfig_keys b e.ID opts c cfg hr
          intro x hx _ hid
          have := hinv.kept e hemem (x.ID, x.NodeBalancerID, x.Port)
            (Cloud.mem_keys.2 ⟨x, hx, rfl⟩) hid
          simp only [Prod.mk.injEq] at this
          rw [this.2, heport, hoport]
        refine ⟨⟨Cloud.WF_of_keys_eq hkeys hn hinv.wf, ?_, ?_, ?_⟩, ?_, ?_, hbal⟩
        · rw [hkeys]; exact hinv.used
        · rw [hkeys]; exact hinv.kept
        · rw [hn]; exact hinv.old
        · rw [hkeys]
          obtain ⟨x, hx, hxb, hxid⟩ := hex
          have := hinv.kept e hemem (x.ID, x.NodeBalancerID, x.Port)
            (Cloud.mem_keys.2 ⟨x, hx, rfl⟩) hxid
          simp only [Prod.mk.injEq] at this
          refine List.mem_map.2 ⟨(x.ID, x.NodeBalancerID, x.Port),
            Cloud.mem_keys.2 ⟨x, hx, rfl⟩, ?_⟩
          simp [this.1, this.2, heport]
        · rw [hkeys]; exact fun k hk => hk
    | none =>
      generalize hopts : ({ (buildNodeBalancerConfig P l service sp.Port).1.GetCreateOptions with
        Nodes := appendNodes nodes sp.NodePort [] } : NodeBalancerConfigCreateOptions) = opts
      have hoport : opts.Port = sp.Port := by
        rw [← hopts]; simpa [NodeBalancerConfig.GetCreateOptions] using hport
      cases hr : (c.createConfig b opts).1 with
      | error err =>
        simp [UpdateLoadBalancer.syncPort, hudp, hb, hf, hcc, hopts, hr] at hok
      | ok cfg =>
        have hst : (UpdateLoadBalancer.syncPort P l service nodes b nbCfgs sp c).state
            = (c.createConfig b opts).2 := by
          simp [UpdateLoadBalancer.syncPort, hudp, hb, hf, hcc, hopts, hr]
        rw [hst]
        obtain ⟨hfree, hkeys, hn, hbal⟩ := Cloud.createConfig_ok b opts c cfg hr
        rw [hoport] at hfree hkeys
        refine ⟨⟨Cloud.WF_append b sp.Port hkeys hn hfree hinv.wf, ?_, ?_, ?_⟩, ?_, ?_, hbal⟩
        · intro k hk hkb
          rw [hkeys, List.mem_append] at hk
          rcases hk with hk | hk
          · exact hinv.used k hk hkb
          · simp only [List.mem_singleton] at hk
            exact ⟨sp, hsp, by rw [hk]⟩
        · intro e he k hk hid
          rw [hkeys, List.mem_append] at hk
          rcases hk with hk | hk
          · exact hinv.kept e he k hk hid
          · simp only [List.mem_singleton] at hk
            have := hinv.old e he
            rw [hk] at hid
            simp only at hid
            omega
        · intro e he
          rw [hn]
          exact lt_trans (hinv.old e he) (by omega)
        · rw [hkeys]
          simp
        · intro k hk
          rw [hkeys, List.map_append]
          exact List.mem_append_left _ hk

/-- The port loop on the in-memory provider, ending without error: the invariant is
kept, every port of the loop has its config afterwards, and no pair of balancer and
port loses its config. -/
theorem syncPorts_cloud (P : Platform) (l : loadbalancers Cloud) (hl : l.client = cloudClient)
    (service : Service) (nodes : List Node) (b : Int) (nbCfgs : List NodeBalancerConfig)
    (t : String) (hcheck : getHealthCheckType P service = (t, none))
    (ports : List ServicePort) (c : Cloud)
    (hinv : PortsInv service b nbCfgs c) (hsub : ∀ sp ∈ ports, sp ∈ service.Ports)
    (hok : (UpdateLoadBalancer.syncPorts P l service nodes b nbCfgs ports c).val = none) :
    PortsInv service b nbCfgs
      (UpdateLoadBalancer.syncPorts P l service nodes b nbCfgs ports c).state ∧
    (∀ sp ∈ ports, (b, sp.Port) ∈
      (UpdateLoadBalancer.syncPorts P l service nodes b nbCfgs ports c).state.keys.map
        (fun k => k.2)) ∧
    (∀ k ∈ c.keys.map (fun k => k.2),
      k ∈ (UpdateLoadBalancer.syncPorts P l service nodes b nbCfgs ports c).state.keys.map
        (fun k => k.2)) ∧
    (UpdateLoadBalancer.syncPorts P l service nodes b nbCfgs ports c).state.balancers
      = c.balancers := by
  induction ports generalizing c with
  | nil => exact ⟨hinv, by simp, fun k hk => hk, rfl⟩
  | cons sp rest ih =>
    cases hv : (UpdateLoadBalancer.syncPort P l service nodes b nbCfgs sp c).val with
    | some err => simp [UpdateLoadBalancer.syncPorts, hv] at hok
    | none =>
      have heq : UpdateLoadBalancer.syncPorts P l service nodes b nbCfgs (sp :: rest) c
          = (UpdateLoadBalancer.syncPorts P l service nodes b nbCfgs rest
              (UpdateLoadBalancer.syncPort P l service nodes b nbCfgs sp c).state).after
              (UpdateLoadBalancer.syncPort P l service nodes b nbCfgs sp c).calls := by
        simp [UpdateLoadBalancer.syncPorts, hv]
      rw [heq] at hok ⊢
      simp only [Run.after] at hok ⊢
      obtain ⟨s1, s2, s3, s4⟩ := syncPort_cloud P l hl service nodes b nbCfgs sp c t hcheck hinv
        (hsub sp (List.mem_cons_self _ _)) hv
      obtain ⟨r1, r2, r3, r4⟩ := ih _ s1 (fun q hq => hsub q (List.mem_cons_of_mem _ hq)) hok
      refine ⟨r1, ?_, fun k hk => r3 k (s3 k hk), r4.trans s4⟩
      intro q hq
      rcases List.mem_cons.1 hq with hq | hq
      · rw [hq]; exact r3 _ s2
      · exact r2 q hq

/-- On the in-memory provider the invariant of the port loop holds once the unused
configs of the listed configs of balancer `b` are deleted. -/
theorem PortsInv_after_delete (l : loadbalancers Cloud) (hl : l.client = cloudClient)
    (service : Service) (b : Int) (c : Cloud) (hwf : c.WF)
    (hok : (deleteUnusedConfigs l (c.configsOf b) service.Ports c).val = none) :
    PortsInv service b (c.configsOf b)
      (deleteUnusedConfigs l (c.configsOf b) service.Ports c).state := by
  obtain ⟨h1, h2, h3, h4⟩ := deleteUnusedConfigs_cloud l hl (c.configsOf b) service.Ports c hok
  refine ⟨Cloud.WF_of_sublist h1 h2 hwf, ?_, ?_, ?_⟩
  · intro k hk hkb
    obtain ⟨x, hx, hxk⟩ := Cloud.mem_keys.1 hk
    have hxc : x ∈ c.configsOf b := by
      refine Cloud.mem_configsOf.2 ⟨h1.subset hx, ?_⟩
      rw [← hxk] at hkb
      exact hkb
    by_contra hno
    have hun : ∀ sp ∈ service.Ports, x.Port ≠ sp.Port := by
      intro sp hsp hp
      apply hno
      refine ⟨sp, hsp, ?_⟩
      rw [← hxk]
      exact hp
    exact h4 x hxc hun x hx ⟨rfl, rfl⟩
  · intro e he k hk hid
    obtain ⟨x, hx, hxk⟩ := Cloud.mem_keys.1 hk
    have hec := Cloud.mem_configsOf.1 he
    have hxe : x = e := by
      apply List.inj_on_of_nodup_map (f := fun x : NodeBalancerConfig => x.ID) ?_
        (h1.subset hx) hec.1
      · rw [← hxk] at hid
        exact hid
      · have := hwf.ids_nodup
        simpa [Cloud.keys, List.map_map, Function.comp_def] using this
    rw [← hxk, hxe]
    simp [hec.2]
  · intro e he
    rw [h2]
    have hec := Cloud.mem_configsOf.1 he
    exact hwf.ids_lt (e.ID, e.NodeBalancerID, e.Port) (Cloud.mem_keys.2 ⟨e, hec.1, rfl⟩)

theorem filter_length_eq_one {α β : Type} [DecidableEq β] (f : α → β) (xs : List α) (a : β)
    (hnd : (xs.map f).Nodup) (hm : a ∈ xs.map f) :
    (xs.filter fun x => decide (f x = a)).length = 1 := by
  induction xs with
  | nil => simp at hm
  | cons x xs ih =>
    simp only [List.map_cons, List.nodup_cons] at hnd
    by_cases hx : f x = a
    · have hnone : (xs.filter fun y => decide (f y = a)) = [] := by
        rw [List.filter_eq_nil_iff]
        intro y hy
        simp only [decide_eq_true_eq]
        intro hya
        apply hnd.1
        rw [hx, ← hya]
        exact List.mem_map_of_mem f hy
      simp [List.filter_cons, hx, hnone]
    · have hm2 : a ∈ xs.map f := by
        simp only [List.map_cons, List.mem_cons] at hm
        rcases hm with hm | hm
        · exact absurd hm.symm hx
        · exact hm
      simp [List.filter_cons, hx, ih hnd.2 hm2]

/-- In a well-formed state a pair of balancer and port that carries a config
carries exactly one. -/
theorem Cloud.one_config_on_port (c : Cloud) (hwf : c.WF) (b p : Int)
    (hmem : (b, p) ∈ c.keys.map (fun k => k.2)) :
    ((c.configsOf b).filter (fun x => x.Port = p)).length = 1 := by
  have hnd : (c.configs.map fun x => (x.NodeBalancerID, x.Port)).Nodup := by
    have := hwf.ports_nodup
    simpa [Cloud.keys, List.map_map, Function.comp_def] using this
  have hm : (b, p) ∈ c.configs.map fun x => (x.NodeBalancerID, x.Port) := by
    simpa [Cloud.keys, List.map_map, Function.comp_def] using hmem
  have hone := filter_length_eq_one (fun x : NodeBalancerConfig => (x.NodeBalancerID, x.Port))
    c.configs (b, p) hnd hm
  rw [← hone]
  unfold Cloud.configsOf
  rw [List.filter_filter]
  congr 1
  apply List.filter_congr
  intro x _
  by_cases h1 : x.NodeBalancerID = b <;> by_cases h2 : x.Port = p <;> simp [h1, h2]

/-- The second half of `UpdateLoadBalancer` on the in-memory provider, ending
without error: the state stays well formed, every config of the balancer is on a
service port, every service port has its config, and the balancers are as before. -/
theorem syncConfigs_cloud (P : Platform) (l : loadbalancers Cloud) (hl : l.client = cloudClient)
    (service : Service) (nodes : List Node) (lb : NodeBalancer) (c : Cloud) (t : String)
    (hcheck : getHealthCheckType P service = (t, none)) (hwf : c.WF)
    (hok : (UpdateLoadBalancer.syncConfigs P l service nodes lb c).val = none) :
    (UpdateLoadBalancer.syncConfigs P l service nodes lb c).state.WF ∧
    (∀ k ∈ (UpdateLoadBalancer.syncConfigs P l service nodes lb c).state.keys, k.2.1 = lb.ID →
      ∃ sp ∈ service.Ports, k.2.2 = sp.Port) ∧
    (∀ sp ∈ service.Ports, (lb.ID, sp.Port) ∈
      (UpdateLoadBalancer.syncConfigs P l service nodes lb c).state.keys.map (fun k => k.2)) ∧
    (UpdateLoadBalancer.syncConfigs P l service nodes lb c).state.balancers = c.balancers ∧
    c.hasBalancer lb.ID = true := by
  have hlc : l.client.ListNodeBalancerConfigs = Cloud.listConfigs := by rw [hl]; rfl
  have hls := Cloud.listConfigs_state lb.ID c
  cases hlist : (c.listConfigs lb.ID).1 with
  | error err => simp [UpdateLoadBalancer.syncConfigs, hlc, hlist] at hok
  | ok nbCfgs =>
    obtain ⟨hcfgs, hhas⟩ := Cloud.listConfigs_ok lb.ID c nbCfgs hlist
    subst hcfgs
    cases hd : (deleteUnusedConfigs l (c.configsOf lb.ID) service.Ports c).val with
    | some err => simp [UpdateLoadBalancer.syncConfigs, hlc, hlist, hls, hd] at hok
    | none =>
      have heq : UpdateLoadBalancer.syncConfigs P l service nodes lb c
          = (UpdateLoadBalancer.syncPorts P l service nodes lb.ID (c.configsOf lb.ID)
              service.Ports (deleteUnusedConfigs l (c.configsOf lb.ID) service.Ports c).state).after
              (.ListNodeBalancerConfigs lb.ID
                :: (deleteUnusedConfigs l (c.configsOf lb.ID) service.Ports c).calls) := by
        simp [UpdateLoadBalancer.syncConfigs, hlc, hlist, hls, hd]
      rw [heq] at hok ⊢
      simp only [Run.after] at hok ⊢
      have hinv := PortsInv_after_delete l hl service lb.ID c hwf hd
      obtain ⟨_, _, d3, _⟩ := deleteUnusedConfigs_cloud l hl (c.configsOf lb.ID) service.Ports c hd
      obtain ⟨r1, r2, _, r4⟩ := syncPorts_cloud P l hl service nodes lb.ID (c.configsOf lb.ID) t
        hcheck service.Ports _ hinv (fun sp hsp => hsp) hok
      exact ⟨r1.wf, r1.used, r2, r4.trans d3, hhas⟩

theorem lbByName_cloud (l : loadbalancers Cloud) (hl : l.client = cloudClient) (name : String)
    (s : Cloud) :
    (lbByName l name s).state = s ∧
    (∀ lb, (lbByName l name s).val = .ok lb ↔
      ∃ rest, (s.balancers.filter fun b => b.Label = some name) = lb :: rest) := by
  have hlb : l.client.ListNodeBalancers = Cloud.listBalancers := by rw [hl]; rfl
  refine ⟨by rw [lbByName_state, hlb]; rfl, fun lb => ?_⟩
  unfold lbByName
  simp only [hlb, Cloud.listBalancers]
  cases hf : (s.balancers.filter fun b => b.Label = some name) with
  | nil => simp
  | cons x xs => simp

/-- After the update of the balancers with the id of `lb`, to the label of `lb` and
a new throttle, the first balancer with that label has the id of `lb` and the new
throttle. -/
theorem filter_head_after_update (bs : List NodeBalancer) (name : String) (lb : NodeBalancer)
    (rest : List NodeBalancer) (o : NodeBalancerUpdateOptions) (n : Int)
    (h : (bs.filter fun b => b.Label = some name) = lb :: rest)
    (hlabel : o.Label = some name) (hthrottle : o.ClientConnThrottle = some n) :
    ∃ lb3 rest3,
      ((bs.map fun x => if x.ID = lb.ID then applyUpdate o x else x).filter
        fun b => b.Label = some name) = lb3 :: rest3 ∧
      lb3.ID = lb.ID ∧ lb3.ClientConnThrottle = n := by
  induction bs with
  | nil => simp at h
  | cons x xs ih =>
    have hup : (applyUpdate o x).Label = some name ∧ (applyUpdate o x).ID = x.ID ∧
        (applyUpdate o x).ClientConnThrottle = n := by
      simp [applyUpdate, hlabel, hthrottle]
    by_cases hx : x.Label = some name
    · have hlbx : lb = x := by
        simp only [List.filter_cons, hx, decide_True, if_true, List.cons.injEq] at h
        exact h.1.symm
      subst hlbx
      refine ⟨applyUpdate o lb,
        ((xs.map fun x => if x.ID = lb.ID then applyUpdate o x else x).filter
          fun b => b.Label = some name), ?_, hup.2.1, hup.2.2⟩
      simp only [List.map_cons, if_true, List.filter_cons, hup.1, decide_True]
    · have h2 : (xs.filter fun b => b.Label = some name) = lb :: rest := by
        simpa [List.filter_cons, hx] using h
      by_cases hid : x.ID = lb.ID
      · refine ⟨applyUpdate o x,
          ((xs.map fun x => if x.ID = lb.ID then applyUpdate o x else x).filter
            fun b => b.Label = some name), ?_, hup.2.1.trans hid, hup.2.2⟩
        simp only [List.map_cons, hid, if_true, List.filter_cons, hup.1, decide_True]
      · obtain ⟨lb3, rest3, hf, h3⟩ := ih h2
        refine ⟨lb3, rest3, ?_, h3⟩
        simp only [List.map_cons, hid, if_false, List.filter_cons, hx, decide_False]
        exact hf

/-- The throttle step on the in-memory provider, ending without error: the balancer
keeps its id, configs and id counter stay, and afterwards the first balancer with
the service's name has the id of `lb` and the desired throttle. -/
theorem syncThrottle_cloud (P : Platform) (l : loadbalancers Cloud) (hl : l.client = cloudClient)
    (service : Service) (s : Cloud) (lb lb2 : NodeBalancer) (rest : List NodeBalancer)
    (hfil : (s.balancers.filter fun b => b.Label = some (P.GetLoadBalancerName service))
      = lb :: rest)
    (hv : (UpdateLoadBalancer.syncThrottle P l service lb s).val = .ok lb2) :
    lb2.ID = lb.ID ∧
    (UpdateLoadBalancer.syncThrottle P l service lb s).state.configs = s.configs ∧
    (UpdateLoadBalancer.syncThrottle P l service lb s).state.nextID = s.nextID ∧
    (∃ lb3 rest3,
      ((UpdateLoadBalancer.syncThrottle P l service lb s).state.balancers.filter
        fun b => b.Label = some (P.GetLoadBalancerName service)) = lb3 :: rest3 ∧
      lb3.ID = lb.ID ∧ lb3.ClientConnThrottle = getConnectionThrottle P service) := by
  have hub : l.client.UpdateNodeBalancer = Cloud.updateBalancer := by rw [hl]; rfl
  have hlabel : lb.Label = some (P.GetLoadBalancerName service) := by
    have : lb ∈ s.balancers.filter fun b => b.Label = some (P.GetLoadBalancerName service) := by
      rw [hfil]; exact List.mem_cons_self _ _
    simpa using (List.mem_filter.1 this).2
  by_cases hd : getConnectionThrottle P service ≠ lb.ClientConnThrottle
  · generalize hopts : ({ lb.GetUpdateOptions with
        ClientConnThrottle := some (getConnectionThrottle P service) }
          : NodeBalancerUpdateOptions) = opts
    have hol : opts.Label = some (P.GetLoadBalancerName service) := by
      rw [← hopts]; simpa [NodeBalancer.GetUpdateOptions] using hlabel
    have hot : opts.ClientConnThrottle = some (getConnectionThrottle P service) := by
      rw [← hopts]
    obtain ⟨u1, u2, u3⟩ := Cloud.updateBalancer_state lb.ID opts s
    cases hu : (s.updateBalancer lb.ID opts).1 with
    | error err =>
      simp [UpdateLoadBalancer.syncThrottle, hd, hub, hopts, hu] at hv
    | ok updated =>
      have hst : (UpdateLoadBalancer.syncThrottle P l service lb s).state
          = (s.updateBalancer lb.ID opts).2 := by
        simp [UpdateLoadBalancer.syncThrottle, hd, hub, hopts, hu]
      have hval : lb2 = updated := by
        simp [UpdateLoadBalancer.syncThrottle, hd, hub, hopts, hu] at hv
        exact hv.symm
      obtain ⟨hid, hbal⟩ := u3 updated hu
      rw [hst, hval]
      refine ⟨hid, u1, u2, ?_⟩
      rw [hbal]
      exact filter_head_after_update s.balancers _ lb rest opts _ hfil hol hot
  · have hd2 : getConnectionThrottle P service = lb.ClientConnThrottle := by
      simpa using hd
    have hst : (UpdateLoadBalancer.syncThrottle P l service lb s).state = s := by
      simp [UpdateLoadBalancer.syncThrottle, hd2]
    have hval : lb2 = lb := by
      simp [UpdateLoadBalancer.syncThrottle, hd2] at hv
      exact hv.symm
    rw [hst, hval]
    exact ⟨rfl, rfl, rfl, lb, rest, hfil, rfl, hd2.symm⟩

/-- A run of `UpdateLoadBalancer` on the in-memory provider that ends without
error, for a service with an accepted health-check type: the state stays well
formed, every config of the resolved balancer is on a service port, every service
port has its config, the balancer is still there, and the first balancer with the
service's name has the id of the resolved one and the desired throttle. -/
theorem UpdateLoadBalancer_cloud (P : Platform) (l : loadbalancers Cloud)
    (hl : l.client = cloudClient) (service : Service) (nodes : List Node) (s : Cloud)
    (t : String) (hcheck : getHealthCheckType P service = (t, none)) (hwf : s.WF)
    (lb : NodeBalancer)
    (hres : (lbByName l (P.GetLoadBalancerName service) s).val = .ok lb)
    (hok : (UpdateLoadBalancer P l service nodes s).val = none) :
    (UpdateLoadBalancer P l service nodes s).state.WF ∧
    (∀ k ∈ (UpdateLoadBalancer P l service nodes s).state.keys, k.2.1 = lb.ID →
      ∃ sp ∈ service.Ports, k.2.2 = sp.Port) ∧
    (∀ sp ∈ service.Ports, (lb.ID, sp.Port) ∈
      (UpdateLoadBalancer P l service nodes s).state.keys.map (fun k => k.2)) ∧
    (UpdateLoadBalancer P l service nodes s).state.hasBalancer lb.ID = true ∧
    (∃ lb3 rest3,
      ((UpdateLoadBalancer P l service nodes s).state.balancers.filter
        fun b => b.Label = some (P.GetLoadBalancerName service)) = lb3 :: rest3 ∧
      lb3.ID = lb.ID ∧ lb3.ClientConnThrottle = getConnectionThrottle P service) := by
  obtain ⟨hs0, hval0⟩ := lbByName_cloud l hl (P.GetLoadBalancerName service) s
  obtain ⟨rest, hfil⟩ := (hval0 lb).1 hres
  cases hthr : (UpdateLoadBalancer.syncThrottle P l service lb s).val with
  | error err => simp [UpdateLoadBalancer, hres, hs0, hthr] at hok
  | ok lb2 =>
    have heq : UpdateLoadBalancer P l service nodes s
        = (UpdateLoadBalancer.syncConfigs P l service nodes lb2
            (UpdateLoadBalancer.syncThrottle P l service lb s).state).after
            ((lbByName l (P.GetLoadBalancerName service) s).calls
              ++ (UpdateLoadBalancer.syncThrottle P l service lb s).calls) := by
      simp [UpdateLoadBalancer, hres, hs0, hthr]
    rw [heq] at hok ⊢
    simp only [Run.after] at hok ⊢
    obtain ⟨t1, t2, t3, lb3, rest3, t4, t5, t6⟩ :=
      syncThrottle_cloud P l hl service s lb lb2 rest hfil hthr
    have hkeys : (UpdateLoadBalancer.syncThrottle P l service lb s).state.keys = s.keys := by
      simp [Cloud.keys, t2]
    have hwf1 := Cloud.WF_of_keys_eq hkeys t3 hwf
    obtain ⟨c1, c2, c3, c4, c5⟩ := syncConfigs_cloud P l hl service nodes lb2 _ t hcheck hwf1 hok
    rw [t1] at c2 c3 c5
    refine ⟨c1, c2, c3, ?_, lb3, rest3, ?_, t5, t6⟩
    · unfold Cloud.hasBalancer at c5 ⊢
      rw [c4]; exact c5
    · rw [c4]; exact t4

/-! ## Convergence of the port configs -/

/-- C2. Against the in-memory provider, which applies every call, in a well-formed
state, for a service whose health-check type annotation is accepted: after
`UpdateLoadBalancer` has returned without error, the resolved balancer has exactly
one port config for every port number of the service, and no port config on a port
that is absent from the service's port list. -/
theorem UpdateLoadBalancer_converges_ports (P : Platform) (l : loadbalancers Cloud)
    (hl : l.client = cloudClient) (service : Service) (nodes : List Node) (s : Cloud)
    (hwf : s.WF) (hcheck : ∃ t, getHealthCheckType P service = (t, none)) (lb : NodeBalancer)
    (hres : (lbByName l (P.GetLoadBalancerName service) s).val = .ok lb)
    (hok : (UpdateLoadBalancer P l service nodes s).val = none) :
    (∀ sp ∈ service.Ports,
      (((UpdateLoadBalancer P l service nodes s).state.configsOf lb.ID).filter
        fun cfg => cfg.Port = sp.Port).length = 1) ∧
    (∀ cfg ∈ (UpdateLoadBalancer P l service nodes s).state.configsOf lb.ID,
      ∃ sp ∈ service.Ports, cfg.Port = sp.Port) := by
  obtain ⟨t, ht⟩ := hcheck
  obtain ⟨h1, h2, h3, _, _⟩ := UpdateLoadBalancer_cloud P l hl service nodes s t ht hwf lb hres hok
  refine ⟨fun sp hsp => Cloud.one_config_on_port _ h1 lb.ID sp.Port (h3 sp hsp), ?_⟩
  intro cfg hcfg
  obtain ⟨hmem, hb⟩ := Cloud.mem_configsOf.1 hcfg
  exact h2 (cfg.ID, cfg.NodeBalancerID, cfg.Port) (Cloud.mem_keys.2 ⟨cfg, hmem, rfl⟩) hb

theorem staleCloud_wf : staleCloud.WF :=
  ⟨by decide, by decide, by decide⟩

theorem sampleCloud_wf : sampleCloud.WF :=
  ⟨by decide, by decide, by decide⟩

/-- C2 at a concrete input: the service with ports 80 and 8080 on a balancer that
holds configs on ports 80 and 9090. After the run the balancer has one config on
each of 80 and 8080 and none elsewhere. -/
theorem UpdateLoadBalancer_converges_ports_witness :
    (∀ sp ∈ twoPortService.Ports,
      (((UpdateLoadBalancer samplePlatform sampleLB twoPortService [sampleNode]
          staleCloud).state.configsOf sampleBalancer.ID).filter
        fun cfg => cfg.Port = sp.Port).length = 1) ∧
    (∀ cfg ∈ (UpdateLoadBalancer samplePlatform sampleLB twoPortService [sampleNode]
        staleCloud).state.configsOf sampleBalancer.ID,
      ∃ sp ∈ twoPortService.Ports, cfg.Port = sp.Port) :=
  UpdateLoadBalancer_converges_ports samplePlatform sampleLB rfl twoPortService [sampleNode]
    staleCloud staleCloud_wf ⟨"connection", rfl⟩ sampleBalancer rfl (by decide)

/-! ## A second run -/

/-- A port that the loop body finishes without error is not UDP and has its config
built without error. -/
theorem syncPort_ok_port {σ : Type} (P : Platform) (l : loadbalancers σ) (service : Service)
    (nodes : List Node) (lbID : Int) (nbCfgs : List NodeBalancerConfig) (port : ServicePort)
    (s : σ)
    (h : (UpdateLoadBalancer.syncPort P l service nodes lbID nbCfgs port s).val = none) :
    port.Protocol ≠ ProtocolUDP ∧ (buildNodeBalancerConfig P l service port.Port).2 = none := by
  by_cases hudp : port.Protocol = ProtocolUDP
  · simp [UpdateLoadBalancer.syncPort, hudp] at h
  · refine ⟨hudp, ?_⟩
    cases hb : (buildNodeBalancerConfig P l service port.Port).2 with
    | some err => simp [UpdateLoadBalancer.syncPort, hudp, hb] at h
    | none => rfl

theorem syncPorts_ok_ports {σ : Type} (P : Platform) (l : loadbalancers σ) (service : Service)
    (nodes : List Node) (lbID : Int) (nbCfgs : List NodeBalancerConfig)
    (ports : List ServicePort) (s : σ)
    (h : (UpdateLoadBalancer.syncPorts P l service nodes lbID nbCfgs ports s).val = none) :
    ∀ port ∈ ports, port.Protocol ≠ ProtocolUDP ∧
      (buildNodeBalancerConfig P l service port.Port).2 = none := by
  induction ports generalizing s with
  | nil => simp
  | cons port rest ih =>
    cases hv : (UpdateLoadBalancer.syncPort P l service nodes lbID nbCfgs port s).val with
    | some err => simp [UpdateLoadBalancer.syncPorts, hv] at h
    | none =>
      have h2 : (UpdateLoadBalancer.syncPorts P l service nodes lbID nbCfgs rest
          (UpdateLoadBalancer.syncPort P l service nodes lbID nbCfgs port s).state).val
            = none := by
        simpa [UpdateLoadBalancer.syncPorts, hv, Run.after] using h
      intro q hq
      rcases List.mem_cons.1 hq with hq | hq
      · rw [hq]; exact syncPort_ok_port P l service nodes lbID nbCfgs port s hv
      · exact ih _ h2 q hq

/-- A run of `UpdateLoadBalancer` that ends without error has found no UDP port and
has built the config of every service port without error. -/
theorem UpdateLoadBalancer_ok_ports {σ : Type} (P : Platform) (l : loadbalancers σ)
    (service : Service) (nodes : List Node) (s : σ)
    (h : (UpdateLoadBalancer P l service nodes s).val = none) :
    ∀ port ∈ service.Ports, port.Protocol ≠ ProtocolUDP ∧
      (buildNodeBalancerConfig P l service port.Port).2 = none := by
  unfold UpdateLoadBalancer at h
  simp only at h
  split at h
  · simp at h
  · split at h
    · simp at h
    · simp only [Run.after] at h
      unfold UpdateLoadBalancer.syncConfigs at h
      simp only at h
      split at h
      · simp at h
      · split at h
        · simp at h
        · simp only [Run.after] at h
          exact syncPorts_ok_ports P l service nodes _ _ service.Ports _ h

/-- When every observed config is on a service port, `deleteUnusedConfigs` issues
no call and leaves the provider as it is. -/
theorem deleteUnusedConfigs_all_used {σ : Type} (l : loadbalancers σ)
    (cfgs : List NodeBalancerConfig) (ports : List ServicePort) (s : σ)
    (h : ∀ e ∈ cfgs, ∃ sp ∈ ports, e.Port = sp.Port) :
    deleteUnusedConfigs l cfgs ports s = ⟨none, s, []⟩ := by
  induction cfgs with
  | nil => rfl
  | cons e rest ih =>
    have hu : portInUse e ports = true := (portInUse_iff _ _).2 (h e (List.mem_cons_self _ _))
    simp only [deleteUnusedConfigs, hu, if_true]
    exact ih (fun x hx => h x (List.mem_cons_of_mem _ hx))

/-- The port loop body on the in-memory provider for a port whose config is among
the listed ones, all of which are stored: the body ends without error after the one
rebuild call, and the identifying data of the configs stay as they are. -/
theorem syncPort_cloud_stable (P : Platform) (l : loadbalancers Cloud)
    (hl : l.client = cloudClient) (service : Service) (nodes : List Node) (b : Int)
    (nbCfgs : List NodeBalancerConfig) (sp : ServicePort) (c : Cloud) (t : String)
    (hcheck : getHealthCheckType P service = (t, none)) (hwf : c.WF)
    (hmem : ∀ e ∈ nbCfgs, (e.ID, b, e.Port) ∈ c.keys)
    (hudp : sp.Protocol ≠ ProtocolUDP)
    (hb : (buildNodeBalancerConfig P l service sp.Port).2 = none)
    (hex : ∃ e ∈ nbCfgs, e.Port = sp.Port) :
    (UpdateLoadBalancer.syncPort P l service nodes b nbCfgs sp c).val = none ∧
    (UpdateLoadBalancer.syncPort P l service nodes b nbCfgs sp c).calls
      = [portCallOf P l service nodes b nbCfgs sp] ∧
    (∃ cid opts, portCallOf P l service nodes b nbCfgs sp
        = .RebuildNodeBalancerConfig b cid opts ∧ opts.Port = sp.Port) ∧
    (UpdateLoadBalancer.syncPort P l service nodes b nbCfgs sp c).state.keys = c.keys ∧
    (UpdateLoadBalancer.syncPort P l service nodes b nbCfgs sp c).state.nextID = c.nextID := by
  have hrc : l.client.RebuildNodeBalancerConfig = Cloud.rebuildConfig := by rw [hl]; rfl
  have hport := buildNodeBalancerConfig_port P l service sp.Port t hcheck hb
  cases hf : nbCfgs.find? (fun nbc => nbc.Port = sp.Port) with
  | none =>
    obtain ⟨e, he, hp⟩ := hex
    have := List.find?_eq_none.1 hf e he
    simp [hp] at this
  | some e =>
    have hemem := List.mem_of_find?_eq_some hf
    have heport : e.Port = sp.Port := by simpa using List.find?_some hf
    generalize hopts : ({ (buildNodeBalancerConfig P l service sp.Port).1.GetRebuildOptions with
      Nodes := appendNodes nodes sp.NodePort [] } : NodeBalancerConfigRebuildOptions) = opts
    have hoport : opts.Port = sp.Port := by
      rw [← hopts]; simpa [NodeBalancerConfig.GetRebuildOptions] using hport
    have hkey := hmem e hemem
    obtain ⟨x0, hx0, hx0k⟩ := Cloud.mem_keys.1 hkey
    simp only [Prod.mk.injEq] at hx0k
    have hsame : ∀ x ∈ c.configs, x.NodeBalancerID = b → x.Port = sp.Port → x.ID = e.ID := by
      intro x hx hxb hxp
      have hk1 : (x.ID, x.NodeBalancerID, x.Port) ∈ c.keys := Cloud.mem_keys.2 ⟨x, hx, rfl⟩
      have := List.inj_on_of_nodup_map hwf.ports_nodup hk1 hkey
        (by simp [hxb, hxp, heport])
      simp only [Prod.mk.injEq] at this
      exact this.1
    have hsucc := Cloud.rebuildConfig_succeeds b e.ID opts c ⟨x0, hx0, hx0k.2.1, hx0k.1⟩
      (fun x hx hxb hxp => hsame x hx hxb (hxp.trans hoport))
    have hkeys := Cloud.rebuildConfig_keys b e.ID opts c _ hsucc (by
      intro x hx hxb hxid
      have hk1 : (x.ID, x.NodeBalancerID, x.Port) ∈ c.keys := Cloud.mem_keys.2 ⟨x, hx, rfl⟩
      have := List.inj_on_of_nodup_map hwf.ids_nodup hk1 hkey (by simp [hxid])
      simp only [Prod.mk.injEq] at this
      rw [this.2.2, heport, hoport])
    have hn := (Cloud.rebuildConfig_ok b e.ID opts c _ hsucc).2.2.1
    have hrun : UpdateLoadBalancer.syncPort P l service nodes b nbCfgs sp c
        = ⟨none, (c.rebuildConfig b e.ID opts).2, [.RebuildNodeBalancerConfig b e.ID opts]⟩ := by
      simp [UpdateLoadBalancer.syncPort, hudp, hb, hf, hrc, hopts, hsucc]
    have hcall : portCallOf P l service nodes b nbCfgs sp
        = .RebuildNodeBalancerConfig b e.ID opts := by
      simp [portCallOf, hf, ← hopts, appendNodes_nil]
    rw [hrun, hcall]
    exact ⟨rfl, rfl, ⟨e.ID, opts, rfl, hoport⟩, hkeys, hn⟩

/-- The port loop on the in-memory provider when every port of the loop has its
config among the listed ones, all of which are stored: the loop ends without error
after one rebuild call per port. -/
theorem syncPorts_cloud_stable (P : Platform) (l : loadbalancers Cloud)
    (hl : l.client = cloudClient) (service : Service) (nodes : List Node) (b : Int)
    (nbCfgs : List NodeBalancerConfig) (t : String)
    (hcheck : getHealthCheckType P service = (t, none)) (ports : List ServicePort) (c : Cloud)
    (hwf : c.WF) (hmem : ∀ e ∈ nbCfgs, (e.ID, b, e.Port) ∈ c.keys)
    (hports : ∀ sp ∈ ports, sp.Protocol ≠ ProtocolUDP ∧
      (buildNodeBalancerConfig P l service sp.Port).2 = none ∧
      ∃ e ∈ nbCfgs, e.Port = sp.Port) :
    (UpdateLoadBalancer.syncPorts P l service nodes b nbCfgs ports c).val = none ∧
    (UpdateLoadBalancer.syncPorts P l service nodes b nbCfgs ports c).calls
      = ports.map (portCallOf P l service nodes b nbCfgs) ∧
    (∀ sp ∈ ports, ∃ cid opts, portCallOf P l service nodes b nbCfgs sp
        = .RebuildNodeBalancerConfig b cid opts ∧ opts.Port = sp.Port) := by
  induction ports generalizing c with
  | nil => exact ⟨rfl, rfl, by simp⟩
  | cons sp rest ih =>
    obtain ⟨h1, h2, h3⟩ := hports sp (List.mem_cons_self _ _)
    obtain ⟨s1, s2, s3, s4, s5⟩ := syncPort_cloud_stable P l hl service nodes b nbCfgs sp c t
      hcheck hwf hmem h1 h2 h3
    obtain ⟨r1, r2, r3⟩ := ih (UpdateLoadBalancer.syncPort P l service nodes b nbCfgs sp c).state
      (Cloud.WF_of_keys_eq s4 s5 hwf) (by rw [s4]; exact hmem)
      (fun q hq => hports q (List.mem_cons_of_mem _ hq))
    refine ⟨?_, ?_, ?_⟩
    · simp [UpdateLoadBalancer.syncPorts, s1, Run.after, r1]
    · simp [UpdateLoadBalancer.syncPorts, s1, Run.after, r2, s2]
    · intro q hq
      rcases List.mem_cons.1 hq with hq | hq
      · rw [hq]; exact s3
      · exact r3 q hq

/-- On the in-memory provider, a run of `UpdateLoadBalancer` right after a run that
ended without error ends without error too, and its calls are the two listings
followed by one rebuild call per service port. -/
theorem UpdateLoadBalancer_cloud_again (P : Platform) (l : loadbalancers Cloud)
    (hl : l.client = cloudClient) (service : Service) (nodes : List Node) (s : Cloud)
    (t : String) (hcheck : getHealthCheckType P service = (t, none)) (hwf : s.WF)
    (hok : (UpdateLoadBalancer P l service nodes s).val = none) :
    (UpdateLoadBalancer P l service nodes (UpdateLoadBalancer P l service nodes s).state).val
      = none ∧
    ∃ lbID nbCfgs,
      (UpdateLoadBalancer P l service nodes
          (UpdateLoadBalancer P l service nodes s).state).calls
        = .ListNodeBalancers (P.GetLoadBalancerName service)
          :: .ListNodeBalancerConfigs lbID
          :: service.Ports.map (portCallOf P l service nodes lbID nbCfgs) ∧
      ∀ sp ∈ service.Ports, ∃ cid opts, portCallOf P l service nodes lbID nbCfgs sp
        = .RebuildNodeBalancerConfig lbID cid opts ∧ opts.Port = sp.Port := by
  cases hres : (lbByName l (P.GetLoadBalancerName service) s).val with
  | error err => simp [UpdateLoadBalancer, hres] at hok
  | ok lb =>
    obtain ⟨f1, f2, f3, f4, lb3, rest3, f5, f6, f7⟩ :=
      UpdateLoadBalancer_cloud P l hl service nodes s t hcheck hwf lb hres hok
    have hports := UpdateLoadBalancer_ok_ports P l service nodes s hok
    generalize (UpdateLoadBalancer P l service nodes s).state = c1 at f1 f2 f3 f4 f5 ⊢
    obtain ⟨hs0, hval0⟩ := lbByName_cloud l hl (P.GetLoadBalancerName service) c1
    have hres2 := (hval0 lb3).2 ⟨rest3, f5⟩
    have hbc := lbByName_calls l (P.GetLoadBalancerName service) c1
    have hthr : UpdateLoadBalancer.syncThrottle P l service lb3 c1 = ⟨.ok lb3, c1, []⟩ := by
      simp [UpdateLoadBalancer.syncThrottle, f7]
    have hlc : l.client.ListNodeBalancerConfigs = Cloud.listConfigs := by rw [hl]; rfl
    have hlist := Cloud.listConfigs_of_hasBalancer lb3.ID c1 (by rw [f6]; exact f4)
    have hls := Cloud.listConfigs_state lb3.ID c1
    have hused : ∀ e ∈ c1.configsOf lb3.ID, ∃ sp ∈ service.Ports, e.Port = sp.Port := by
      intro e he
      obtain ⟨hmem, hb⟩ := Cloud.mem_configsOf.1 he
      exact f2 (e.ID, e.NodeBalancerID, e.Port) (Cloud.mem_keys.2 ⟨e, hmem, rfl⟩)
        (hb.trans f6)
    have hdel := deleteUnusedConfigs_all_used l (c1.configsOf lb3.ID) service.Ports c1 hused
    have hmemk : ∀ e ∈ c1.configsOf lb3.ID, (e.ID, lb3.ID, e.Port) ∈ c1.keys := by
      intro e he
      obtain ⟨hmem, hb⟩ := Cloud.mem_configsOf.1 he
      exact Cloud.mem_keys.2 ⟨e, hmem, by rw [hb]⟩
    have hall : ∀ sp ∈ service.Ports, sp.Protocol ≠ ProtocolUDP ∧
        (buildNodeBalancerConfig P l service sp.Port).2 = none ∧
        ∃ e ∈ c1.configsOf lb3.ID, e.Port = sp.Port := by
      intro sp hsp
      refine ⟨(hports sp hsp).1, (hports sp hsp).2, ?_⟩
      obtain ⟨k, hk, hk2⟩ := List.mem_map.1 (f3 sp hsp)
      obtain ⟨x, hx, hxk⟩ := Cloud.mem_keys.1 hk
      rw [← hxk] at hk2
      simp only [Prod.mk.injEq] at hk2
      exact ⟨x, Cloud.mem_configsOf.2 ⟨hx, hk2.1.trans f6.symm⟩, hk2.2⟩
    obtain ⟨p1, p2, p3⟩ := syncPorts_cloud_stable P l hl service nodes lb3.ID
      (c1.configsOf lb3.ID) t hcheck service.Ports c1 f1 hmemk hall
    have hcfg : UpdateLoadBalancer.syncConfigs P l service nodes lb3 c1
        = (UpdateLoadBalancer.syncPorts P l service nodes lb3.ID (c1.configsOf lb3.ID)
            service.Ports c1).after [.ListNodeBalancerConfigs lb3.ID] := by
      simp [UpdateLoadBalancer.syncConfigs, hlc, hlist, hls, hdel]
    have hrun : UpdateLoadBalancer P l service nodes c1
        = (UpdateLoadBalancer.syncPorts P l service nodes lb3.ID (c1.configsOf lb3.ID)
            service.Ports c1).after
            [.ListNodeBalancers (P.GetLoadBalancerName service),
             .ListNodeBalancerConfigs lb3.ID] := by
      simp [UpdateLoadBalancer, hres2, hs0, hbc, hthr, hcfg, Run.after]
    rw [hrun]
    refine ⟨by simpa [Run.after] using p1, lb3.ID, c1.configsOf lb3.ID, ?_, p3⟩
    simp [Run.after, p2]

/-! ## Idempotence -/

/-- C6, as stated, fails: the sample provider state is what `EnsureLoadBalancer`
leaves for the sample service and node; a first `UpdateLoadBalancer` with that
service and node returns nil, and the second one in succession still issues a
mutating call (it rebuilds the config of port 80 again). -/
theorem UpdateLoadBalancer_second_run_mutates :
    (EnsureLoadBalancer samplePlatform sampleLB sampleService [sampleNode] Cloud.empty).state
      = sampleCloud ∧
    (UpdateLoadBalancer samplePlatform sampleLB sampleService [sampleNode] sampleCloud).val
      = none ∧
    ∃ call ∈ (UpdateLoadBalancer samplePlatform sampleLB sampleService [sampleNode]
        (UpdateLoadBalancer samplePlatform sampleLB sampleService [sampleNode]
          sampleCloud).state).calls,
      call.isMutating = true ∧ call.isConfigRebuild = true := by
  decide

/-- C6, amended. Against the in-memory provider, which applies every call, in a
well-formed state, for a service whose health-check type annotation is accepted:
when `UpdateLoadBalancer` is called twice in succession with the same service and
nodes and the first call returns nil, the second call returns nil too and issues no
balancer update and no config create or delete; its mutating calls are exactly one
config rebuild per service port, in port order, each for a config of the resolved
balancer and with the port number of its service port. -/
theorem UpdateLoadBalancer_second_run_only_rebuilds (P : Platform) (l : loadbalancers Cloud)
    (hl : l.client = cloudClient) (service : Service) (nodes : List Node) (s : Cloud)
    (hwf : s.WF) (hcheck : ∃ t, getHealthCheckType P service = (t, none))
    (hok : (UpdateLoadBalancer P l service nodes s).val = none) :
    (UpdateLoadBalancer P l service nodes (UpdateLoadBalancer P l service nodes s).state).val
      = none ∧
    (∀ call ∈ (UpdateLoadBalancer P l service nodes
        (UpdateLoadBalancer P l service nodes s).state).calls,
      call.isUpdateNodeBalancer = false ∧ call.isConfigCreate = false ∧
        call.isConfigDelete = false ∧ call.isCreateNodeBalancer = false ∧
        call.isDeleteNodeBalancer = false) ∧
    (∃ lbID, List.Forall₂ (fun sp call => ∃ cid opts,
        call = .RebuildNodeBalancerConfig lbID cid opts ∧ opts.Port = sp.Port) service.Ports
      ((UpdateLoadBalancer P l service nodes
        (UpdateLoadBalancer P l service nodes s).state).calls.filter Call.isMutating)) := by
  obtain ⟨t, ht⟩ := hcheck
  obtain ⟨h1, lbID, nbCfgs, h2, h3⟩ :=
    UpdateLoadBalancer_cloud_again P l hl service nodes s t ht hwf hok
  refine ⟨h1, ?_, ?_⟩
  · intro call hcall
    rw [h2] at hcall
    simp only [List.mem_cons, List.mem_map] at hcall
    rcases hcall with hcall | hcall | ⟨sp, hsp, hcall⟩
    · rw [hcall]; exact ⟨rfl, rfl, rfl, rfl, rfl⟩
    · rw [hcall]; exact ⟨rfl, rfl, rfl, rfl, rfl⟩
    · obtain ⟨cid, opts, hc, _⟩ := h3 sp hsp
      rw [← hcall, hc]
      exact ⟨rfl, rfl, rfl, rfl, rfl⟩
  · refine ⟨lbID, ?_⟩
    rw [h2]
    have hfil : (service.Ports.map (portCallOf P l service nodes lbID nbCfgs)).filter
        Call.isMutating = service.Ports.map (portCallOf P l service nodes lbID nbCfgs) := by
      rw [List.filter_eq_self]
      intro call hcall
      obtain ⟨sp, hsp, hc⟩ := List.mem_map.1 hcall
      obtain ⟨cid, opts, hc2, _⟩ := h3 sp hsp
      rw [← hc, hc2]
      rfl
    simp only [List.filter_cons, Call.isMutating, Bool.false_eq_true, if_false, hfil]
    rw [List.forall₂_map_right_iff]
    exact List.forall₂_same.2 (fun sp hsp => h3 sp hsp)

/-- C6, amended, at a concrete input: the sample service and node on the provider
that holds the sample balancer. -/
theorem UpdateLoadBalancer_second_run_only_rebuilds_witness :
    (UpdateLoadBalancer samplePlatform sampleLB sampleService [sampleNode]
      (UpdateLoadBalancer samplePlatform sampleLB sampleService [sampleNode]
        sampleCloud).state).val = none ∧
    (∃ lbID, List.Forall₂ (fun sp call => ∃ cid opts,
        call = .RebuildNodeBalancerConfig lbID cid opts ∧ opts.Port = sp.Port)
      sampleService.Ports
      ((UpdateLoadBalancer samplePlatform sampleLB sampleService [sampleNode]
        (UpdateLoadBalancer samplePlatform sampleLB sampleService [sampleNode]
          sampleCloud).state).calls.filter Call.isMutating)) :=
  ⟨(UpdateLoadBalancer_second_run_only_rebuilds samplePlatform sampleLB rfl sampleService
      [sampleNode] sampleCloud sampleCloud_wf ⟨"connection", rfl⟩ (by decide)).1,
   (UpdateLoadBalancer_second_run_only_rebuilds samplePlatform sampleLB rfl sampleService
      [sampleNode] sampleCloud sampleCloud_wf ⟨"connection", rfl⟩ (by decide)).2.2⟩

/-! ## Annotations the reconciler does not read -/

/-- C11 (the code lacks the preserve check). Whatever annotations the sample
service carries, among them the preserve annotation with value `true`,
`EnsureLoadBalancerDeleted` on the provider that holds its balancer issues the
`DeleteNodeBalancer` call for that balancer and returns nil. -/
theorem EnsureLoadBalancerDeleted_ignores_preserve :
    (∀ anns,
      (EnsureLoadBalancerDeleted samplePlatform sampleLB
          { sampleService with Annotations := anns } sampleCloud).calls
        = [.ListNodeBalancers "afoobar123", .ListNodeBalancers "afoobar123",
           .DeleteNodeBalancer 1] ∧
      (EnsureLoadBalancerDeleted samplePlatform sampleLB
          { sampleService with Annotations := anns } sampleCloud).val = .ret none) ∧
    (EnsureLoadBalancerDeleted samplePlatform sampleLB
        { sampleService with
          Annotations := [("service.beta.kubernetes.io/linode-loadbalancer-preserve", "true")] }
        sampleCloud).state.balancers = [] := by
  refine ⟨fun anns => ⟨rfl, rfl⟩, by decide⟩

/-- C12 (the code has no resolution by id). Whatever annotations the sample service
carries, among them a node-balancer-id annotation naming the id 123456 that no
balancer has, `GetLoadBalancer` on the provider that holds the balancer with the
service's derived label issues the one listing by that label and reports that
balancer as existing, with a nil error; `UpdateLoadBalancer` likewise resolves it
by label and returns nil. -/
theorem resolution_ignores_nodebalancer_id :
    (∀ anns,
      (GetLoadBalancer samplePlatform sampleLB
          { sampleService with Annotations := anns } sampleCloud).calls
        = [.ListNodeBalancers "afoobar123"] ∧
      (GetLoadBalancer samplePlatform sampleLB
          { sampleService with Annotations := anns } sampleCloud).val
        = .ret (some { Ingress := [{ IP := "192.0.2.1",
                                     Hostname := "nb-1.nodebalancer.linode.com" }] },
                true, none)) ∧
    sampleCloud.balancers.all (fun b => b.ID ≠ 123456) = true ∧
    (UpdateLoadBalancer samplePlatform sampleLB
        { sampleService with
          Annotations :=
            [("service.beta.kubernetes.io/linode-loadbalancer-nodebalancer-id", "123456")] }
        [sampleNode] sampleCloud).val = none := by
  refine ⟨fun anns => ⟨rfl, rfl⟩, by decide, by decide⟩

/-! ## UDP ports -/

theorem buildLoadBalancerRequest_configs_udp {σ : Type} (P : Platform) (l : loadbalancers σ)
    (service : Service) (nodes : List Node) (ports : List ServicePort)
    (acc : List NodeBalancerConfigCreateOptions)
    (hudp : ∃ port ∈ ports, port.Protocol = ProtocolUDP) :
    ∃ e, buildLoadBalancerRequest.configs P l service nodes ports acc = .error e := by
  induction ports generalizing acc with
  | nil => simp at hudp
  | cons port rest ih =>
    unfold buildLoadBalancerRequest.configs
    by_cases hp : port.Protocol = ProtocolUDP
    · exact ⟨_, if_pos hp⟩
    · rw [if_neg hp]
      simp only
      split
      · exact ⟨_, rfl⟩
      · apply ih
        obtain ⟨q, hq, hqu⟩ := hudp
        rcases List.mem_cons.1 hq with hq | hq
        · rw [hq] at hqu; exact absurd hqu hp
        · exact ⟨q, hq, hqu⟩

/-- The port loop over a list that is split in two: when the first part ends
without error, the loop goes on with the second part from the state reached. -/
theorem syncPorts_append {σ : Type} (P : Platform) (l : loadbalancers σ) (service : Service)
    (nodes : List Node) (lbID : Int) (nbCfgs : List NodeBalancerConfig)
    (xs ys : List ServicePort) (s : σ)
    (h : (UpdateLoadBalancer.syncPorts P l service nodes lbID nbCfgs xs s).val = none) :
    UpdateLoadBalancer.syncPorts P l service nodes lbID nbCfgs (xs ++ ys) s
      = (UpdateLoadBalancer.syncPorts P l service nodes lbID nbCfgs ys
          (UpdateLoadBalancer.syncPorts P l service nodes lbID nbCfgs xs s).state).after
          (UpdateLoadBalancer.syncPorts P l service nodes lbID nbCfgs xs s).calls := by
  induction xs generalizing s with
  | nil => simp [UpdateLoadBalancer.syncPorts, Run.after]
  | cons x xs ih =>
    cases hv : (UpdateLoadBalancer.syncPort P l service nodes lbID nbCfgs x s).val with
    | some err => simp [UpdateLoadBalancer.syncPorts, hv] at h
    | none =>
      have h2 : (UpdateLoadBalancer.syncPorts P l service nodes lbID nbCfgs xs
          (UpdateLoadBalancer.syncPort P l service nodes lbID nbCfgs x s).state).val = none := by
        simpa [UpdateLoadBalancer.syncPorts, hv, Run.after] using h
      have step : ∀ zs, UpdateLoadBalancer.syncPorts P l service nodes lbID nbCfgs (x :: zs) s
          = (UpdateLoadBalancer.syncPorts P l service nodes lbID nbCfgs zs
              (UpdateLoadBalancer.syncPort P l service nodes lbID nbCfgs x s).state).after
              (UpdateLoadBalancer.syncPort P l service nodes lbID nbCfgs x s).calls := by
        intro zs
        simp only [UpdateLoadBalancer.syncPorts, hv]
      rw [List.cons_append, step (xs ++ ys), step xs, ih _ h2]
      simp [Run.after, List.append_assoc]

theorem syncPort_udp {σ : Type} (P : Platform) (l : loadbalancers σ) (service : Service)
    (nodes : List Node) (lbID : Int) (nbCfgs : List NodeBalancerConfig) (port : ServicePort)
    (s : σ) (hp : port.Protocol = ProtocolUDP) :
    UpdateLoadBalancer.syncPort P l service nodes lbID nbCfgs port s
      = ⟨some (.errorf
          "Error updating NodeBalancer Config: ports with the UDP protocol are not supported"),
          s, []⟩ := by
  simp [UpdateLoadBalancer.syncPort, hp]

theorem syncPorts_udp {σ : Type} (P : Platform) (l : loadbalancers σ) (service : Service)
    (nodes : List Node) (lbID : Int) (nbCfgs : List NodeBalancerConfig)
    (ports : List ServicePort) (s : σ)
    (hudp : ∃ port ∈ ports, port.Protocol = ProtocolUDP) :
    (UpdateLoadBalancer.syncPorts P l service nodes lbID nbCfgs ports s).val ≠ none := by
  intro hnone
  obtain ⟨port, hmem, hp⟩ := hudp
  exact (syncPorts_ok_ports P l service nodes lbID nbCfgs ports s hnone port hmem).1 hp

/-- C13. For a service with at least one UDP port: `buildLoadBalancerRequest`
returns an error and issues no call, so no `CreateNodeBalancer`;
`UpdateLoadBalancer` returns a non-nil error; and when `udp` is a UDP port of the
service and every step before it succeeds (the balancer resolves, the throttle
step, the listing of configs and the deletion of unused configs end without error,
and so does the port loop over the ports before `udp`), the error of
`UpdateLoadBalancer` is the UDP-not-supported error. -/
theorem udp_port_is_rejected {σ : Type} (P : Platform) (l : loadbalancers σ)
    (service : Service) (nodes : List Node) (s : σ)
    (hudp : ∃ port ∈ service.Ports, port.Protocol = ProtocolUDP) :
    ((∃ e, (buildLoadBalancerRequest P l service nodes s).val = .error e) ∧
      (buildLoadBalancerRequest P l service nodes s).calls = []) ∧
    (UpdateLoadBalancer P l service nodes s).val ≠ none ∧
    (∀ before udp after lb lb2 nbCfgs,
      service.Ports = before ++ udp :: after → udp.Protocol = ProtocolUDP →
      (lbByName l (P.GetLoadBalancerName service) s).val = .ok lb →
      (UpdateLoadBalancer.syncThrottle P l service lb
        (lbByName l (P.GetLoadBalancerName service) s).state).val = .ok lb2 →
      (l.client.ListNodeBalancerConfigs lb2.ID
        (UpdateLoadBalancer.syncThrottle P l service lb
          (lbByName l (P.GetLoadBalancerName service) s).state).state).1 = .ok nbCfgs →
      (deleteUnusedConfigs l nbCfgs service.Ports
        (l.client.ListNodeBalancerConfigs lb2.ID
          (UpdateLoadBalancer.syncThrottle P l service lb
            (lbByName l (P.GetLoadBalancerName service) s).state).state).2).val = none →
      (UpdateLoadBalancer.syncPorts P l service nodes lb2.ID nbCfgs before
        (deleteUnusedConfigs l nbCfgs service.Ports
          (l.client.ListNodeBalancerConfigs lb2.ID
            (UpdateLoadBalancer.syncThrottle P l service lb
              (lbByName l (P.GetLoadBalancerName service) s).state).state).2).state).val
          = none →
      (UpdateLoadBalancer P l service nodes s).val
        = some (.errorf
            "Error updating NodeBalancer Config: ports with the UDP protocol are not supported")) := by
  refine ⟨?_, ?_, ?_⟩
  · obtain ⟨e, he⟩ := buildLoadBalancerRequest_configs_udp P l service nodes service.Ports [] hudp
    unfold buildLoadBalancerRequest
    rw [he]
    exact ⟨⟨e, rfl⟩, rfl⟩
  · intro hnone
    obtain ⟨port, hmem, hp⟩ := hudp
    exact (UpdateLoadBalancer_ok_ports P l service nodes s hnone port hmem).1 hp
  · intro before udp after lb lb2 nbCfgs hports hp hres hthr hlist hdel hbefore
    have hloop := syncPorts_append P l service nodes lb2.ID nbCfgs before (udp :: after) _ hbefore
    rw [← hports] at hloop
    have hudpstep : ∀ t, (UpdateLoadBalancer.syncPorts P l service nodes lb2.ID nbCfgs
        (udp :: after) t).val = some (.errorf
          "Error updating NodeBalancer Config: ports with the UDP protocol are not supported") := by
      intro t
      simp [UpdateLoadBalancer.syncPorts, syncPort_udp P l service nodes lb2.ID nbCfgs udp t hp]
    simp only [UpdateLoadBalancer, hres, hthr, UpdateLoadBalancer.syncConfigs, hlist, hdel,
      hloop, Run.after, hudpstep]

/-- C13 at a concrete input: the service with the TCP port 80 and the UDP port 53 on
the provider that holds its balancer. -/
theorem udp_port_is_rejected_witness :
    ((∃ e, (buildLoadBalancerRequest samplePlatform sampleLB udpService [sampleNode]
        Cloud.empty).val = .error e) ∧
      (buildLoadBalancerRequest samplePlatform sampleLB udpService [sampleNode]
        Cloud.empty).calls = []) ∧
    (UpdateLoadBalancer samplePlatform sampleLB udpService [sampleNode] sampleCloud).val
      = some (.errorf
          "Error updating NodeBalancer Config: ports with the UDP protocol are not supported") :=
  ⟨(udp_port_is_rejected samplePlatform sampleLB udpService [sampleNode] Cloud.empty
      ⟨_, List.mem_cons_of_mem _ (List.mem_cons_self _ _), rfl⟩).1,
   (udp_port_is_rejected samplePlatform sampleLB udpService [sampleNode] sampleCloud
      ⟨_, List.mem_cons_of_mem _ (List.mem_cons_self _ _), rfl⟩).2.2
      [{ Name := "web", Protocol := "TCP", Port := 80, NodePort := 30000 }]
      { Name := "dns", Protocol := "UDP", Port := 53, NodePort := 30053 } []
      sampleBalancer sampleBalancer _ rfl rfl rfl rfl rfl rfl rfl⟩

/-! ## Where the error of a run comes from -/

theorem fromFailedCall_after {σ : Type} (l : loadbalancers σ) (ports : List ServicePort)
    (before calls : List Call) (err : Error) (h : fromFailedCall l ports calls err) :
    fromFailedCall l ports (before ++ calls) err := by
  obtain ⟨pre, call, e, hc, hf, hk⟩ := h
  exact ⟨before ++ pre, call, e, by rw [hc, List.append_assoc], hf, hk⟩

theorem fromFailedCall_mono {σ : Type} (l : loadbalancers σ) (ports ports2 : List ServicePort)
    (calls : List Call) (err : Error) (hsub : ∀ p ∈ ports, p ∈ ports2)
    (h : fromFailedCall l ports calls err) : fromFailedCall l ports2 calls err := by
  obtain ⟨pre, call, e, hc, hf, hk⟩ := h
  refine ⟨pre, call, e, hc, hf, ?_⟩
  rcases hk with hk | ⟨hr, port, hp, herr⟩
  · exact Or.inl hk
  · exact Or.inr ⟨hr, port, hsub port hp, herr⟩

theorem lbByName_error {σ : Type} (l : loadbalancers σ) (name : String) (s : σ) (err : Error)
    (h : (lbByName l name s).val = .error err) :
    err = .lbNotFound ∨ fromFailedCall l [] (lbByName l name s).calls err := by
  rw [lbByName_calls]
  unfold lbByName at h
  simp only at h
  split at h
  · rename_i e he
    simp only [Except.error.injEq] at h
    exact Or.inr ⟨[], _, e, rfl, ⟨s, he⟩, Or.inl ⟨rfl, h.symm⟩⟩
  · split at h
    · cases h
    · simp only [Except.error.injEq] at h
      exact Or.inl h.symm

theorem syncThrottle_error {σ : Type} (P : Platform) (l : loadbalancers σ) (service : Service)
    (lb : NodeBalancer) (s : σ) (err : Error)
    (h : (UpdateLoadBalancer.syncThrottle P l service lb s).val = .error err) :
    fromFailedCall l [] (UpdateLoadBalancer.syncThrottle P l service lb s).calls err := by
  unfold UpdateLoadBalancer.syncThrottle at h ⊢
  simp only at h ⊢
  split at h
  · split at h
    · rename_i e he
      simp only [Except.error.injEq] at h
      rw [if_pos (by assumption)]
      simp only [he]
      exact ⟨[], _, e, rfl, ⟨s, he⟩, Or.inl ⟨rfl, h.symm⟩⟩
    · cases h
  · cases h

theorem deleteUnusedConfigs_error {σ : Type} (l : loadbalancers σ)
    (cfgs : List NodeBalancerConfig) (ports : List ServicePort) (s : σ) (err : Error)
    (h : (deleteUnusedConfigs l cfgs ports s).val = some err) :
    fromFailedCall l [] (deleteUnusedConfigs l cfgs ports s).calls err := by
  induction cfgs generalizing s with
  | nil => simp [deleteUnusedConfigs] at h
  | cons nbc rest ih =>
    by_cases hu : portInUse nbc ports = true
    · simp only [deleteUnusedConfigs, hu, if_true] at h ⊢
      exact ih s h
    · have hu2 : portInUse nbc ports = false := by simpa using hu
      cases hd : (l.client.DeleteNodeBalancerConfig nbc.NodeBalancerID nbc.ID s).1 with
      | some e =>
        simp only [deleteUnusedConfigs, hu2, hd, Bool.false_eq_true, if_false,
          Option.some.injEq] at h ⊢
        exact ⟨[], _, e, rfl, ⟨s, hd⟩, Or.inl ⟨rfl, h.symm⟩⟩
      | none =>
        simp only [deleteUnusedConfigs, hu2, hd, Bool.false_eq_true, if_false, Run.after] at h ⊢
        exact fromFailedCall_after l [] _ _ err (ih _ h)

/-- The error of one pass of the port loop body: the UDP error, the error of the
config build, or the error of the one provider call. -/
theorem syncPort_error {σ : Type} (P : Platform) (l : loadbalancers σ) (service : Service)
    (nodes : List Node) (lbID : Int) (nbCfgs : List NodeBalancerConfig) (port : ServicePort)
    (s : σ) (err : Error)
    (h : (UpdateLoadBalancer.syncPort P l service nodes lbID nbCfgs port s).val = some err) :
    err = .errorf
        "Error updating NodeBalancer Config: ports with the UDP protocol are not supported" ∨
    (buildNodeBalancerConfig P l service port.Port).2 = some err ∨
    fromFailedCall l [port]
      (UpdateLoadBalancer.syncPort P l service nodes lbID nbCfgs port s).calls err := by
  revert h
  unfold UpdateLoadBalancer.syncPort
  split
  · intro h
    simp only [Option.some.injEq] at h
    exact Or.inl h.symm
  · simp only
    split
    · rename_i e he
      intro h
      simp only [Option.some.injEq] at h
      exact Or.inr (Or.inl (by rw [he, h]))
    · split
      · split
        · rename_i e he
          intro h
          simp only [Option.some.injEq] at h
          exact Or.inr (Or.inr ⟨[], _, e, rfl, ⟨s, he⟩,
            Or.inr ⟨rfl, port, List.mem_singleton.2 rfl, h.symm⟩⟩)
        · intro h; cases h
      · split
        · rename_i e he
          intro h
          simp only [Option.some.injEq] at h
          exact Or.inr (Or.inr ⟨[], _, e, rfl, ⟨s, he⟩, Or.inl ⟨rfl, h.symm⟩⟩)
        · intro h; cases h

theorem syncPorts_error {σ : Type} (P : Platform) (l : loadbalancers σ) (service : Service)
    (nodes : List Node) (lbID : Int) (nbCfgs : List NodeBalancerConfig)
    (ports : List ServicePort) (s : σ) (err : Error)
    (h : (UpdateLoadBalancer.syncPorts P l service nodes lbID nbCfgs ports s).val = some err) :
    err = .errorf
        "Error updating NodeBalancer Config: ports with the UDP protocol are not supported" ∨
    (∃ port ∈ ports, (buildNodeBalancerConfig P l service port.Port).2 = some err) ∨
    fromFailedCall l ports
      (UpdateLoadBalancer.syncPorts P l service nodes lbID nbCfgs ports s).calls err := by
  induction ports generalizing s with
  | nil => simp [UpdateLoadBalancer.syncPorts] at h
  | cons port rest ih =>
    cases hv : (UpdateLoadBalancer.syncPort P l service nodes lbID nbCfgs port s).val with
    | some e =>
      have he : e = err := by simpa [UpdateLoadBalancer.syncPorts, hv] using h
      subst he
      have hcalls : (UpdateLoadBalancer.syncPorts P l service nodes lbID nbCfgs (port :: rest)
          s).calls = (UpdateLoadBalancer.syncPort P l service nodes lbID nbCfgs port s).calls := by
        simp [UpdateLoadBalancer.syncPorts, hv]
      rw [hcalls]
      rcases syncPort_error P l service nodes lbID nbCfgs port s e hv with h1 | h1 | h1
      · exact Or.inl h1
      · exact Or.inr (Or.inl ⟨port, List.mem_cons_self _ _, h1⟩)
      · exact Or.inr (Or.inr (fromFailedCall_mono l [port] _ _ e
          (fun p hp => by rw [List.mem_singleton.1 hp]; exact List.mem_cons_self _ _) h1))
    | none =>
      have h2 : (UpdateLoadBalancer.syncPorts P l service nodes lbID nbCfgs rest
          (UpdateLoadBalancer.syncPort P l service nodes lbID nbCfgs port s).state).val
            = some err := by
        simpa [UpdateLoadBalancer.syncPorts, hv, Run.after] using h
      have hcalls : (UpdateLoadBalancer.syncPorts P l service nodes lbID nbCfgs (port :: rest)
          s).calls = (UpdateLoadBalancer.syncPort P l service nodes lbID nbCfgs port s).calls
            ++ (UpdateLoadBalancer.syncPorts P l service nodes lbID nbCfgs rest
              (UpdateLoadBalancer.syncPort P l service nodes lbID nbCfgs port s).state).calls := by
        simp [UpdateLoadBalancer.syncPorts, hv, Run.after]
      rw [hcalls]
      rcases ih _ h2 with h1 | ⟨q, hq, h1⟩ | h1
      · exact Or.inl h1
      · exact Or.inr (Or.inl ⟨q, List.mem_cons_of_mem _ hq, h1⟩)
      · exact Or.inr (Or.inr (fromFailedCall_after l _ _ _ err
          (fromFailedCall_mono l rest _ _ err (fun p hp => List.mem_cons_of_mem _ hp) h1)))

/-- C14 (as stated, refuted). On the provider that refuses every rebuild with the
error `rebuild refused`, `UpdateLoadBalancer` for the sample service, whose port 80
has a config on the balancer, ends with a rebuild call and returns not the
provider's error but a new error with the text
`[port 80] Error rebuilding NodeBalancer config: rebuild refused`. -/
theorem UpdateLoadBalancer_wraps_rebuild_error :
    (∀ id configID opts c,
      (rebuildRefusingLB.client.RebuildNodeBalancerConfig id configID opts c).1
        = .error "rebuild refused") ∧
    (UpdateLoadBalancer samplePlatform rebuildRefusingLB sampleService [sampleNode]
      sampleCloud).val
      = some (.errorf "[port 80] Error rebuilding NodeBalancer config: rebuild refused") ∧
    (UpdateLoadBalancer samplePlatform rebuildRefusingLB sampleService [sampleNode]
      sampleCloud).val ≠ some (.foreign "rebuild refused") ∧
    (UpdateLoadBalancer samplePlatform rebuildRefusingLB sampleService [sampleNode]
      sampleCloud).calls.getLast?.map Call.isConfigRebuild = some true := by
  refine ⟨fun _ _ _ _ => rfl, by decide, by decide, by decide⟩

/-- Where a returned error comes from (the converse of
`UpdateLoadBalancer_returns_step_error`). An error returned by
`UpdateLoadBalancer` is the not-found error of the resolution by name, or the error for a UDP port, or the error of the config
build of one of the service ports, or it comes from the last provider call of the
run, which the provider answered with an error `e`: the returned error is `e`
itself, unchanged, for every call but a config rebuild, and for a config rebuild it
is a new error whose text is `[port N] Error rebuilding NodeBalancer config: `
followed by the text of `e`, with `N` one of the service ports. -/
theorem UpdateLoadBalancer_error_origin {σ : Type} (P : Platform) (l : loadbalancers σ)
    (service : Service) (nodes : List Node) (s : σ) (err : Error)
    (h : (UpdateLoadBalancer P l service nodes s).val = some err) :
    err = .lbNotFound ∨
    err = .errorf
        "Error updating NodeBalancer Config: ports with the UDP protocol are not supported" ∨
    (∃ port ∈ service.Ports, (buildNodeBalancerConfig P l service port.Port).2 = some err) ∨
    (∃ pre call e,
      (UpdateLoadBalancer P l service nodes s).calls = pre ++ [call] ∧
      l.client.fails call e ∧
      ((call.isConfigRebuild = false ∧ err = .foreign e) ∨
       (call.isConfigRebuild = true ∧ ∃ port ∈ service.Ports,
          err = .errorf ("[port " ++ fmtInt port.Port
            ++ "] Error rebuilding NodeBalancer config: " ++ e)))) := by
  have key : err = .lbNotFound ∨
      err = .errorf
        "Error updating NodeBalancer Config: ports with the UDP protocol are not supported" ∨
      (∃ port ∈ service.Ports, (buildNodeBalancerConfig P l service port.Port).2 = some err) ∨
      fromFailedCall l service.Ports (UpdateLoadBalancer P l service nodes s).calls err := by
    revert h
    unfold UpdateLoadBalancer
    simp only
    split
    · rename_i e he
      intro h
      simp only [Option.some.injEq] at h
      subst h
      rcases lbByName_error l _ s e he with h1 | h1
      · exact Or.inl h1
      · exact Or.inr (Or.inr (Or.inr
          (fromFailedCall_mono l [] _ _ e (fun p hp => absurd hp (List.not_mem_nil p)) h1)))
    · rename_i lb hlb
      split
      · rename_i e he
        intro h
        simp only [Option.some.injEq] at h
        subst h
        exact Or.inr (Or.inr (Or.inr (fromFailedCall_after l _ _ _ e
          (fromFailedCall_mono l [] _ _ e (fun p hp => absurd hp (List.not_mem_nil p))
            (syncThrottle_error P l service lb _ e he)))))
      · rename_i lb2 hlb2
        simp only [Run.after]
        unfold UpdateLoadBalancer.syncConfigs
        simp only
        split
        · rename_i e he
          intro h
          simp only [Option.some.injEq] at h
          exact Or.inr (Or.inr (Or.inr (fromFailedCall_after l _ _ _ err
            ⟨[], _, e, rfl, ⟨_, he⟩, Or.inl ⟨rfl, h.symm⟩⟩)))
        · rename_i nbCfgs hcfgs
          split
          · rename_i e he
            intro h
            simp only [Option.some.injEq] at h
            subst h
            exact Or.inr (Or.inr (Or.inr (fromFailedCall_after l _ _ _ e
              (fromFailedCall_after l _ [.ListNodeBalancerConfigs lb2.ID] _ e
                (fromFailedCall_mono l [] _ _ e (fun p hp => absurd hp (List.not_mem_nil p))
                  (deleteUnusedConfigs_error l _ _ _ e he))))))
          · rename_i hd
            simp only [Run.after]
            intro h
            rcases syncPorts_error P l service nodes lb2.ID nbCfgs service.Ports _ err h
              with h1 | h1 | h1
            · exact Or.inr (Or.inl h1)
            · exact Or.inr (Or.inr (Or.inl h1))
            · exact Or.inr (Or.inr (Or.inr (fromFailedCall_after l _ _ _ err
                (fromFailedCall_after l _ _ _ err h1))))
  exact key

/-- The origin of the returned error at a concrete input: the sample service on
the provider that refuses rebuilds. -/
theorem UpdateLoadBalancer_error_origin_witness :
    (UpdateLoadBalancer samplePlatform rebuildRefusingLB sampleService [sampleNode]
      sampleCloud).val
      = some (.errorf "[port 80] Error rebuilding NodeBalancer config: rebuild refused") ∧
    ((Error.errorf "[port 80] Error rebuilding NodeBalancer config: rebuild refused")
        = .lbNotFound ∨
     (Error.errorf "[port 80] Error rebuilding NodeBalancer config: rebuild refused")
        = .errorf
          "Error updating NodeBalancer Config: ports with the UDP protocol are not supported" ∨
     (∃ port ∈ sampleService.Ports,
        (buildNodeBalancerConfig samplePlatform rebuildRefusingLB sampleService port.Port).2
          = some (.errorf "[port 80] Error rebuilding NodeBalancer config: rebuild refused")) ∨
     (∃ pre call e,
        (UpdateLoadBalancer samplePlatform rebuildRefusingLB sampleService [sampleNode]
          sampleCloud).calls = pre ++ [call] ∧
        rebuildRefusingLB.client.fails call e ∧
        ((call.isConfigRebuild = false ∧
            (Error.errorf "[port 80] Error rebuilding NodeBalancer config: rebuild refused")
              = .foreign e) ∨
         (call.isConfigRebuild = true ∧ ∃ port ∈ sampleService.Ports,
            (Error.errorf "[port 80] Error rebuilding NodeBalancer config: rebuild refused")
              = .errorf ("[port " ++ fmtInt port.Port
                ++ "] Error rebuilding NodeBalancer config: " ++ e))))) :=
  ⟨by decide,
   UpdateLoadBalancer_error_origin samplePlatform rebuildRefusingLB sampleService
     [sampleNode] sampleCloud _ (by decide)⟩

/-! ## The decimal form of a port number -/

theorem digitChar_toNat (k : Nat) (h : k < 10) : (Nat.digitChar k).toNat - 48 = k := by
  interval_cases k <;> rfl

theorem digitChar_ne_minus (k : Nat) (h : k < 10) : Nat.digitChar k ≠ '-' := by
  interval_cases k <;> decide

theorem toDigitsCore_append (fuel n : Nat) (acc : List Char) :
    Nat.toDigitsCore 10 fuel n acc = Nat.toDigitsCore 10 fuel n [] ++ acc := by
  induction fuel generalizing n acc with
  | zero => simp [Nat.toDigitsCore]
  | succ fuel ih =>
    simp only [Nat.toDigitsCore]
    split
    · simp
    · rw [ih (n / 10) (Nat.digitChar (n % 10) :: acc), ih (n / 10) [Nat.digitChar (n % 10)]]
      simp

/-- Reading the decimal digits of `n` from the left gives `n` back. -/
theorem toDigitsCore_value (fuel n : Nat) (h : n < fuel) :
    (Nat.toDigitsCore 10 fuel n []).foldl (fun a c => a * 10 + (c.toNat - 48)) 0 = n := by
  induction fuel generalizing n with
  | zero => omega
  | succ fuel ih =>
    simp only [Nat.toDigitsCore]
    split
    · rename_i h0
      simp only [List.foldl, Nat.zero_mul, Nat.zero_add]
      rw [digitChar_toNat _ (Nat.mod_lt _ (by decide))]
      omega
    · rename_i h0
      rw [toDigitsCore_append, List.foldl_append, ih (n / 10) (by omega)]
      simp only [List.foldl]
      rw [digitChar_toNat _ (Nat.mod_lt _ (by decide))]
      omega

theorem toDigitsCore_ne_minus (fuel n : Nat) (acc : List Char) (hacc : ∀ c ∈ acc, c ≠ '-') :
    ∀ c ∈ Nat.toDigitsCore 10 fuel n acc, c ≠ '-' := by
  induction fuel generalizing n acc with
  | zero => simpa [Nat.toDigitsCore] using hacc
  | succ fuel ih =>
    have hcons : ∀ c ∈ Nat.digitChar (n % 10) :: acc, c ≠ '-' := by
      intro c hc
      rcases List.mem_cons.1 hc with h | h
      · rw [h]; exact digitChar_ne_minus _ (Nat.mod_lt _ (by decide))
      · exact hacc c h
    simp only [Nat.toDigitsCore]
    split
    · exact hcons
    · exact ih _ _ hcons

theorem Nat_repr_injective (m k : Nat) (h : Nat.repr m = Nat.repr k) : m = k := by
  have h2 : Nat.toDigits 10 m = Nat.toDigits 10 k := by
    have := congrArg String.data h
    simpa [Nat.repr, List.asString] using this
  have hm := toDigitsCore_value (m + 1) m (by omega)
  have hk := toDigitsCore_value (k + 1) k (by omega)
  unfold Nat.toDigits at h2
  rw [h2] at hm
  omega

theorem Nat_repr_ne_minus (m : Nat) (rest : String) : Nat.repr m ≠ "-" ++ rest := by
  intro h
  have h2 := congrArg String.data h
  simp only [Nat.repr, List.asString, String.data_append] at h2
  have hmem : '-' ∈ Nat.toDigits 10 m := by rw [h2]; simp
  exact toDigitsCore_ne_minus (m + 1) m [] (by simp) '-' hmem rfl

/-- The decimal form of an integer determines it. -/
theorem fmtInt_injective (p q : Int) (h : fmtInt p = fmtInt q) : p = q := by
  unfold fmtInt at h
  cases p with
  | ofNat m =>
    cases q with
    | ofNat k =>
      have : Nat.repr m = Nat.repr k := h
      rw [Nat_repr_injective m k this]
    | negSucc k => exact absurd h (Nat_repr_ne_minus m _)
  | negSucc m =>
    cases q with
    | ofNat k => exact absurd h.symm (Nat_repr_ne_minus k _)
    | negSucc k =>
      have h1 : "-" ++ Nat.repr (m + 1) = "-" ++ Nat.repr (k + 1) := h
      have h2 := congrArg String.data h1
      simp only [String.data_append, List.append_cancel_left_eq] at h2
      have h3 : Nat.repr (m + 1) = Nat.repr (k + 1) := String.ext h2
      have := Nat_repr_injective _ _ h3
      have hmk : m = k := by omega
      rw [hmk]

/-- Two port numbers have the same per-port annotation key only when they are
equal. -/
theorem portKey_injective (p q : Int)
    (h : annLinodePortConfigPrefix ++ fmtInt p = annLinodePortConfigPrefix ++ fmtInt q) :
    p = q := by
  have h2 := congrArg String.data h
  simp only [String.data_append, List.append_cancel_left_eq] at h2
  exact fmtInt_injective p q (String.ext h2)

/-- No per-port annotation key is the key of the default-protocol annotation. -/
theorem portKey_ne_default (q : Int) :
    annLinodePortConfigPrefix ++ fmtInt q ≠ annLinodeDefaultProtocol := by
  intro h
  have h2 := congrArg (fun t => t.data.take 48) h
  simp only [String.data_append] at h2
  rw [List.take_append_of_le_length (by decide)] at h2
  revert h2
  decide

/-! ## The protocol of a port -/

theorem ToLower_tcp (P : Platform) : ToLower P "tcp" = "tcp" := rfl

theorem ToLower_http (P : Platform) : ToLower P "http" = "http" := rfl

theorem ToLower_https (P : Platform) : ToLower P "https" = "https" := rfl

/-- C15. For a port `p` whose per-port annotation is read as `ann` (the zero
annotation when the key of `p` is absent, the decoded JSON text otherwise), the
protocol is chosen by precedence: the protocol field of `ann` when it is not
empty, otherwise the value of the default-protocol annotation when that key is
present, otherwise `tcp`. When the chosen value is one of tcp, http, https,
`getPortConfig` returns the config with that protocol, the port `p` and the
tls-secret-name of `ann`. A service whose annotations differ only under per-port
keys of ports other than `p` has the same result. -/
theorem getPortConfig_precedence (P : Platform) (service : Service) (p : Int) :
    (∀ ann, getPortConfigAnnotation P service p = .ok ann →
      (match service.Annotations.lookup (annLinodePortConfigPrefix ++ fmtInt p) with
        | none => ann = {}
        | some json => P.Unmarshal json = .ok ann) ∧
      ∀ chosen,
        chosen = (if ann.Protocol ≠ "" then ann.Protocol
                  else match service.Annotations.lookup annLinodeDefaultProtocol with
                    | some v => v
                    | none => "tcp") →
        (chosen = "tcp" ∨ chosen = "http" ∨ chosen = "https") →
        getPortConfig P service p
          = .ok { TlsSecretName := ann.TlsSecretName, Protocol := chosen, Port := p }) ∧
    (∀ service2 : Service,
      (∀ key, (∀ q, q ≠ p → key ≠ annLinodePortConfigPrefix ++ fmtInt q) →
        service2.Annotations.lookup key = service.Annotations.lookup key) →
      getPortConfig P service2 p = getPortConfig P service p) := by
  constructor
  · intro ann hann
    constructor
    · unfold getPortConfigAnnotation at hann
      simp only at hann
      split
      · rename_i hnone
        rw [hnone] at hann
        simp only [Except.ok.injEq] at hann
        exact hann.symm
      · rename_i json hsome
        rw [hsome] at hann
        simp only at hann
        split at hann
        · cases hann
        · rename_i a ha
          simp only [Except.ok.injEq] at hann
          rw [ha, hann]
    · intro chosen hchosen hvalid
      have hlow : ToLower P chosen = chosen := by
        rcases hvalid with h | h | h <;> rw [h] <;> rfl
      have hnot : ¬ (chosen ≠ "tcp" ∧ chosen ≠ "http" ∧ chosen ≠ "https") := by
        intro hne
        rcases hvalid with h | h | h
        · exact hne.1 h
        · exact hne.2.1 h
        · exact hne.2.2 h
      unfold getPortConfig
      rw [hann]
      simp only
      by_cases hp : ann.Protocol = ""
      · cases hd : service.Annotations.lookup annLinodeDefaultProtocol with
        | none =>
          simp only [hp, hd, ne_eq, not_true_eq_false, if_false, if_true] at hchosen ⊢
          subst hchosen
          rw [hlow]
          exact if_neg hnot
        | some v =>
          simp only [hp, hd, ne_eq, not_true_eq_false, if_false, if_true] at hchosen ⊢
          subst hchosen
          rw [hlow]
          exact if_neg hnot
      · simp only [hp, ne_eq, not_false_eq_true, if_false, if_true] at hchosen ⊢
        subst hchosen
        rw [hlow]
        exact if_neg hnot
  · intro service2 hagree
    have h1 : service2.Annotations.lookup (annLinodePortConfigPrefix ++ fmtInt p)
        = service.Annotations.lookup (annLinodePortConfigPrefix ++ fmtInt p) :=
      hagree _ (fun q hq heq => hq (portKey_injective p q heq).symm)
    have h2 : service2.Annotations.lookup annLinodeDefaultProtocol
        = service.Annotations.lookup annLinodeDefaultProtocol :=
      hagree _ (fun q _ heq => portKey_ne_default q heq.symm)
    unfold getPortConfig getPortConfigAnnotation
    simp only [h1, h2]

/-- C15 at a concrete input: port 80 of a service that carries the per-port
annotation `\x7b"protocol": "http"\x7d` for port 80, another one for port 443 and the
default protocol `tcp`; dropping the annotation of port 443 changes nothing. -/
theorem getPortConfig_precedence_witness :
    getPortConfigAnnotation jsonPlatform portAnnotatedService 80 = .ok { Protocol := "http" } ∧
    getPortConfig jsonPlatform portAnnotatedService 80
      = .ok { TlsSecretName := "", Protocol := "http", Port := 80 } ∧
    getPortConfig jsonPlatform
        { portAnnotatedService with
          Annotations := portAnnotatedService.Annotations.drop 1 } 80
      = getPortConfig jsonPlatform portAnnotatedService 80 :=
  ⟨rfl,
   ((getPortConfig_precedence jsonPlatform portAnnotatedService 80).1
      { Protocol := "http" } rfl).2 "http" rfl (Or.inr (Or.inl rfl)),
   (getPortConfig_precedence jsonPlatform portAnnotatedService 80).2
      { portAnnotatedService with Annotations := portAnnotatedService.Annotations.drop 1 }
      (fun key hkey => by
        have h443 : key ≠ annLinodePortConfigPrefix ++ fmtInt 443 := hkey 443 (by decide)
        have h443b : key ≠ annLinodePortConfigPrefix ++ "443" := h443
        show List.lookup key (portAnnotatedService.Annotations.drop 1)
          = List.lookup key portAnnotatedService.Annotations
        simp only [portAnnotatedService, List.drop, List.lookup]
        have hb : (key == annLinodePortConfigPrefix ++ "443") = false := by
          simpa using h443b
        rw [hb])⟩

/-- C16. For a port `p` whose per-port annotation is read without error as `ann`,
with `chosen` the protocol value chosen by precedence: `getPortConfig` succeeds
exactly when the lower-cased `chosen` is one of tcp, http, https; a returned
config carries the lower-cased value, so `HTTP` and `HTTp` give `http`; in every
other case the result is the error `invalid protocol: ... specified` and no
config. -/
theorem getPortConfig_succeeds_iff_valid (P : Platform) (service : Service) (p : Int)
    (ann : portConfigAnnotation) (chosen : String)
    (hann : getPortConfigAnnotation P service p = .ok ann)
    (hchosen : chosen = (if ann.Protocol ≠ "" then ann.Protocol
                  else match service.Annotations.lookup annLinodeDefaultProtocol with
                    | some v => v
                    | none => "tcp")) :
    ((∃ pc, getPortConfig P service p = .ok pc) ↔
      (ToLower P chosen = "tcp" ∨ ToLower P chosen = "http" ∨ ToLower P chosen = "https")) ∧
    (∀ pc, getPortConfig P service p = .ok pc →
      pc = { TlsSecretName := ann.TlsSecretName, Protocol := ToLower P chosen, Port := p }) ∧
    (¬ (ToLower P chosen = "tcp" ∨ ToLower P chosen = "http" ∨ ToLower P chosen = "https") →
      getPortConfig P service p
        = .error (.errorf ("invalid protocol: " ++ P.Quote (ToLower P chosen) ++ " specified"))) ∧
    ToLower P "HTTP" = "http" ∧ ToLower P "HTTp" = "http" := by
  have hform : getPortConfig P service p =
      if ToLower P chosen ≠ "tcp" ∧ ToLower P chosen ≠ "http" ∧ ToLower P chosen ≠ "https" then
        .error (.errorf ("invalid protocol: " ++ P.Quote (ToLower P chosen) ++ " specified"))
      else .ok { TlsSecretName := ann.TlsSecretName, Protocol := ToLower P chosen, Port := p } := by
    unfold getPortConfig
    rw [hann]
    simp only
    by_cases hp : ann.Protocol = ""
    · cases hd : service.Annotations.lookup annLinodeDefaultProtocol with
      | none =>
        simp only [hp, hd, ne_eq, not_true_eq_false, if_false, if_true] at hchosen ⊢
        subst hchosen
        rfl
      | some v =>
        simp only [hp, hd, ne_eq, not_true_eq_false, if_false, if_true] at hchosen ⊢
        subst hchosen
        rfl
    · simp only [hp, ne_eq, not_false_eq_true, if_false, if_true] at hchosen ⊢
      subst hchosen
      rfl
  by_cases hv : ToLower P chosen ≠ "tcp" ∧ ToLower P chosen ≠ "http" ∧ ToLower P chosen ≠ "https"
  · rw [if_pos hv] at hform
    have hnv : ¬ (ToLower P chosen = "tcp" ∨ ToLower P chosen = "http"
        ∨ ToLower P chosen = "https") := by
      rintro (h | h | h)
      · exact hv.1 h
      · exact hv.2.1 h
      · exact hv.2.2 h
    refine ⟨⟨?_, fun h => absurd h hnv⟩, ?_, fun _ => hform, rfl, rfl⟩
    · rintro ⟨pc, hpc⟩
      rw [hform] at hpc
      cases hpc
    · intro pc hpc
      rw [hform] at hpc
      cases hpc
  · rw [if_neg hv] at hform
    have hval : ToLower P chosen = "tcp" ∨ ToLower P chosen = "http"
        ∨ ToLower P chosen = "https" := by
      by_contra hc
      exact hv ⟨fun h => hc (Or.inl h), fun h => hc (Or.inr (Or.inl h)),
        fun h => hc (Or.inr (Or.inr h))⟩
    refine ⟨⟨fun _ => hval, fun _ => ⟨_, hform⟩⟩, ?_, fun h => absurd hval h, rfl, rfl⟩
    intro pc hpc
    rw [hform] at hpc
    simp only [Except.ok.injEq] at hpc
    exact hpc.symm

/-- C16 at a concrete input: port 80 of the service whose per-port annotation has
the protocol `HTTp`. -/
theorem getPortConfig_succeeds_iff_valid_witness :
    getPortConfigAnnotation jsonPlatform mixedCaseService 80 = .ok { Protocol := "HTTp" } ∧
    getPortConfig jsonPlatform mixedCaseService 80
      = .ok { TlsSecretName := "", Protocol := "http", Port := 80 } ∧
    (∀ pc, getPortConfig jsonPlatform mixedCaseService 80 = .ok pc →
      pc = { TlsSecretName := "", Protocol := ToLower jsonPlatform "HTTp", Port := 80 }) :=
  ⟨rfl, rfl,
   (getPortConfig_succeeds_iff_valid jsonPlatform mixedCaseService 80 { Protocol := "HTTp" }
      "HTTp" rfl rfl).2.1⟩

/-! ## The health check type -/

/-- C17. `getHealthCheckType` returns `connection` with no error when the
check-type annotation is absent, the annotation value with no error when it is
one of none, connection, http, http_body, and otherwise the empty check type with
the error `invalid health check type: V specified in annotation: K`, where `V` is
the quoted value and `K` the quoted key of the check-type annotation. -/
theorem getHealthCheckType_cases (P : Platform) (service : Service) :
    (service.Annotations.lookup "service.beta.kubernetes.io/linode-loadbalancer-check-type"
        = none →
      getHealthCheckType P service = ("connection", none)) ∧
    (∀ v,
      service.Annotations.lookup "service.beta.kubernetes.io/linode-loadbalancer-check-type"
        = some v →
      (v = "none" ∨ v = "connection" ∨ v = "http" ∨ v = "http_body") →
      getHealthCheckType P service = (v, none)) ∧
    (∀ v,
      service.Annotations.lookup "service.beta.kubernetes.io/linode-loadbalancer-check-type"
        = some v →
      ¬ (v = "none" ∨ v = "connection" ∨ v = "http" ∨ v = "http_body") →
      getHealthCheckType P service
        = ("", some (.errorf ("invalid health check type: " ++ P.Quote v
            ++ " specified in annotation: "
            ++ P.Quote "service.beta.kubernetes.io/linode-loadbalancer-check-type")))) := by
  refine ⟨?_, ?_, ?_⟩
  · intro h
    unfold getHealthCheckType
    unfold annLinodeHealthCheckType
    rw [h]
    rfl
  · intro v h hv
    unfold getHealthCheckType
    unfold annLinodeHealthCheckType
    rw [h]
    simp only
    rw [if_neg]
    intro hne
    rcases hv with h1 | h1 | h1 | h1
    · exact hne.1 h1
    · exact hne.2.1 h1
    · exact hne.2.2.1 h1
    · exact hne.2.2.2 h1
  · intro v h hv
    unfold getHealthCheckType
    unfold annLinodeHealthCheckType
    rw [h]
    simp only
    rw [if_pos]
    exact ⟨fun h1 => hv (Or.inl h1), fun h1 => hv (Or.inr (Or.inl h1)),
      fun h1 => hv (Or.inr (Or.inr (Or.inl h1))), fun h1 => hv (Or.inr (Or.inr (Or.inr h1)))⟩

/-- C17 at concrete inputs: no annotation, the value `http`, the value `invalid`. -/
theorem getHealthCheckType_cases_witness :
    getHealthCheckType samplePlatform sampleService = ("connection", none) ∧
    getHealthCheckType samplePlatform (checkTypeService "http") = ("http", none) ∧
    getHealthCheckType samplePlatform (checkTypeService "invalid")
      = ("", some (.errorf ("invalid health check type: \"invalid\" specified in annotation: "
          ++ "\"service.beta.kubernetes.io/linode-loadbalancer-check-type\""))) :=
  ⟨(getHealthCheckType_cases samplePlatform sampleService).1 rfl,
   (getHealthCheckType_cases samplePlatform (checkTypeService "http")).2.1 "http" rfl
     (Or.inr (Or.inr (Or.inl rfl))),
   (getHealthCheckType_cases samplePlatform (checkTypeService "invalid")).2.2 "invalid" rfl
     (by decide)⟩

/-- C18 (as stated, refuted). The values `HTTP` and `Http_Body`, upper/lower-case
variants of `http` and `http_body`, are rejected by `getHealthCheckType`: the
result is the empty check type with the invalid-type error. -/
theorem getHealthCheckType_rejects_upper_case :
    ToLower samplePlatform "HTTP" = "http" ∧
    ToLower samplePlatform "Http_Body" = "http_body" ∧
    getHealthCheckType samplePlatform (checkTypeService "HTTP")
      = ("", some (.errorf ("invalid health check type: \"HTTP\" specified in annotation: "
          ++ "\"service.beta.kubernetes.io/linode-loadbalancer-check-type\""))) ∧
    getHealthCheckType samplePlatform (checkTypeService "Http_Body")
      = ("", some (.errorf ("invalid health check type: \"Http_Body\" specified in annotation: "
          ++ "\"service.beta.kubernetes.io/linode-loadbalancer-check-type\""))) := by
  refine ⟨by decide, by decide, by decide, by decide⟩

/-- C18, amended. Health-check-type values are validated as written, without case
folding: for a service whose check-type annotation has the value `v`,
`getHealthCheckType` returns no error exactly when `v` is literally one of none,
connection, http, http_body, it then returns `v` itself, and a value that
lower-casing changes is rejected. -/
theorem getHealthCheckType_is_case_sensitive (P : Platform) (service : Service) (v : String)
    (h : service.Annotations.lookup annLinodeHealthCheckType = some v) :
    ((getHealthCheckType P service).2 = none ↔
      (v = "none" ∨ v = "connection" ∨ v = "http" ∨ v = "http_body")) ∧
    ((getHealthCheckType P service).2 = none → (getHealthCheckType P service).1 = v) ∧
    (ToLower P v ≠ v → (getHealthCheckType P service).2 ≠ none) := by
  have hform : getHealthCheckType P service =
      if v ≠ "none" ∧ v ≠ "connection" ∧ v ≠ "http" ∧ v ≠ "http_body" then
        ("", some (.errorf ("invalid health check type: " ++ P.Quote v
          ++ " specified in annotation: " ++ P.Quote annLinodeHealthCheckType)))
      else (v, none) := by
    unfold getHealthCheckType
    rw [h]
  have hiff : (getHealthCheckType P service).2 = none ↔
      (v = "none" ∨ v = "connection" ∨ v = "http" ∨ v = "http_body") := by
    rw [hform]
    by_cases hv : v ≠ "none" ∧ v ≠ "connection" ∧ v ≠ "http" ∧ v ≠ "http_body"
    · rw [if_pos hv]
      constructor
      · intro h1; cases h1
      · rintro (h1 | h1 | h1 | h1)
        · exact absurd h1 hv.1
        · exact absurd h1 hv.2.1
        · exact absurd h1 hv.2.2.1
        · exact absurd h1 hv.2.2.2
    · rw [if_neg hv]
      refine ⟨fun _ => ?_, fun _ => rfl⟩
      by_contra hc
      exact hv ⟨fun h1 => hc (Or.inl h1), fun h1 => hc (Or.inr (Or.inl h1)),
        fun h1 => hc (Or.inr (Or.inr (Or.inl h1))), fun h1 => hc (Or.inr (Or.inr (Or.inr h1)))⟩
  refine ⟨hiff, ?_, ?_⟩
  · intro hn
    have hv := hiff.1 hn
    rw [hform, if_neg]
    intro hne
    rcases hv with h1 | h1 | h1 | h1
    · exact hne.1 h1
    · exact hne.2.1 h1
    · exact hne.2.2.1 h1
    · exact hne.2.2.2 h1
  · intro hlow hn
    apply hlow
    rcases hiff.1 hn with h1 | h1 | h1 | h1 <;> rw [h1] <;> rfl

/-- C18, amended, at a concrete input: the value `HTTP`. -/
theorem getHealthCheckType_is_case_sensitive_witness :
    (checkTypeService "HTTP").Annotations.lookup annLinodeHealthCheckType = some "HTTP" ∧
    ToLower samplePlatform "HTTP" ≠ "HTTP" ∧
    (getHealthCheckType samplePlatform (checkTypeService "HTTP")).2 ≠ none :=
  ⟨rfl, by decide,
   (getHealthCheckType_is_case_sensitive samplePlatform (checkTypeService "HTTP") "HTTP"
      rfl).2.2 (by decide)⟩

/-! ## The health check fields of a built config -/

/-- A config that `buildNodeBalancerConfig` returns without error, for a service
whose health-check type is accepted, has the check interval, timeout, attempts and
passive flag of the annotations, and 5, 3, 2 and true where the annotation is not
set. -/
theorem buildNodeBalancerConfig_check_fields {σ : Type} (P : Platform) (l : loadbalancers σ)
    (service : Service) (port : Int) (t : String)
    (hcheck : getHealthCheckType P service = (t, none))
    (hok : (buildNodeBalancerConfig P l service port).2 = none) :
    intAnnotation P service annLinodeHealthCheckInterval 5
      = .ok (buildNodeBalancerConfig P l service port).1.CheckInterval ∧
    intAnnotation P service annLinodeHealthCheckTimeout 3
      = .ok (buildNodeBalancerConfig P l service port).1.CheckTimeout ∧
    intAnnotation P service annLinodeHealthCheckAttempts 2
      = .ok (buildNodeBalancerConfig P l service port).1.CheckAttempts ∧
    (service.Annotations.lookup annLinodeHealthCheckPassive = none →
      (buildNodeBalancerConfig P l service port).1.CheckPassive = true) ∧
    (∀ v, service.Annotations.lookup annLinodeHealthCheckPassive = some v →
      ParseBool P v = .ok (buildNodeBalancerConfig P l service port).1.CheckPassive) := by
  unfold buildNodeBalancerConfig at hok ⊢
  rw [hcheck] at hok ⊢
  simp only at hok ⊢
  cases hpc : getPortConfig P service port with
  | error e => rw [hpc] at hok; cases hok
  | ok pc =>
    simp only [hpc] at hok ⊢
    by_cases hbody : t = CheckHTTPBody ∧ mapGet service.Annotations annLinodeCheckBody = ""
    · rw [if_pos hbody] at hok; cases hok
    · rw [if_neg hbody] at hok ⊢
      cases hi : intAnnotation P service annLinodeHealthCheckInterval 5 with
      | error e => rw [hi] at hok; cases hok
      | ok ci =>
        simp only [hi] at hok ⊢
        cases ht : intAnnotation P service annLinodeHealthCheckTimeout 3 with
        | error e => rw [ht] at hok; cases hok
        | ok ct =>
          simp only [ht] at hok ⊢
          cases ha : intAnnotation P service annLinodeHealthCheckAttempts 2 with
          | error e => rw [ha] at hok; cases hok
          | ok ca =>
            simp only [ha] at hok ⊢
            cases hl : service.Annotations.lookup annLinodeHealthCheckPassive with
            | none =>
              simp only [hl] at hok ⊢
              unfold addSSLCert
              refine ⟨?_, ?_, ?_, ?_, ?_⟩ <;> (repeat' split) <;> simp
            | some v =>
              simp only [hl] at hok ⊢
              cases hp : ParseBool P v with
              | error e => rw [hp] at hok; cases hok
              | ok cp =>
                simp only [hp] at hok ⊢
                unfold addSSLCert
                refine ⟨?_, ?_, ?_, ?_, ?_⟩ <;> (repeat' split) <;> simp [hp]

/-- A check-type annotation value that `getHealthCheckType` returns without error
is one of the four check types. -/
theorem getHealthCheckType_accepted (P : Platform) (service : Service) (v : String)
    (h : service.Annotations.lookup annLinodeHealthCheckType = some v)
    (hn : (getHealthCheckType P service).2 = none) :
    v = "none" ∨ v = "connection" ∨ v = "http" ∨ v = "http_body" := by
  unfold getHealthCheckType at hn
  rw [h] at hn
  simp only at hn
  split at hn
  · cases hn
  · rename_i hv
    by_contra hc
    exact hv ⟨fun h1 => hc (Or.inl h1), fun h1 => hc (Or.inr (Or.inl h1)),
      fun h1 => hc (Or.inr (Or.inr (Or.inl h1))), fun h1 => hc (Or.inr (Or.inr (Or.inr h1)))⟩

/-- A rejected health-check type makes `buildNodeBalancerConfig` return the zero
config with a nil error, whenever the port config itself is read without error. -/
theorem buildNodeBalancerConfig_of_rejected_type {σ : Type} (P : Platform)
    (l : loadbalancers σ) (service : Service) (port : Int) (pc : portConfig)
    (hpc : getPortConfig P service port = .ok pc)
    (hrej : (getHealthCheckType P service).2 ≠ none) :
    buildNodeBalancerConfig P l service port = ({}, none) := by
  unfold buildNodeBalancerConfig
  rw [hpc]
  simp only
  split
  · rfl
  · rename_i health hh
    rw [hh] at hrej
    exact absurd rfl hrej

/-- C19 (the code swallows the error). For a service whose check-type annotation
holds a value `v` that is none of none, connection, http, http_body, and a port
whose port config is read without error, `getHealthCheckType` returns an error but
`buildNodeBalancerConfig` returns the zero config with a nil error. For the
sample service with the check type `invalid`, `buildLoadBalancerRequest` then
creates the balancer with a port config on port 0 and returns no error, and
`UpdateLoadBalancer` returns nil after rebuilding the config of port 80 as a
config on port 0. -/
theorem invalid_check_type_is_swallowed {σ : Type} (P : Platform) (l : loadbalancers σ)
    (service : Service) (port : Int) (v : String) (pc : portConfig)
    (hv : service.Annotations.lookup annLinodeHealthCheckType = some v)
    (hinv : ¬ (v = "none" ∨ v = "connection" ∨ v = "http" ∨ v = "http_body"))
    (hpc : getPortConfig P service port = .ok pc) :
    ((getHealthCheckType P service).2 ≠ none ∧
      buildNodeBalancerConfig P l service port = ({}, none)) ∧
    ((buildLoadBalancerRequest samplePlatform sampleLB (checkTypeService "invalid")
        [sampleNode] Cloud.empty).val = .ok sampleBalancer ∧
      (buildLoadBalancerRequest samplePlatform sampleLB (checkTypeService "invalid")
        [sampleNode] Cloud.empty).calls
        = [.CreateNodeBalancer
            { Label := some "afoobar123", Region := "us-west", ClientConnThrottle := some 20,
              Configs :=
                [{ Port := 0, Protocol := "", Algorithm := "", Stickiness := "", Check := "",
                   CheckInterval := 0, CheckAttempts := 0, CheckPath := "", CheckBody := "",
                   CheckPassive := some false, CheckTimeout := 0, CipherSuite := "",
                   SSLCert := "", SSLKey := "",
                   Nodes := [{ Address := "10.0.0.1:30000", Label := "node-1",
                               Weight := 100, Mode := "accept" }] }] }]) ∧
    ((UpdateLoadBalancer samplePlatform sampleLB (checkTypeService "invalid") [sampleNode]
        sampleCloud).val = none ∧
      (UpdateLoadBalancer samplePlatform sampleLB (checkTypeService "invalid") [sampleNode]
        sampleCloud).calls
        = [.ListNodeBalancers "afoobar123", .ListNodeBalancerConfigs 1,
           .RebuildNodeBalancerConfig 1 2
            { Port := 0, Protocol := "", Algorithm := "", Stickiness := "", Check := "",
              CheckInterval := 0, CheckAttempts := 0, CheckPath := "", CheckBody := "",
              CheckPassive := some false, CheckTimeout := 0, CipherSuite := "",
              SSLCert := "", SSLKey := "",
              Nodes := [{ Address := "10.0.0.1:30000", Label := "node-1",
                          Weight := 100, Mode := "accept" }] }] ∧
      sampleCloud.configs.map (fun c => c.Port) = [80] ∧
      (UpdateLoadBalancer samplePlatform sampleLB (checkTypeService "invalid") [sampleNode]
        sampleCloud).state.configs.map (fun c => c.Port) = [0]) := by
  have hrej : (getHealthCheckType P service).2 ≠ none := by
    intro hn
    exact hinv (getHealthCheckType_accepted P service v hv hn)
  exact ⟨⟨hrej, buildNodeBalancerConfig_of_rejected_type P l service port pc hpc hrej⟩,
    ⟨rfl, by decide⟩, ⟨by decide, by decide, by decide, by decide⟩⟩

/-- C19 at a concrete input: port 80 of the sample service with the check type
`invalid`. -/
theorem invalid_check_type_is_swallowed_witness :
    (getHealthCheckType samplePlatform (checkTypeService "invalid")).2 ≠ none ∧
    buildNodeBalancerConfig samplePlatform sampleLB (checkTypeService "invalid") 80
      = ({}, none) :=
  (invalid_check_type_is_swallowed samplePlatform sampleLB (checkTypeService "invalid") 80
    "invalid" { TlsSecretName := "", Protocol := "tcp", Port := 80 } rfl (by decide) rfl).1

/-- C20 (the defect of C19 shows in the check fields). A config `cfg` that
`buildNodeBalancerConfig` returns with a nil error has, when the health-check type
was accepted, the check interval, timeout and attempts and the passive flag parsed
from the annotations, and 5, 3, 2 and true where an annotation is not set; when
the health-check type was rejected, `cfg` is the zero config, with interval,
timeout and attempts 0 and the passive flag false, whatever the annotations
hold. -/
theorem check_fields_of_built_config {σ : Type} (P : Platform) (l : loadbalancers σ)
    (service : Service) (port : Int) (cfg : NodeBalancerConfig)
    (hb : buildNodeBalancerConfig P l service port = (cfg, none)) :
    ((getHealthCheckType P service).2 = none →
      (service.Annotations.lookup annLinodeHealthCheckInterval = none →
        cfg.CheckInterval = 5) ∧
      (∀ v n, service.Annotations.lookup annLinodeHealthCheckInterval = some v →
        Atoi P v = .ok n → cfg.CheckInterval = n) ∧
      (service.Annotations.lookup annLinodeHealthCheckTimeout = none →
        cfg.CheckTimeout = 3) ∧
      (∀ v n, service.Annotations.lookup annLinodeHealthCheckTimeout = some v →
        Atoi P v = .ok n → cfg.CheckTimeout = n) ∧
      (service.Annotations.lookup annLinodeHealthCheckAttempts = none →
        cfg.CheckAttempts = 2) ∧
      (∀ v n, service.Annotations.lookup annLinodeHealthCheckAttempts = some v →
        Atoi P v = .ok n → cfg.CheckAttempts = n) ∧
      (service.Annotations.lookup annLinodeHealthCheckPassive = none →
        cfg.CheckPassive = true) ∧
      (∀ v b, service.Annotations.lookup annLinodeHealthCheckPassive = some v →
        ParseBool P v = .ok b → cfg.CheckPassive = b)) ∧
    ((getHealthCheckType P service).2 ≠ none →
      cfg = {} ∧ cfg.CheckInterval = 0 ∧ cfg.CheckTimeout = 0 ∧ cfg.CheckAttempts = 0 ∧
      cfg.CheckPassive = false) := by
  have hok : (buildNodeBalancerConfig P l service port).2 = none := by rw [hb]
  have hcfg : (buildNodeBalancerConfig P l service port).1 = cfg := by rw [hb]
  constructor
  · intro hacc
    have hcheck : getHealthCheckType P service = ((getHealthCheckType P service).1, none) := by
      rw [← hacc]
    obtain ⟨h1, h2, h3, h4, h5⟩ :=
      buildNodeBalancerConfig_check_fields P l service port _ hcheck hok
    rw [hcfg] at h1 h2 h3 h4 h5
    unfold intAnnotation at h1 h2 h3
    refine ⟨?_, ?_, ?_, ?_, ?_, ?_, h4, ?_⟩
    · intro hn
      rw [hn] at h1
      simp only [Except.ok.injEq] at h1
      exact h1.symm
    · intro v n hs hn
      rw [hs] at h1
      simp only at h1
      rw [hn] at h1
      simp only [Except.ok.injEq] at h1
      exact h1.symm
    · intro hn
      rw [hn] at h2
      simp only [Except.ok.injEq] at h2
      exact h2.symm
    · intro v n hs hn
      rw [hs] at h2
      simp only at h2
      rw [hn] at h2
      simp only [Except.ok.injEq] at h2
      exact h2.symm
    · intro hn
      rw [hn] at h3
      simp only [Except.ok.injEq] at h3
      exact h3.symm
    · intro v n hs hn
      rw [hs] at h3
      simp only at h3
      rw [hn] at h3
      simp only [Except.ok.injEq] at h3
      exact h3.symm
    · intro v b hs hb2
      have := h5 v hs
      rw [hb2] at this
      simp only [Except.ok.injEq] at this
      exact this.symm
  · intro hrej
    cases hpc : getPortConfig P service port with
    | error e =>
      unfold buildNodeBalancerConfig at hok
      rw [hpc] at hok
      cases hok
    | ok pc =>
      have := buildNodeBalancerConfig_of_rejected_type P l service port pc hpc hrej
      rw [hb] at this
      simp only [Prod.mk.injEq, and_true] at this
      subst this
      exact ⟨rfl, rfl, rfl, rfl, rfl⟩

/-- C20 at concrete inputs: port 80 of the sample service, without annotations and
with the check type `invalid`. -/
theorem check_fields_of_built_config_witness :
    ((buildNodeBalancerConfig samplePlatform sampleLB sampleService 80).1.CheckInterval = 5 ∧
     (buildNodeBalancerConfig samplePlatform sampleLB sampleService 80).1.CheckPassive = true) ∧
    (checkTypeService "invalid").Annotations.lookup annLinodeHealthCheckInterval = none ∧
    (checkTypeService "invalid").Annotations.lookup annLinodeHealthCheckPassive = none ∧
    (buildNodeBalancerConfig samplePlatform sampleLB (checkTypeService "invalid") 80).2
      = none ∧
    (buildNodeBalancerConfig samplePlatform sampleLB
      (checkTypeService "invalid") 80).1.CheckInterval = 0 ∧
    (buildNodeBalancerConfig samplePlatform sampleLB
      (checkTypeService "invalid") 80).1.CheckPassive = false :=
  ⟨⟨((check_fields_of_built_config samplePlatform sampleLB sampleService 80 _ rfl).1
        rfl).1 rfl,
    ((check_fields_of_built_config samplePlatform sampleLB sampleService 80 _ rfl).1
        rfl).2.2.2.2.2.2.1 rfl⟩,
   rfl, rfl, rfl,
   ((check_fields_of_built_config samplePlatform sampleLB (checkTypeService "invalid") 80
      _ rfl).2 (by decide)).2.1,
   ((check_fields_of_built_config samplePlatform sampleLB (checkTypeService "invalid") 80
      _ rfl).2 (by decide)).2.2.2.2⟩

/-! ## The body of an http_body check -/

/-- A config that `buildNodeBalancerConfig` returns without error, for a service
whose health-check type is `http_body`, has the check-body annotation as its check
body. -/
theorem buildNodeBalancerConfig_check_body {σ : Type} (P : Platform) (l : loadbalancers σ)
    (service : Service) (port : Int) (t : String)
    (hcheck : getHealthCheckType P service = (t, none)) (htb : t = CheckHTTPBody)
    (hok : (buildNodeBalancerConfig P l service port).2 = none) :
    (buildNodeBalancerConfig P l service port).1.CheckBody
      = mapGet service.Annotations annLinodeCheckBody := by
  unfold buildNodeBalancerConfig at hok ⊢
  rw [hcheck] at hok ⊢
  simp only at hok ⊢
  cases hpc : getPortConfig P service port with
  | error e => rw [hpc] at hok; cases hok
  | ok pc =>
    simp only [hpc] at hok ⊢
    by_cases hbody : t = CheckHTTPBody ∧ mapGet service.Annotations annLinodeCheckBody = ""
    · rw [if_pos hbody] at hok; cases hok
    · rw [if_neg hbody] at hok ⊢
      cases hi : intAnnotation P service annLinodeHealthCheckInterval 5 with
      | error e => rw [hi] at hok; cases hok
      | ok ci =>
        simp only [hi] at hok ⊢
        cases ht : intAnnotation P service annLinodeHealthCheckTimeout 3 with
        | error e => rw [ht] at hok; cases hok
        | ok ct =>
          simp only [ht] at hok ⊢
          cases ha : intAnnotation P service annLinodeHealthCheckAttempts 2 with
          | error e => rw [ha] at hok; cases hok
          | ok ca =>
            simp only [ha] at hok ⊢
            cases hl : service.Annotations.lookup annLinodeHealthCheckPassive with
            | none =>
              simp only [hl] at hok ⊢
              unfold addSSLCert
              (repeat' split) <;> simp [htb]
            | some v =>
              simp only [hl] at hok ⊢
              cases hp : ParseBool P v with
              | error e => rw [hp] at hok; cases hok
              | ok cp =>
                simp only [hp] at hok ⊢
                unfold addSSLCert
                (repeat' split) <;> simp [htb]

/-- The health-check type of a service whose check-type annotation is
`http_body`. -/
theorem getHealthCheckType_http_body (P : Platform) (service : Service)
    (htype : service.Annotations.lookup annLinodeHealthCheckType = some "http_body") :
    getHealthCheckType P service = (CheckHTTPBody, none) := by
  unfold getHealthCheckType
  rw [htype]
  rfl

/-- C21. For a service whose check-type annotation is `http_body`:
`buildNodeBalancerConfig` returns an error for every port when the check-body
annotation is absent or empty, and that error is
`for health check type http_body need body regex annotation K`, with `K` the key
of the check-body annotation, when the port config itself is read without error;
when the check-body annotation holds a non-empty `body` and the config is built
without error, the check body of the config is `body`. -/
theorem http_body_check_needs_body {σ : Type} (P : Platform) (l : loadbalancers σ)
    (service : Service) (port : Int)
    (htype : service.Annotations.lookup annLinodeHealthCheckType = some "http_body") :
    ((service.Annotations.lookup annLinodeCheckBody = none ∨
        service.Annotations.lookup annLinodeCheckBody = some "") →
      (buildNodeBalancerConfig P l service port).2 ≠ none ∧
      ((∃ pc, getPortConfig P service port = .ok pc) →
        (buildNodeBalancerConfig P l service port).2
          = some (.errorf ("for health check type http_body need body regex annotation "
              ++ "service.beta.kubernetes.io/linode-loadbalancer-check-body")))) ∧
    (∀ body, service.Annotations.lookup annLinodeCheckBody = some body → body ≠ "" →
      (buildNodeBalancerConfig P l service port).2 = none →
      (buildNodeBalancerConfig P l service port).1.CheckBody = body) := by
  have hcheck := getHealthCheckType_http_body P service htype
  constructor
  · intro hbody
    have hempty : mapGet service.Annotations annLinodeCheckBody = "" := by
      unfold mapGet
      rcases hbody with h | h <;> rw [h] <;> rfl
    have hform : ∀ pc, getPortConfig P service port = .ok pc →
        (buildNodeBalancerConfig P l service port).2
          = some (.errorf ("for health check type http_body need body regex annotation "
              ++ "service.beta.kubernetes.io/linode-loadbalancer-check-body")) := by
      intro pc hpc
      unfold buildNodeBalancerConfig
      rw [hpc, hcheck]
      simp only
      rw [if_pos ⟨trivial, hempty⟩]
      rfl
    constructor
    · cases hpc : getPortConfig P service port with
      | error e =>
        unfold buildNodeBalancerConfig
        rw [hpc]
        simp
      | ok pc =>
        rw [hform pc hpc]
        simp
    · rintro ⟨pc, hpc⟩
      exact hform pc hpc
  · intro body hbody _ hok
    rw [buildNodeBalancerConfig_check_body P l service port _ hcheck rfl hok]
    unfold mapGet
    rw [hbody]
    rfl

/-- C21 at concrete inputs: port 80 of the sample service with the check type
`http_body`, without a check body and with the check body `ok`. -/
theorem http_body_check_needs_body_witness :
    (buildNodeBalancerConfig samplePlatform sampleLB (httpBodyService none) 80).2
      = some (.errorf ("for health check type http_body need body regex annotation "
          ++ "service.beta.kubernetes.io/linode-loadbalancer-check-body")) ∧
    (buildNodeBalancerConfig samplePlatform sampleLB (httpBodyService (some "ok")) 80).2
      = none ∧
    (buildNodeBalancerConfig samplePlatform sampleLB
      (httpBodyService (some "ok")) 80).1.CheckBody = "ok" :=
  ⟨((http_body_check_needs_body samplePlatform sampleLB (httpBodyService none) 80 rfl).1
      (Or.inl rfl)).2 ⟨_, rfl⟩,
   rfl,
   (http_body_check_needs_body samplePlatform sampleLB (httpBodyService (some "ok")) 80
      rfl).2 "ok" rfl (by decide) rfl⟩

/-! ## The certificate of an https port -/

theorem head_dropWhile_not {α : Type} (p : α → Bool) (xs : List α) (c : α)
    (h : (xs.dropWhile p).head? = some c) : p c = false := by
  induction xs with
  | nil => simp at h
  | cons x xs ih =>
    by_cases hx : p x = true
    · rw [List.dropWhile_cons_of_pos hx] at h
      exact ih h
    · rw [List.dropWhile_cons_of_neg hx] at h
      simp only [List.head?_cons, Option.some.injEq] at h
      rw [← h]
      simpa using hx

/-- What `TrimSpace` returns: the text without a run of white space at its start
and a run of white space at its end, such that it neither starts nor ends with
white space. -/
theorem TrimSpace_spec (s : String) :
    ∃ pre post, s.data = pre ++ (TrimSpace s).data ++ post ∧
      (∀ c ∈ pre, isSpace c = true) ∧ (∀ c ∈ post, isSpace c = true) ∧
      (∀ c, (TrimSpace s).data.head? = some c → isSpace c = false) ∧
      (∀ c, (TrimSpace s).data.getLast? = some c → isSpace c = false) := by
  have hsplit1 := List.takeWhile_append_dropWhile isSpace s.data
  have hsplit2 := List.takeWhile_append_dropWhile isSpace (s.data.dropWhile isSpace).reverse
  have hb : s.data.dropWhile isSpace
      = ((s.data.dropWhile isSpace).reverse.dropWhile isSpace).reverse
        ++ ((s.data.dropWhile isSpace).reverse.takeWhile isSpace).reverse := by
    rw [← List.reverse_append, hsplit2, List.reverse_reverse]
  refine ⟨s.data.takeWhile isSpace,
    ((s.data.dropWhile isSpace).reverse.takeWhile isSpace).reverse, ?_, ?_, ?_, ?_, ?_⟩
  · show s.data = _ ++ ((s.data.dropWhile isSpace).reverse.dropWhile isSpace).reverse ++ _
    rw [List.append_assoc, ← hb, hsplit1]
  · intro c hc
    exact List.mem_takeWhile_imp hc
  · intro c hc
    exact List.mem_takeWhile_imp (List.mem_reverse.1 hc)
  · intro c hc
    have hc2 : (((s.data.dropWhile isSpace).reverse.dropWhile isSpace).reverse).head?
        = some c := hc
    apply head_dropWhile_not isSpace s.data c
    rw [hb]
    cases hr : ((s.data.dropWhile isSpace).reverse.dropWhile isSpace).reverse with
    | nil => rw [hr] at hc2; simp at hc2
    | cons x xs => rw [hr] at hc2; simpa using hc2
  · intro c hc
    have hc2 : (((s.data.dropWhile isSpace).reverse.dropWhile isSpace).reverse).getLast?
        = some c := hc
    rw [List.getLast?_reverse] at hc2
    exact head_dropWhile_not isSpace _ c hc2

/-- Building the config of an https port whose port config names no TLS secret
fails, when the health-check type is accepted. -/
theorem buildNodeBalancerConfig_https_without_secret {σ : Type} (P : Platform)
    (l : loadbalancers σ) (service : Service) (port : Int) (pc : portConfig) (t : String)
    (hpc : getPortConfig P service port = .ok pc) (hhttps : pc.Protocol = ProtocolHTTPS)
    (hname : pc.TlsSecretName = "")
    (hcheck : getHealthCheckType P service = (t, none)) :
    (buildNodeBalancerConfig P l service port).2 ≠ none := by
  intro hok
  unfold buildNodeBalancerConfig at hok
  rw [hpc, hcheck] at hok
  simp only at hok
  by_cases hbody : t = CheckHTTPBody ∧ mapGet service.Annotations annLinodeCheckBody = ""
  · rw [if_pos hbody] at hok; cases hok
  · rw [if_neg hbody] at hok
    cases hi : intAnnotation P service annLinodeHealthCheckInterval 5 with
    | error e => rw [hi] at hok; cases hok
    | ok ci =>
      simp only [hi] at hok
      cases ht : intAnnotation P service annLinodeHealthCheckTimeout 3 with
      | error e => rw [ht] at hok; cases hok
      | ok ct =>
        simp only [ht] at hok
        cases ha : intAnnotation P service annLinodeHealthCheckAttempts 2 with
        | error e => rw [ha] at hok; cases hok
        | ok ca =>
          simp only [ha] at hok
          have hssl : ∀ cfg : NodeBalancerConfig, (addSSLCert P l service cfg pc).2 ≠ none := by
            intro cfg
            unfold addSSLCert
            split
            · simp
            · simp only [getTLSCertInfo, hname, if_true]
              simp
          cases hl : service.Annotations.lookup annLinodeHealthCheckPassive with
          | none =>
            simp only [hl, hhttps, if_true] at hok
            exact hssl _ hok
          | some v =>
            simp only [hl] at hok
            cases hp : ParseBool P v with
            | error e => rw [hp] at hok; cases hok
            | ok cp =>
              simp only [hp, hhttps, if_true] at hok
              exact hssl _ hok

/-- C22 (the defect of C19 reaches the https build). `getTLSCertInfo` returns an
empty certificate and key with an error when the TLS secret name is empty,
whatever the Kubernetes client is; with a secret name it returns the white-space
trimmed certificate and key of the secret and no error when the lookup finds the
secret, and an empty certificate and key with the error of the lookup when the
lookup fails. Building the config of an https port without a tls-secret-name
fails when the health-check type is accepted; when the type is rejected,
`buildNodeBalancerConfig` returns the zero config with a nil error instead. -/
theorem getTLSCertInfo_cases (kubeClient : KubeClient) (ns : String) (pc : portConfig) :
    (pc.TlsSecretName = "" →
      getTLSCertInfo kubeClient ns pc
        = ("", "", some (.errorf ("cert & key for port " ++ fmtInt pc.Port
            ++ " is not specified"))) ∧
      ∀ other : KubeClient, getTLSCertInfo other ns pc = getTLSCertInfo kubeClient ns pc) ∧
    (∀ secret, pc.TlsSecretName ≠ "" →
      kubeClient.getSecret ns pc.TlsSecretName = .ok secret →
      getTLSCertInfo kubeClient ns pc
        = (TrimSpace (mapGet secret.Data "tls.crt"), TrimSpace (mapGet secret.Data "tls.key"),
            none)) ∧
    (∀ e, pc.TlsSecretName ≠ "" →
      kubeClient.getSecret ns pc.TlsSecretName = .error e →
      getTLSCertInfo kubeClient ns pc = ("", "", some (.foreign e))) ∧
    (∀ {σ : Type} (P : Platform) (l : loadbalancers σ) (service : Service) (port : Int)
      (t : String),
      getPortConfig P service port = .ok pc → pc.Protocol = ProtocolHTTPS →
      pc.TlsSecretName = "" → getHealthCheckType P service = (t, none) →
      (buildNodeBalancerConfig P l service port).2 ≠ none) ∧
    (getPortConfig samplePlatform (httpsService (some "invalid")) 80
        = .ok { TlsSecretName := "", Protocol := "https", Port := 80 } ∧
      buildNodeBalancerConfig samplePlatform sampleLB (httpsService (some "invalid")) 80
        = ({}, none)) := by
  refine ⟨?_, ?_, ?_, ?_, rfl, rfl⟩
  · intro hname
    constructor
    · unfold getTLSCertInfo
      rw [if_pos hname]
    · intro other
      unfold getTLSCertInfo
      rw [if_pos hname, if_pos hname]
  · intro secret hname hget
    unfold getTLSCertInfo
    rw [if_neg hname, hget]
    rfl
  · intro e hname hget
    unfold getTLSCertInfo
    rw [if_neg hname, hget]
  · intro σ P l service port t hpc hhttps hname hcheck
    exact buildNodeBalancerConfig_https_without_secret P l service port pc t hpc hhttps
      hname hcheck

/-- C22 at concrete inputs: a port config without secret name, one naming the
secret the client knows, one naming an unknown secret, and port 80 of the https
service without tls-secret-name. -/
theorem getTLSCertInfo_cases_witness :
    getTLSCertInfo sampleKube "" { TlsSecretName := "", Protocol := "https", Port := 8080 }
      = ("", "", some (.errorf "cert & key for port 8080 is not specified")) ∧
    getTLSCertInfo sampleKube ""
        { TlsSecretName := "tls-secret", Protocol := "https", Port := 8080 }
      = ("-----CERT-----", "-----KEY-----", none) ∧
    getTLSCertInfo sampleKube "" { TlsSecretName := "secret", Protocol := "https", Port := 8080 }
      = ("", "", some (.foreign "secrets \"secret\" not found")) ∧
    (buildNodeBalancerConfig samplePlatform sampleLB (httpsService none) 80).2 ≠ none :=
  ⟨((getTLSCertInfo_cases sampleKube ""
      { TlsSecretName := "", Protocol := "https", Port := 8080 }).1 rfl).1,
   (getTLSCertInfo_cases sampleKube ""
      { TlsSecretName := "tls-secret", Protocol := "https", Port := 8080 }).2.1 _
      (by decide) rfl,
   (getTLSCertInfo_cases sampleKube ""
      { TlsSecretName := "secret", Protocol := "https", Port := 8080 }).2.2.1 _
      (by decide) rfl,
   (getTLSCertInfo_cases sampleKube ""
      { TlsSecretName := "", Protocol := "https", Port := 80 }).2.2.2.1 samplePlatform
      sampleLB (httpsService none) 80 "connection" rfl rfl rfl rfl⟩

/-! ## The connection throttle -/

/-- The connection throttle in terms of the annotation: 20 unless the value is a
non-empty text that `strconv.Atoi` accepts, and then the parsed number brought
into the range from 0 to 20. -/
theorem getConnectionThrottle_eq (P : Platform) (service : Service) :
    getConnectionThrottle P service =
      match service.Annotations.lookup annLinodeThrottle with
      | none => 20
      | some v =>
        match Atoi P v with
        | .ok n => min (max n 0) 20
        | .error _ => 20 := by
  unfold getConnectionThrottle mapGet
  cases hl : service.Annotations.lookup annLinodeThrottle with
  | none => simp
  | some v =>
    simp only [Option.getD_some]
    by_cases hv : v = ""
    · subst hv
      simp only [ne_eq, not_true_eq_false, if_false]
      rfl
    · simp only [ne_eq, hv, not_false_eq_true, if_true]
      cases ha : Atoi P v with
      | error e => rfl
      | ok n =>
        simp only
        by_cases h0 : n < 0
        · have h1 : ¬ ((0 : Int) > 20) := by decide
          simp only [h0, if_true, h1, if_false]
          rw [max_def, min_def]
          split_ifs <;> omega
        · simp only [h0, if_false]
          by_cases h20 : n > 20
          · simp only [h20, if_true]
            rw [max_def, min_def]
            split_ifs <;> omega
          · simp only [h20, if_false]
            rw [max_def, min_def]
            split_ifs <;> omega

/-- C23. `getConnectionThrottle` returns a value from 0 to 20: when the throttle
annotation is a text that `strconv.Atoi` parses as `n`, the result is
`min (max n 0) 20`; when the annotation is absent, empty or not parsed, the result
is 20. -/
theorem getConnectionThrottle_clamps (P : Platform) (service : Service) :
    (0 ≤ getConnectionThrottle P service ∧ getConnectionThrottle P service ≤ 20) ∧
    (∀ v n, service.Annotations.lookup annLinodeThrottle = some v → Atoi P v = .ok n →
      getConnectionThrottle P service = min (max n 0) 20) ∧
    (service.Annotations.lookup annLinodeThrottle = none →
      getConnectionThrottle P service = 20) ∧
    (service.Annotations.lookup annLinodeThrottle = some "" →
      getConnectionThrottle P service = 20) ∧
    (∀ v e, service.Annotations.lookup annLinodeThrottle = some v → Atoi P v = .error e →
      getConnectionThrottle P service = 20) := by
  have heq := getConnectionThrottle_eq P service
  refine ⟨?_, ?_, ?_, ?_, ?_⟩
  · rw [heq]
    split
    · decide
    · split
      · exact ⟨le_min (le_max_right _ _) (by decide), min_le_right _ _⟩
      · decide
  · intro v n hl ha
    rw [heq, hl]
    simp only [ha]
  · intro hl
    rw [heq, hl]
  · intro hl
    rw [heq, hl]
    rfl
  · intro v e hl ha
    rw [heq, hl]
    simp only [ha]

/-- C23 at concrete inputs: the values `7`, `-3` and `100`, no annotation, the
empty value and the value `1.5`. -/
theorem getConnectionThrottle_clamps_witness :
    getConnectionThrottle samplePlatform (throttleService "7") = 7 ∧
    getConnectionThrottle samplePlatform (throttleService "-3") = 0 ∧
    getConnectionThrottle samplePlatform (throttleService "100") = 20 ∧
    getConnectionThrottle samplePlatform sampleService = 20 ∧
    getConnectionThrottle samplePlatform (throttleService "") = 20 ∧
    getConnectionThrottle samplePlatform (throttleService "1.5") = 20 :=
  ⟨(getConnectionThrottle_clamps samplePlatform (throttleService "7")).2.1 "7" 7 rfl rfl,
   (getConnectionThrottle_clamps samplePlatform (throttleService "-3")).2.1 "-3" (-3) rfl rfl,
   (getConnectionThrottle_clamps samplePlatform (throttleService "100")).2.1 "100" 100 rfl
     rfl,
   (getConnectionThrottle_clamps samplePlatform sampleService).2.2.1 rfl,
   (getConnectionThrottle_clamps samplePlatform (throttleService "")).2.2.2.1 rfl,
   (getConnectionThrottle_clamps samplePlatform (throttleService "1.5")).2.2.2.2 "1.5" _ rfl
     rfl⟩

/-- C24 (the code returns its default 20 where the repository's test expects 0).
For the sample service without throttle annotation and for the throttle value
`foo`, `getConnectionThrottle` returns 20, not 0. -/
theorem getConnectionThrottle_default_is_twenty :
    sampleService.Annotations.lookup annLinodeThrottle = none ∧
    getConnectionThrottle samplePlatform sampleService = 20 ∧
    getConnectionThrottle samplePlatform sampleService ≠ 0 ∧
    getConnectionThrottle samplePlatform (throttleService "foo") = 20 ∧
    getConnectionThrottle samplePlatform (throttleService "foo") ≠ 0 := by
  refine ⟨rfl, by decide, by decide, by decide, by decide⟩

/-- The five cases of the repository's throttle test, on the code: for a service
whose throttle annotation is not specified, or whose throttle value `strconv.Atoi`
does not parse, as the value `foo`, `getConnectionThrottle` returns 20; the value
`-123` yields 0, `1` yields 1 and `21` yields 20. -/
theorem getConnectionThrottle_values (P : Platform) (service : Service) :
    (service.Annotations.lookup annLinodeThrottle = none →
      getConnectionThrottle P service = 20) ∧
    (∀ v e, service.Annotations.lookup annLinodeThrottle = some v → Atoi P v = .error e →
      getConnectionThrottle P service = 20) ∧
    (∃ e, Atoi P "foo" = .error e) ∧
    (service.Annotations.lookup annLinodeThrottle = some "-123" →
      getConnectionThrottle P service = 0) ∧
    (service.Annotations.lookup annLinodeThrottle = some "1" →
      getConnectionThrottle P service = 1) ∧
    (service.Annotations.lookup annLinodeThrottle = some "21" →
      getConnectionThrottle P service = 20) := by
  have heq := getConnectionThrottle_eq P service
  refine ⟨?_, ?_, ⟨_, rfl⟩, ?_, ?_, ?_⟩
  · intro hl
    rw [heq, hl]
  · intro v e hl ha
    rw [heq, hl]
    simp only [ha]
  · intro hl
    rw [heq, hl]
    rfl
  · intro hl
    rw [heq, hl]
    rfl
  · intro hl
    rw [heq, hl]
    rfl

/-- The five cases of the repository's throttle test at concrete inputs. -/
theorem getConnectionThrottle_values_witness :
    getConnectionThrottle samplePlatform sampleService = 20 ∧
    getConnectionThrottle samplePlatform (throttleService "foo") = 20 ∧
    getConnectionThrottle samplePlatform (throttleService "-123") = 0 ∧
    getConnectionThrottle samplePlatform (throttleService "1") = 1 ∧
    getConnectionThrottle samplePlatform (throttleService "21") = 20 :=
  ⟨(getConnectionThrottle_values samplePlatform sampleService).1 rfl,
   (getConnectionThrottle_values samplePlatform (throttleService "foo")).2.1 "foo" _ rfl rfl,
   (getConnectionThrottle_values samplePlatform (throttleService "-123")).2.2.2.1 rfl,
   (getConnectionThrottle_values samplePlatform (throttleService "1")).2.2.2.2.1 rfl,
   (getConnectionThrottle_values samplePlatform (throttleService "21")).2.2.2.2.2 rfl⟩

/-! ## The label and the address of a backend entry -/

/-- C25 (the code has no coercion of the node name). The label of the backend
entry built for a node is the node name itself. For the node named `n` it is `n`,
one character long, not `node-n`; for the node named
`infra-logging-controlplane-3-atl1-us-prod` it is that name, 41 characters long,
not its first 32 characters; for the node named `node1` it is `node1`. -/
theorem backend_label_is_node_name :
    (∀ node nodePort, (buildNodeBalancerNodeCreateOptions node nodePort).Label = node.Name) ∧
    ((buildNodeBalancerNodeCreateOptions shortNameNode 30000).Label = "n" ∧
      (buildNodeBalancerNodeCreateOptions shortNameNode 30000).Label.length < 3 ∧
      (buildNodeBalancerNodeCreateOptions shortNameNode 30000).Label ≠ "node-n") ∧
    ((buildNodeBalancerNodeCreateOptions longNameNode 30000).Label
        = "infra-logging-controlplane-3-atl1-us-prod" ∧
      (buildNodeBalancerNodeCreateOptions longNameNode 30000).Label.length = 41 ∧
      (buildNodeBalancerNodeCreateOptions longNameNode 30000).Label
        ≠ "infra-logging-controlplane-3-atl") ∧
    (buildNodeBalancerNodeCreateOptions plainNameNode 30000).Label = "node1" := by
  refine ⟨fun _ _ => rfl, ⟨rfl, by decide, by decide⟩, ⟨rfl, by decide, by decide⟩, rfl⟩

/-- C26 (the code reads no node annotation). The internal address of a node is
the address of its first `InternalIP` entry, and the empty string when it has
none, whatever annotations the node carries: for the node with the internal
address `10.0.1.1` and an annotation with the value `192.168.42.42`, under any
key, it is `10.0.1.1`, and so is the address of its backend entry. -/
theorem getNodeInternalIp_ignores_annotations :
    (∀ (node : Node) (anns : List (String × String)),
      getNodeInternalIp { node with Annotations := anns } = getNodeInternalIp node) ∧
    (∀ node : Node, getNodeInternalIp node
      = (match node.Addresses.find? (fun a => a.AddrType = "InternalIP") with
         | some a => a.Address
         | none => "")) ∧
    (∀ key, getNodeInternalIp (annotatedNode key) = "10.0.1.1" ∧
      (buildNodeBalancerNodeCreateOptions (annotatedNode key) 30000).Address
        = "10.0.1.1:30000") ∧
    getNodeInternalIp externalOnlyNode = "" := by
  refine ⟨fun _ _ => rfl, fun node => getNodeInternalIp_loop_eq node.Addresses,
    fun _ => ⟨rfl, rfl⟩, rfl⟩

/-! ## Deleted and rebuilt configs -/

theorem Call.kind_of_deletedConfig (c : Call) (cid : Int) (h : c.deletedConfig = some cid) :
    c.isConfigDelete = true ∧ c.isConfigCreate = false ∧ c.isConfigRebuild = false := by
  cases c <;> first
    | exact ⟨rfl, rfl, rfl⟩
    | (simp [Call.deletedConfig] at h)

theorem Call.kind_of_rebuiltConfig (c : Call) (cid : Int) (h : c.rebuiltConfig = some cid) :
    c.isConfigRebuild = true ∧ c.isConfigCreate = false ∧ c.isConfigDelete = false := by
  cases c <;> first
    | exact ⟨rfl, rfl, rfl⟩
    | (simp [Call.rebuiltConfig] at h)

/-- The calls of `UpdateLoadBalancer`, as in `UpdateLoadBalancer_shape`, with the
configs `nbCfgs` being the list the run observes. -/
theorem UpdateLoadBalancer_shape_observed {σ : Type} (P : Platform) (l : loadbalancers σ)
    (service : Service) (nodes : List Node) (s : σ) :
    ∃ (pre dels : List Call) (lbID : Int) (nbCfgs : List NodeBalancerConfig)
      (done rest : List ServicePort),
      (UpdateLoadBalancer P l service nodes s).calls
        = pre ++ (dels ++ done.map (portCallOf P l service nodes lbID nbCfgs)) ∧
      service.Ports = done ++ rest ∧
      (∀ call ∈ pre, call.isConfigCreate = false ∧ call.isConfigRebuild = false ∧
        call.isConfigDelete = false) ∧
      (∀ call ∈ dels, ∃ nbc ∈ nbCfgs, call = deleteCallOf nbc ∧
        ∀ sp ∈ service.Ports, nbc.Port ≠ sp.Port) ∧
      (UpdateLoadBalancer.observedConfigs P l service s = some nbCfgs ∨
        (dels = [] ∧ done = [])) := by
  have hbc := lbByName_calls l (P.GetLoadBalancerName service) s
  have hthr : ∀ (lb : NodeBalancer) (t : σ),
      ∀ c ∈ (UpdateLoadBalancer.syncThrottle P l service lb t).calls,
        c.isConfigCreate = false ∧ c.isConfigRebuild = false ∧ c.isConfigDelete = false := by
    intro lb t c hc
    rw [syncThrottle_calls] at hc
    split at hc
    · simp only [List.mem_singleton] at hc
      rw [hc]; exact ⟨rfl, rfl, rfl⟩
    · simp at hc
  cases hv0 : (lbByName l (P.GetLoadBalancerName service) s).val with
  | error e =>
    refine ⟨[.ListNodeBalancers (P.GetLoadBalancerName service)], [], 0, [], [],
      service.Ports, ?_, by simp, ?_, by simp, Or.inr ⟨rfl, rfl⟩⟩
    · simp only [UpdateLoadBalancer, hv0, hbc]
      simp
    · intro call hcall
      rw [List.mem_singleton.1 hcall]
      exact ⟨rfl, rfl, rfl⟩
  | ok lb =>
    cases hv1 : (UpdateLoadBalancer.syncThrottle P l service lb
        (lbByName l (P.GetLoadBalancerName service) s).state).val with
    | error e =>
      refine ⟨[.ListNodeBalancers (P.GetLoadBalancerName service)]
          ++ (UpdateLoadBalancer.syncThrottle P l service lb
            (lbByName l (P.GetLoadBalancerName service) s).state).calls,
        [], 0, [], [], service.Ports, ?_, by simp, ?_, by simp, Or.inr ⟨rfl, rfl⟩⟩
      · simp only [UpdateLoadBalancer, hv0, hv1, hbc]
        simp
      · intro call hcall
        rcases List.mem_append.1 hcall with h | h
        · rw [List.mem_singleton.1 h]
          exact ⟨rfl, rfl, rfl⟩
        · exact hthr _ _ call h
    | ok lb2 =>
      obtain ⟨dels, nbCfgs, done, rest, hcalls, hp, hdels, hlist, _⟩ :=
        syncConfigs_shape P l service nodes lb2
          (UpdateLoadBalancer.syncThrottle P l service lb
            (lbByName l (P.GetLoadBalancerName service) s).state).state
      refine ⟨[.ListNodeBalancers (P.GetLoadBalancerName service)]
          ++ (UpdateLoadBalancer.syncThrottle P l service lb
            (lbByName l (P.GetLoadBalancerName service) s).state).calls
          ++ [.ListNodeBalancerConfigs lb2.ID],
        dels, lb2.ID, nbCfgs, done, rest, ?_, hp, ?_, hdels, ?_⟩
      · simp only [UpdateLoadBalancer, hv0, hv1, hbc, Run.after, hcalls]
        simp
      · intro call hcall
        rcases List.mem_append.1 hcall with h | h
        · rcases List.mem_append.1 h with h | h
          · rw [List.mem_singleton.1 h]
            exact ⟨rfl, rfl, rfl⟩
          · exact hthr _ _ call h
        · rw [List.mem_singleton.1 h]
          exact ⟨rfl, rfl, rfl⟩
      · rcases hlist with hlist | hlist
        · left
          simp only [UpdateLoadBalancer.observedConfigs, hv0, hv1, hlist]
        · exact Or.inr hlist

/-- The config list `UpdateLoadBalancer` observes on the in-memory provider in a
well-formed state holds no config id twice. -/
theorem observedConfigs_cloud_nodup (P : Platform) (l : loadbalancers Cloud)
    (hl : l.client = cloudClient) (service : Service) (c : Cloud) (hwf : c.WF)
    (nbCfgs : List NodeBalancerConfig)
    (hobs : UpdateLoadBalancer.observedConfigs P l service c = some nbCfgs) :
    (nbCfgs.map (fun x => x.ID)).Nodup := by
  have hlc : l.client.ListNodeBalancerConfigs = Cloud.listConfigs := by rw [hl]; rfl
  obtain ⟨hst0, hval0⟩ := lbByName_cloud l hl (P.GetLoadBalancerName service) c
  unfold UpdateLoadBalancer.observedConfigs at hobs
  simp only at hobs
  cases hv0 : (lbByName l (P.GetLoadBalancerName service) c).val with
  | error e => rw [hv0] at hobs; cases hobs
  | ok lb =>
    rw [hv0] at hobs
    simp only [hst0] at hobs
    obtain ⟨rest, hfil⟩ := (hval0 lb).1 hv0
    cases hv1 : (UpdateLoadBalancer.syncThrottle P l service lb c).val with
    | error e => rw [hv1] at hobs; cases hobs
    | ok lb2 =>
      rw [hv1] at hobs
      simp only at hobs
      obtain ⟨_, hcfg, _, _⟩ := syncThrottle_cloud P l hl service c lb lb2 rest hfil hv1
      cases hv2 : (l.client.ListNodeBalancerConfigs lb2.ID
          (UpdateLoadBalancer.syncThrottle P l service lb c).state).1 with
      | error e => rw [hv2] at hobs; cases hobs
      | ok cfgs =>
        rw [hv2] at hobs
        simp only [Option.some.injEq] at hobs
        subst hobs
        rw [hlc] at hv2
        obtain ⟨hcfgs, _⟩ := Cloud.listConfigs_ok _ _ _ hv2
        have hsub : cfgs.Sublist c.configs := by
          rw [hcfgs, Cloud.configsOf, hcfg]
          exact List.filter_sublist _
        have hall : (c.configs.map (fun x => x.ID)).Nodup := by
          have := hwf.ids_nodup
          simpa [Cloud.keys, List.map_map, Function.comp] using this
        exact List.Nodup.sublist (List.Sublist.map _ hsub) hall

/-- C27. Within one `UpdateLoadBalancer` invocation, the config ids passed to the
delete call and the config ids passed to the rebuild call are disjoint, for every
Service port list and every observed config list in which a config id names one
config, that is, no id occurs twice: for every provider when the list the run
observes has that property, and on the in-memory provider, whose listings have it,
in every well-formed state. -/
theorem UpdateLoadBalancer_deleted_not_rebuilt (P : Platform) (service : Service)
    (nodes : List Node) :
    (∀ {σ : Type} (l : loadbalancers σ) (s : σ),
      (∀ nbCfgs, UpdateLoadBalancer.observedConfigs P l service s = some nbCfgs →
        (nbCfgs.map (fun c => c.ID)).Nodup) →
      ∀ cid ∈ (UpdateLoadBalancer P l service nodes s).calls.filterMap Call.deletedConfig,
        cid ∉ (UpdateLoadBalancer P l service nodes s).calls.filterMap Call.rebuiltConfig) ∧
    (∀ (l : loadbalancers Cloud) (c : Cloud), l.client = cloudClient → c.WF →
      ∀ cid ∈ (UpdateLoadBalancer P l service nodes c).calls.filterMap Call.deletedConfig,
        cid ∉ (UpdateLoadBalancer P l service nodes c).calls.filterMap Call.rebuiltConfig) := by
  have core : ∀ {σ : Type} (l : loadbalancers σ) (s : σ),
      (∀ nbCfgs, UpdateLoadBalancer.observedConfigs P l service s = some nbCfgs →
        (nbCfgs.map (fun c => c.ID)).Nodup) →
      ∀ cid ∈ (UpdateLoadBalancer P l service nodes s).calls.filterMap Call.deletedConfig,
        cid ∉ (UpdateLoadBalancer P l service nodes s).calls.filterMap
          Call.rebuiltConfig := by
    intro σ l s hids
    obtain ⟨pre, dels, lbID, nbCfgs, done, rest, hcalls, hports, hpre, hdels, hlist⟩ :=
      UpdateLoadBalancer_shape_observed P l service nodes s
    intro cid hdel hreb
    rw [hcalls] at hdel hreb
    obtain ⟨c1, hc1, hd1⟩ := List.mem_filterMap.1 hdel
    obtain ⟨c2, hc2, hr2⟩ := List.mem_filterMap.1 hreb
    have hk1 := Call.kind_of_deletedConfig c1 cid hd1
    have hk2 := Call.kind_of_rebuiltConfig c2 cid hr2
    have hc1d : c1 ∈ dels := by
      rcases List.mem_append.1 hc1 with h | h
      · have h0 := (hpre c1 h).2.2
        rw [hk1.1] at h0
        cases h0
      · rcases List.mem_append.1 h with h | h
        · exact h
        · obtain ⟨port, _, hp⟩ := List.mem_map.1 h
          rcases portCallOf_kind P l service nodes lbID nbCfgs port with hk | hk
          · rw [hp, hk1.2.1] at hk
            cases hk
          · rw [hp, hk1.2.2] at hk
            cases hk
    obtain ⟨nbc, hnbc, hcall1, hunused⟩ := hdels c1 hc1d
    have hcid1 : nbc.ID = cid := by
      rw [hcall1] at hd1
      simpa [deleteCallOf, Call.deletedConfig] using hd1
    have hc2p : ∃ port ∈ done, portCallOf P l service nodes lbID nbCfgs port = c2 := by
      rcases List.mem_append.1 hc2 with h | h
      · have h0 := (hpre c2 h).2.1
        rw [hk2.1] at h0
        cases h0
      · rcases List.mem_append.1 h with h | h
        · obtain ⟨x, _, hx, _⟩ := hdels c2 h
          rw [hx] at hr2
          simp [deleteCallOf, Call.rebuiltConfig] at hr2
        · exact List.mem_map.1 h
    obtain ⟨port, hport, hp⟩ := hc2p
    have hcases := portCallOf_cases P l service nodes lbID nbCfgs port
    cases hfind : nbCfgs.find? (fun nbc => nbc.Port = port.Port) with
    | none =>
      rw [hfind] at hcases
      obtain ⟨opts, ho⟩ := hcases
      rw [← hp, ho] at hr2
      simp [Call.rebuiltConfig] at hr2
    | some existing =>
      rw [hfind] at hcases
      obtain ⟨opts, ho⟩ := hcases
      rw [← hp, ho] at hr2
      have hcid2 : existing.ID = cid := by simpa [Call.rebuiltConfig] using hr2
      have hmem : existing ∈ nbCfgs := List.mem_of_find?_eq_some hfind
      have hp2 : existing.Port = port.Port := by
        have := List.find?_some hfind
        simpa using this
      have hnodup : (nbCfgs.map (fun c => c.ID)).Nodup := by
        rcases hlist with hobs | ⟨hd0, _⟩
        · exact hids nbCfgs hobs
        · rw [hd0] at hc1d
          exact absurd hc1d (List.not_mem_nil _)
      have hsame : nbc = existing :=
        List.inj_on_of_nodup_map hnodup hnbc hmem (by rw [hcid1, hcid2])
      have hin : port ∈ service.Ports := by
        rw [hports]
        exact List.mem_append_left _ hport
      exact hunused port hin (by rw [hsame, hp2])
  refine ⟨fun l s hids => core l s hids, ?_⟩
  intro l c hl hwf
  exact core l c (fun nbCfgs hobs => observedConfigs_cloud_nodup P l hl service c hwf nbCfgs hobs)

/-- C27 at a concrete input: the sample service, whose only port is 80, on the
provider whose balancer has the config 2 on port 80 and the config 3 on port 9090;
the config 3 is deleted and the config 2 rebuilt. -/
theorem UpdateLoadBalancer_deleted_not_rebuilt_witness :
    UpdateLoadBalancer.observedConfigs samplePlatform sampleLB sampleService staleCloud
      = some staleCloud.configs ∧
    (UpdateLoadBalancer samplePlatform sampleLB sampleService [sampleNode]
      staleCloud).calls.filterMap Call.deletedConfig = [3] ∧
    (UpdateLoadBalancer samplePlatform sampleLB sampleService [sampleNode]
      staleCloud).calls.filterMap Call.rebuiltConfig = [2] ∧
    (∀ cid ∈ (UpdateLoadBalancer samplePlatform sampleLB sampleService [sampleNode]
        staleCloud).calls.filterMap Call.deletedConfig,
      cid ∉ (UpdateLoadBalancer samplePlatform sampleLB sampleService [sampleNode]
        staleCloud).calls.filterMap Call.rebuiltConfig) :=
  ⟨by decide, by decide, by decide,
   (UpdateLoadBalancer_deleted_not_rebuilt samplePlatform sampleService [sampleNode]).2
     sampleLB staleCloud rfl staleCloud_wf⟩

/-! ## What has been applied when a UDP port is rejected -/

/-- C28 (as stated, refuted). For the service with the throttle annotation `10` and
the ports 80 (TCP) and 53 (UDP), on the provider whose balancer has the throttle 20
and configs on the ports 80 and 9090, `UpdateLoadBalancer` returns the UDP error
after it has issued the throttle update, the delete of the config on port 9090 and
the rebuild of the config on port 80; the provider state has changed. -/
theorem UpdateLoadBalancer_changes_before_udp_error :
    (UpdateLoadBalancer samplePlatform sampleLB udpThrottledService [sampleNode]
      staleCloud).val
      = some (.errorf
          "Error updating NodeBalancer Config: ports with the UDP protocol are not supported") ∧
    (UpdateLoadBalancer samplePlatform sampleLB udpThrottledService [sampleNode]
      staleCloud).calls.map
        (fun call => (call.isUpdateNodeBalancer, call.isConfigDelete, call.isConfigRebuild))
      = [(false, false, false), (true, false, false), (false, false, false),
         (false, true, false), (false, false, true)] ∧
    (UpdateLoadBalancer samplePlatform sampleLB udpThrottledService [sampleNode]
      staleCloud).state ≠ staleCloud ∧
    (UpdateLoadBalancer samplePlatform sampleLB udpThrottledService [sampleNode]
      staleCloud).state.balancers.map (fun b => b.ClientConnThrottle) = [10] ∧
    staleCloud.configs.map (fun c => c.Port) = [80, 9090] ∧
    (UpdateLoadBalancer samplePlatform sampleLB udpThrottledService [sampleNode]
      staleCloud).state.configs.map (fun c => c.Port) = [80] := by
  refine ⟨by decide, by decide, by decide, by decide, by decide, by decide⟩

/-- The calls of the port loop over a port list with the UDP port `udp` are the
calls for a prefix of the ports before `udp`. -/
theorem syncPorts_calls_before_udp {σ : Type} (P : Platform) (l : loadbalancers σ)
    (service : Service) (nodes : List Node) (lbID : Int) (nbCfgs : List NodeBalancerConfig)
    (before : List ServicePort) (udp : ServicePort) (after : List ServicePort) (s : σ)
    (hudp : udp.Protocol = ProtocolUDP) :
    ∃ done rest, before = done ++ rest ∧
      (UpdateLoadBalancer.syncPorts P l service nodes lbID nbCfgs (before ++ udp :: after)
        s).calls = done.map (portCallOf P l service nodes lbID nbCfgs) := by
  induction before generalizing s with
  | nil =>
    refine ⟨[], [], rfl, ?_⟩
    simp [UpdateLoadBalancer.syncPorts, syncPort_udp P l service nodes lbID nbCfgs udp s hudp]
  | cons x xs ih =>
    cases hv : (UpdateLoadBalancer.syncPort P l service nodes lbID nbCfgs x s).val with
    | some e =>
      have hcalls : (UpdateLoadBalancer.syncPorts P l service nodes lbID nbCfgs
          (x :: xs ++ udp :: after) s).calls
          = (UpdateLoadBalancer.syncPort P l service nodes lbID nbCfgs x s).calls := by
        simp [UpdateLoadBalancer.syncPorts, hv]
      rw [hcalls]
      rcases syncPort_calls P l service nodes lbID nbCfgs x s with h1 | h1
      · exact ⟨[], x :: xs, rfl, by rw [h1.1]; rfl⟩
      · exact ⟨[x], xs, rfl, by rw [h1]; rfl⟩
    | none =>
      have hcalls : (UpdateLoadBalancer.syncPorts P l service nodes lbID nbCfgs
          (x :: xs ++ udp :: after) s).calls
          = (UpdateLoadBalancer.syncPort P l service nodes lbID nbCfgs x s).calls
            ++ (UpdateLoadBalancer.syncPorts P l service nodes lbID nbCfgs
              (xs ++ udp :: after)
              (UpdateLoadBalancer.syncPort P l service nodes lbID nbCfgs x s).state).calls := by
        simp [UpdateLoadBalancer.syncPorts, hv, Run.after]
      obtain ⟨done, rest, hb, hc⟩ :=
        ih (UpdateLoadBalancer.syncPort P l service nodes lbID nbCfgs x s).state
      rw [hcalls, hc, syncPort_calls_of_ok P l service nodes lbID nbCfgs x s hv]
      exact ⟨x :: done, rest, by rw [hb]; rfl, rfl⟩

/-- The config creates and rebuilds of `UpdateLoadBalancer` are the calls of its
port loop, when the run reaches the loop, and none otherwise. -/
theorem UpdateLoadBalancer_config_writes {σ : Type} (P : Platform) (l : loadbalancers σ)
    (service : Service) (nodes : List Node) (s : σ) :
    (UpdateLoadBalancer P l service nodes s).calls.filter Call.isConfigWrite = [] ∨
    ∃ lbID nbCfgs t,
      (UpdateLoadBalancer P l service nodes s).calls.filter Call.isConfigWrite
        = (UpdateLoadBalancer.syncPorts P l service nodes lbID nbCfgs service.Ports t).calls := by
  have hnone : ∀ cs : List Call, (∀ c ∈ cs, c.isConfigWrite = false) →
      cs.filter Call.isConfigWrite = [] := by
    intro cs hcs
    rw [List.filter_eq_nil_iff]
    intro c hc
    rw [hcs c hc]
    simp
  have hthr : ∀ (lb : NodeBalancer) (t : σ),
      ∀ c ∈ (UpdateLoadBalancer.syncThrottle P l service lb t).calls,
        c.isConfigWrite = false := by
    intro lb t c hc
    rw [syncThrottle_calls] at hc
    split at hc
    · simp only [List.mem_singleton] at hc
      rw [hc]; rfl
    · simp at hc
  have hdel : ∀ (nbCfgs : List NodeBalancerConfig) (t : σ),
      ∀ c ∈ (deleteUnusedConfigs l nbCfgs service.Ports t).calls, c.isConfigWrite = false := by
    intro nbCfgs t c hc
    obtain ⟨nbc, _, hc2, _⟩ := deleteUnusedConfigs_calls_unused l nbCfgs service.Ports t c hc
    rw [hc2]; rfl
  have hbc := lbByName_calls l (P.GetLoadBalancerName service) s
  unfold UpdateLoadBalancer
  simp only [hbc]
  split
  · left
    rfl
  · rename_i lb _
    split
    · left
      apply hnone
      intro c hc
      simp only [List.mem_append, List.mem_singleton] at hc
      rcases hc with hc | hc
      · rw [hc]; rfl
      · exact hthr _ _ c hc
    · rename_i lb2 _
      simp only [Run.after]
      have hpre : ([Call.ListNodeBalancers (P.GetLoadBalancerName service)]
          ++ (UpdateLoadBalancer.syncThrottle P l service lb
            (lbByName l (P.GetLoadBalancerName service) s).state).calls).filter
              Call.isConfigWrite = [] := by
        apply hnone
        intro c hc
        simp only [List.mem_append, List.mem_singleton] at hc
        rcases hc with hc | hc
        · rw [hc]; rfl
        · exact hthr _ _ c hc
      rw [List.filter_append, hpre, List.nil_append]
      unfold UpdateLoadBalancer.syncConfigs
      simp only
      split
      · left
        rfl
      · rename_i nbCfgs _
        split
        · left
          apply hnone
          intro c hc
          rcases List.mem_cons.1 hc with hc | hc
          · rw [hc]; rfl
          · exact hdel _ _ c hc
        · right
          refine ⟨lb2.ID, nbCfgs,
            (deleteUnusedConfigs l nbCfgs service.Ports
              (l.client.ListNodeBalancerConfigs lb2.ID
                (UpdateLoadBalancer.syncThrottle P l service lb
                  (lbByName l (P.GetLoadBalancerName service) s).state).state).2).state, ?_⟩
          simp only [Run.after]
          rw [List.filter_append]
          have h1 : (Call.ListNodeBalancerConfigs lb2.ID ::
              (deleteUnusedConfigs l nbCfgs service.Ports
                (l.client.ListNodeBalancerConfigs lb2.ID
                  (UpdateLoadBalancer.syncThrottle P l service lb
                    (lbByName l (P.GetLoadBalancerName service) s).state).state).2).calls).filter
              Call.isConfigWrite = [] := by
            apply hnone
            intro c hc
            rcases List.mem_cons.1 hc with hc | hc
            · rw [hc]; rfl
            · exact hdel _ _ c hc
          rw [h1, List.nil_append, List.filter_eq_self]
          intro c hc
          rcases syncPorts_calls_kind P l service nodes lb2.ID nbCfgs service.Ports _ c hc
            with h | h
          · simp [Call.isConfigWrite, h]
          · simp [Call.isConfigWrite, h]

/-- C28, amended. When the port list of the Service is `before`, then the UDP port
`udp`, then `after`, the config creates and rebuilds that `UpdateLoadBalancer`
issues are the calls for a prefix of `before`, in order: no config is created or
rebuilt for the UDP port or for a port after it, for every provider, observed
state and node list. -/
theorem udp_rejection_writes_only_earlier_ports {σ : Type} (P : Platform)
    (l : loadbalancers σ) (service : Service) (nodes : List Node) (s : σ)
    (before : List ServicePort) (udp : ServicePort) (after : List ServicePort)
    (hports : service.Ports = before ++ udp :: after)
    (hudp : udp.Protocol = ProtocolUDP) :
    ∃ lbID nbCfgs done rest, before = done ++ rest ∧
      (UpdateLoadBalancer P l service nodes s).calls.filter
          (fun call => call.isConfigCreate || call.isConfigRebuild)
        = done.map (portCallOf P l service nodes lbID nbCfgs) := by
  rcases UpdateLoadBalancer_config_writes P l service nodes s with h | ⟨lbID, nbCfgs, t, h⟩
  · exact ⟨0, [], [], before, rfl, h⟩
  · rw [hports] at h
    obtain ⟨done, rest, hb, hc⟩ :=
      syncPorts_calls_before_udp P l service nodes lbID nbCfgs before udp after t hudp
    exact ⟨lbID, nbCfgs, done, rest, hb, h.trans hc⟩

/-- C28, amended, at a concrete input: the service with the ports 80 (TCP) and 53
(UDP) on the provider with configs on the ports 80 and 9090; the one config write
is the rebuild for port 80. -/
theorem udp_rejection_writes_only_earlier_ports_witness :
    (UpdateLoadBalancer samplePlatform sampleLB udpThrottledService [sampleNode]
      staleCloud).calls.filter (fun call => call.isConfigCreate || call.isConfigRebuild)
      = [portCallOf samplePlatform sampleLB udpThrottledService [sampleNode] 1
          staleCloud.configs
          { Name := "web", Protocol := "TCP", Port := 80, NodePort := 30000 }] ∧
    ∃ lbID nbCfgs done rest,
      [({ Name := "web", Protocol := "TCP", Port := 80, NodePort := 30000 } : ServicePort)]
        = done ++ rest ∧
      (UpdateLoadBalancer samplePlatform sampleLB udpThrottledService [sampleNode]
        staleCloud).calls.filter (fun call => call.isConfigCreate || call.isConfigRebuild)
        = done.map (portCallOf samplePlatform sampleLB udpThrottledService [sampleNode] lbID
            nbCfgs) :=
  ⟨by decide,
   udp_rejection_writes_only_earlier_ports samplePlatform sampleLB udpThrottledService
     [sampleNode] staleCloud
     [{ Name := "web", Protocol := "TCP", Port := 80, NodePort := 30000 }]
     { Name := "dns", Protocol := "UDP", Port := 53, NodePort := 30053 } [] rfl rfl⟩

/-! ## The status that `EnsureLoadBalancer` returns -/

/-- C29 (the code ignores the exists flag of the re-fetch). When the first lookup
finds the balancer, `UpdateLoadBalancer` returns nil and the lookup after the
update finds no balancer, `EnsureLoadBalancer` returns a nil status together with
a nil error. -/
theorem EnsureLoadBalancer_nil_status_nil_error {σ : Type} (P : Platform)
    (l : loadbalancers σ) (service : Service) (nodes : List Node) (s : σ)
    (st : LoadBalancerStatus)
    (hg : (GetLoadBalancer P l service s).val = .ret (some st, true, none))
    (hu : (UpdateLoadBalancer P l service nodes (GetLoadBalancer P l service s).state).val
      = none)
    (hg2 : (GetLoadBalancer P l service
        (UpdateLoadBalancer P l service nodes (GetLoadBalancer P l service s).state).state).val
      = .ret (none, false, none)) :
    (EnsureLoadBalancer P l service nodes s).val = .ret (none, none) := by
  unfold EnsureLoadBalancer
  simp only [hg, hu, hg2, Bool.not_true, Bool.false_eq_true, if_false]

/-- C29 at a concrete input: the provider whose third balancer listing is empty. -/
theorem EnsureLoadBalancer_nil_status_nil_error_witness :
    (EnsureLoadBalancer samplePlatform vanishingLB sampleService [sampleNode] 0).val
      = .ret (none, none) ∧
    (EnsureLoadBalancer samplePlatform vanishingLB sampleService [sampleNode] 0).calls.map
        Call.isMutating = [false, false, false, true, false] :=
  ⟨EnsureLoadBalancer_nil_status_nil_error samplePlatform vanishingLB sampleService
     [sampleNode] 0
     { Ingress := [{ IP := "192.0.2.1", Hostname := "nb-1.nodebalancer.linode.com" }] }
     rfl rfl rfl,
   by decide⟩

/-- C30 (the code dereferences the address fields unchecked). When the first
balancer the provider lists for the Service lacks its IPv4 or its hostname,
`GetLoadBalancer`, `EnsureLoadBalancer` and `EnsureLoadBalancerDeleted` all end in
the dereference of a nil pointer, without returning a result or an error. -/
theorem status_of_incomplete_balancer_is_nil_deref {σ : Type} (P : Platform)
    (l : loadbalancers σ) (service : Service) (nodes : List Node) (s : σ)
    (lb : NodeBalancer) (rest : List NodeBalancer)
    (h : (l.client.ListNodeBalancers (P.GetLoadBalancerName service) s).1 = .ok (lb :: rest))
    (habsent : lb.IPv4 = none ∨ lb.Hostname = none) :
    (GetLoadBalancer P l service s).val = .nilDeref ∧
    (EnsureLoadBalancer P l service nodes s).val = .nilDeref ∧
    (EnsureLoadBalancerDeleted P l service s).val = .nilDeref := by
  have hg := GetLoadBalancer_val_absent P l service s lb rest h habsent
  refine ⟨hg, ?_, ?_⟩
  · unfold EnsureLoadBalancer
    simp only [hg]
  · unfold EnsureLoadBalancerDeleted
    simp only [hg]

/-- C30 at concrete inputs: the provider holding the sample balancer without its
IPv4 address, and the one holding it without its hostname. -/
theorem status_of_incomplete_balancer_is_nil_deref_witness :
    ((GetLoadBalancer samplePlatform sampleLB sampleService noAddressCloud).val = .nilDeref ∧
      (EnsureLoadBalancer samplePlatform sampleLB sampleService [sampleNode]
        noAddressCloud).val = .nilDeref ∧
      (EnsureLoadBalancerDeleted samplePlatform sampleLB sampleService noAddressCloud).val
        = .nilDeref) ∧
    (GetLoadBalancer samplePlatform sampleLB sampleService noHostnameCloud).val
      = .nilDeref :=
  ⟨status_of_incomplete_balancer_is_nil_deref samplePlatform sampleLB sampleService
     [sampleNode] noAddressCloud { sampleBalancer with IPv4 := none } [] rfl (Or.inl rfl),
   rfl⟩

/-! ## A failing step ends the run with its error -/

/-- The delete loop over a list that is split in two: when the first part ends
without error, the loop goes on with the second part from the state reached. -/
theorem deleteUnusedConfigs_append {σ : Type} (l : loadbalancers σ)
    (xs ys : List NodeBalancerConfig) (servicePorts : List ServicePort) (s : σ)
    (h : (deleteUnusedConfigs l xs servicePorts s).val = none) :
    deleteUnusedConfigs l (xs ++ ys) servicePorts s
      = (deleteUnusedConfigs l ys servicePorts
          (deleteUnusedConfigs l xs servicePorts s).state).after
          (deleteUnusedConfigs l xs servicePorts s).calls := by
  induction xs generalizing s with
  | nil => simp [deleteUnusedConfigs, Run.after]
  | cons x xs ih =>
    by_cases hu : portInUse x servicePorts = true
    · have step : ∀ zs, deleteUnusedConfigs l (x :: zs) servicePorts s
          = deleteUnusedConfigs l zs servicePorts s := by
        intro zs
        simp [deleteUnusedConfigs, hu]
      rw [step xs] at h
      rw [List.cons_append, step (xs ++ ys), step xs, ih s h]
    · have hu2 : portInUse x servicePorts = false := by simpa using hu
      cases hd : (l.client.DeleteNodeBalancerConfig x.NodeBalancerID x.ID s).1 with
      | some e => simp [deleteUnusedConfigs, hu2, hd] at h
      | none =>
        have step : ∀ zs, deleteUnusedConfigs l (x :: zs) servicePorts s
            = (deleteUnusedConfigs l zs servicePorts
                (l.client.DeleteNodeBalancerConfig x.NodeBalancerID x.ID s).2).after
                [.DeleteNodeBalancerConfig x.NodeBalancerID x.ID] := by
          intro zs
          simp [deleteUnusedConfigs, hu2, hd]
        have h2 : (deleteUnusedConfigs l xs servicePorts
            (l.client.DeleteNodeBalancerConfig x.NodeBalancerID x.ID s).2).val = none := by
          rw [step xs] at h
          simpa [Run.after] using h
        rw [List.cons_append, step (xs ++ ys), step xs, ih _ h2]
        simp [Run.after, List.append_assoc]

/-- The delete loop at an unused config whose delete call fails: the loop ends
with the error of that call and issues no further call. -/
theorem deleteUnusedConfigs_head_fails {σ : Type} (l : loadbalancers σ)
    (nbc : NodeBalancerConfig) (post : List NodeBalancerConfig) (servicePorts : List ServicePort)
    (s : σ) (e : String) (hunused : ∀ sp ∈ servicePorts, nbc.Port ≠ sp.Port)
    (hfail : (l.client.DeleteNodeBalancerConfig nbc.NodeBalancerID nbc.ID s).1 = some e) :
    (deleteUnusedConfigs l (nbc :: post) servicePorts s).val = some (.foreign e) ∧
    (deleteUnusedConfigs l (nbc :: post) servicePorts s).calls
      = [.DeleteNodeBalancerConfig nbc.NodeBalancerID nbc.ID] := by
  have hu : portInUse nbc servicePorts = false := (portInUse_eq_false_iff nbc servicePorts).2 hunused
  simp [deleteUnusedConfigs, hu, hfail]

/-- The port loop at a port whose pass returns an error: the loop ends with that
error and with the calls of that pass. -/
theorem syncPorts_head_fails {σ : Type} (P : Platform) (l : loadbalancers σ)
    (service : Service) (nodes : List Node) (lbID : Int) (nbCfgs : List NodeBalancerConfig)
    (port : ServicePort) (after : List ServicePort) (s : σ) (err : Error)
    (h : (UpdateLoadBalancer.syncPort P l service nodes lbID nbCfgs port s).val = some err) :
    (UpdateLoadBalancer.syncPorts P l service nodes lbID nbCfgs (port :: after) s).val
      = some err ∧
    (UpdateLoadBalancer.syncPorts P l service nodes lbID nbCfgs (port :: after) s).calls
      = (UpdateLoadBalancer.syncPort P l service nodes lbID nbCfgs port s).calls := by
  simp [UpdateLoadBalancer.syncPorts, h]

/-- One pass of the port loop for a port that is not UDP: the error of the config
build is returned as it is, without a call; a failed rebuild is returned wrapped
and a failed create as it is, each after that one call. -/
theorem syncPort_fails {σ : Type} (P : Platform) (l : loadbalancers σ) (service : Service)
    (nodes : List Node) (lbID : Int) (nbCfgs : List NodeBalancerConfig) (port : ServicePort)
    (s : σ) (hudp : port.Protocol ≠ ProtocolUDP) :
    (∀ err, (buildNodeBalancerConfig P l service port.Port).2 = some err →
      (UpdateLoadBalancer.syncPort P l service nodes lbID nbCfgs port s).val = some err ∧
      (UpdateLoadBalancer.syncPort P l service nodes lbID nbCfgs port s).calls = []) ∧
    (∀ existing e, (buildNodeBalancerConfig P l service port.Port).2 = none →
      nbCfgs.find? (fun nbc => nbc.Port = port.Port) = some existing →
      (l.client.RebuildNodeBalancerConfig lbID existing.ID
        { (buildNodeBalancerConfig P l service port.Port).1.GetRebuildOptions with
          Nodes := backendsOf nodes port.NodePort } s).1 = .error e →
      (UpdateLoadBalancer.syncPort P l service nodes lbID nbCfgs port s).val
        = some (.errorf ("[port " ++ fmtInt port.Port
            ++ "] Error rebuilding NodeBalancer config: " ++ e)) ∧
      (UpdateLoadBalancer.syncPort P l service nodes lbID nbCfgs port s).calls
        = [.RebuildNodeBalancerConfig lbID existing.ID
            { (buildNodeBalancerConfig P l service port.Port).1.GetRebuildOptions with
              Nodes := backendsOf nodes port.NodePort }]) ∧
    (∀ e, (buildNodeBalancerConfig P l service port.Port).2 = none →
      nbCfgs.find? (fun nbc => nbc.Port = port.Port) = none →
      (l.client.CreateNodeBalancerConfig lbID
        { (buildNodeBalancerConfig P l service port.Port).1.GetCreateOptions with
          Nodes := backendsOf nodes port.NodePort } s).1 = .error e →
      (UpdateLoadBalancer.syncPort P l service nodes lbID nbCfgs port s).val
        = some (.foreign e) ∧
      (UpdateLoadBalancer.syncPort P l service nodes lbID nbCfgs port s).calls
        = [.CreateNodeBalancerConfig lbID
            { (buildNodeBalancerConfig P l service port.Port).1.GetCreateOptions with
              Nodes := backendsOf nodes port.NodePort }]) := by
  refine ⟨?_, ?_, ?_⟩
  · intro err hb
    unfold UpdateLoadBalancer.syncPort
    rw [if_neg hudp]
    simp only [hb]
    refine ⟨?_, ?_⟩ <;> first | rfl | trivial
  · intro existing e hb hfind hfail
    unfold UpdateLoadBalancer.syncPort
    rw [if_neg hudp]
    simp only [hb, hfind, appendNodes_nil, hfail]
    refine ⟨?_, ?_⟩ <;> first | rfl | trivial
  · intro e hb hfind hfail
    unfold UpdateLoadBalancer.syncPort
    rw [if_neg hudp]
    simp only [hb, hfind, appendNodes_nil, hfail]
    refine ⟨?_, ?_⟩ <;> first | rfl | trivial

/-- The throttle step when the desired throttle differs and the update call
fails: the step ends with the error of that call. -/
theorem syncThrottle_fails {σ : Type} (P : Platform) (l : loadbalancers σ) (service : Service)
    (lb : NodeBalancer) (s : σ) (e : String)
    (hdiff : getConnectionThrottle P service ≠ lb.ClientConnThrottle)
    (hfail : (l.client.UpdateNodeBalancer lb.ID
      { Label := lb.Label, ClientConnThrottle := some (getConnectionThrottle P service) } s).1
        = .error e) :
    (UpdateLoadBalancer.syncThrottle P l service lb s).val = .error (.foreign e) ∧
    (UpdateLoadBalancer.syncThrottle P l service lb s).calls
      = [.UpdateNodeBalancer lb.ID
          { Label := lb.Label, ClientConnThrottle := some (getConnectionThrottle P service) }] := by
  unfold UpdateLoadBalancer.syncThrottle
  simp only [hdiff, ne_eq, not_false_eq_true, if_true, NodeBalancer.GetUpdateOptions, hfail]
  refine ⟨?_, ?_⟩ <;> first | rfl | trivial

/-- C14, amended. Every error of a step of `UpdateLoadBalancer` ends the call and
is returned: when the balancer listing fails, or lists no balancer, when the
throttle update fails, when the listing of configs fails, when the delete of an
unused config fails (the deletes before it having succeeded), or when, the port
loop having passed the ports before `port` without error, the config build for
`port` returns an error or the create call for `port` fails, `UpdateLoadBalancer`
returns that very error (the not-found error when no balancer is listed) and the
failing call is the last call of the run; when the rebuild call for `port` fails
with an error `e`, it returns instead a new error with the text
`[port N] Error rebuilding NodeBalancer config: ` followed by the text of `e`, and
the rebuild is the last call of the run. Each provider call is taken in the state
the run has reached. -/
theorem UpdateLoadBalancer_returns_step_error {σ : Type} (P : Platform)
    (l : loadbalancers σ) (service : Service) (nodes : List Node) (s : σ) :
    (∀ e, (l.client.ListNodeBalancers (P.GetLoadBalancerName service) s).1 = .error e →
      (UpdateLoadBalancer P l service nodes s).val = some (.foreign e) ∧
      (UpdateLoadBalancer P l service nodes s).calls
        = [.ListNodeBalancers (P.GetLoadBalancerName service)]) ∧
    ((l.client.ListNodeBalancers (P.GetLoadBalancerName service) s).1 = .ok [] →
      (UpdateLoadBalancer P l service nodes s).val = some .lbNotFound ∧
      (UpdateLoadBalancer P l service nodes s).calls
        = [.ListNodeBalancers (P.GetLoadBalancerName service)]) ∧
    (∀ lb others r1,
      (l.client.ListNodeBalancers (P.GetLoadBalancerName service) s).1 = .ok (lb :: others) →
      r1 = UpdateLoadBalancer.syncThrottle P l service lb
        (l.client.ListNodeBalancers (P.GetLoadBalancerName service) s).2 →
      (∀ e, getConnectionThrottle P service ≠ lb.ClientConnThrottle →
        (l.client.UpdateNodeBalancer lb.ID
          { Label := lb.Label, ClientConnThrottle := some (getConnectionThrottle P service) }
          (l.client.ListNodeBalancers (P.GetLoadBalancerName service) s).2).1 = .error e →
        (UpdateLoadBalancer P l service nodes s).val = some (.foreign e) ∧
        (UpdateLoadBalancer P l service nodes s).calls
          = [.ListNodeBalancers (P.GetLoadBalancerName service),
             .UpdateNodeBalancer lb.ID
               { Label := lb.Label,
                 ClientConnThrottle := some (getConnectionThrottle P service) }]) ∧
      (∀ lb2, r1.val = .ok lb2 →
        (∀ e, (l.client.ListNodeBalancerConfigs lb2.ID r1.state).1 = .error e →
          (UpdateLoadBalancer P l service nodes s).val = some (.foreign e) ∧
          (UpdateLoadBalancer P l service nodes s).calls
            = [.ListNodeBalancers (P.GetLoadBalancerName service)] ++ r1.calls
              ++ [.ListNodeBalancerConfigs lb2.ID]) ∧
        (∀ nbCfgs, (l.client.ListNodeBalancerConfigs lb2.ID r1.state).1 = .ok nbCfgs →
          (∀ pre nbc post dpre e, nbCfgs = pre ++ nbc :: post →
            dpre = deleteUnusedConfigs l pre service.Ports
              (l.client.ListNodeBalancerConfigs lb2.ID r1.state).2 →
            dpre.val = none → (∀ sp ∈ service.Ports, nbc.Port ≠ sp.Port) →
            (l.client.DeleteNodeBalancerConfig nbc.NodeBalancerID nbc.ID dpre.state).1
              = some e →
            (UpdateLoadBalancer P l service nodes s).val = some (.foreign e) ∧
            (UpdateLoadBalancer P l service nodes s).calls
              = [.ListNodeBalancers (P.GetLoadBalancerName service)] ++ r1.calls
                ++ [.ListNodeBalancerConfigs lb2.ID] ++ dpre.calls
                ++ [.DeleteNodeBalancerConfig nbc.NodeBalancerID nbc.ID]) ∧
          (∀ d before port after sp,
            d = deleteUnusedConfigs l nbCfgs service.Ports
              (l.client.ListNodeBalancerConfigs lb2.ID r1.state).2 →
            d.val = none → service.Ports = before ++ port :: after →
            sp = UpdateLoadBalancer.syncPorts P l service nodes lb2.ID nbCfgs before d.state →
            sp.val = none → port.Protocol ≠ ProtocolUDP →
            (∀ err, (buildNodeBalancerConfig P l service port.Port).2 = some err →
              (UpdateLoadBalancer P l service nodes s).val = some err ∧
              (UpdateLoadBalancer P l service nodes s).calls
                = [.ListNodeBalancers (P.GetLoadBalancerName service)] ++ r1.calls
                  ++ [.ListNodeBalancerConfigs lb2.ID] ++ d.calls ++ sp.calls) ∧
            (∀ existing e, (buildNodeBalancerConfig P l service port.Port).2 = none →
              nbCfgs.find? (fun nbc => nbc.Port = port.Port) = some existing →
              (l.client.RebuildNodeBalancerConfig lb2.ID existing.ID
                { (buildNodeBalancerConfig P l service port.Port).1.GetRebuildOptions with
                  Nodes := backendsOf nodes port.NodePort } sp.state).1 = .error e →
              (UpdateLoadBalancer P l service nodes s).val
                = some (.errorf ("[port " ++ fmtInt port.Port
                    ++ "] Error rebuilding NodeBalancer config: " ++ e)) ∧
              (UpdateLoadBalancer P l service nodes s).calls
                = [.ListNodeBalancers (P.GetLoadBalancerName service)] ++ r1.calls
                  ++ [.ListNodeBalancerConfigs lb2.ID] ++ d.calls ++ sp.calls
                  ++ [.RebuildNodeBalancerConfig lb2.ID existing.ID
                       { (buildNodeBalancerConfig P l service port.Port).1.GetRebuildOptions
                         with Nodes := backendsOf nodes port.NodePort }]) ∧
            (∀ e, (buildNodeBalancerConfig P l service port.Port).2 = none →
              nbCfgs.find? (fun nbc => nbc.Port = port.Port) = none →
              (l.client.CreateNodeBalancerConfig lb2.ID
                { (buildNodeBalancerConfig P l service port.Port).1.GetCreateOptions with
                  Nodes := backendsOf nodes port.NodePort } sp.state).1 = .error e →
              (UpdateLoadBalancer P l service nodes s).val = some (.foreign e) ∧
              (UpdateLoadBalancer P l service nodes s).calls
                = [.ListNodeBalancers (P.GetLoadBalancerName service)] ++ r1.calls
                  ++ [.ListNodeBalancerConfigs lb2.ID] ++ d.calls ++ sp.calls
                  ++ [.CreateNodeBalancerConfig lb2.ID
                       { (buildNodeBalancerConfig P l service port.Port).1.GetCreateOptions
                         with Nodes := backendsOf nodes port.NodePort }]))))) := by
  have hcalls0 := lbByName_calls l (P.GetLoadBalancerName service) s
  have hstate0 := lbByName_state l (P.GetLoadBalancerName service) s
  refine ⟨?_, ?_, ?_⟩
  · intro e he
    have hv := lbByName_val_error l _ s e he
    simp only [UpdateLoadBalancer, hv, hcalls0]
    refine ⟨?_, ?_⟩ <;> first | rfl | trivial
  · intro he
    have hv := lbByName_val_nil l _ s he
    simp only [UpdateLoadBalancer, hv, hcalls0]
    refine ⟨?_, ?_⟩ <;> first | rfl | trivial
  · intro lb others r1 hlist hr1
    have hv := lbByName_val_cons l _ s lb others hlist
    subst hr1
    refine ⟨?_, ?_⟩
    · intro e hdiff hfail
      obtain ⟨h1, h2⟩ := syncThrottle_fails P l service lb _ e hdiff hfail
      simp only [UpdateLoadBalancer, hv, hcalls0, hstate0, h1, h2]
      refine ⟨?_, ?_⟩ <;> first | rfl | trivial
    · intro lb2 hthr
      refine ⟨?_, ?_⟩
      · intro e hfail
        simp only [UpdateLoadBalancer, hv, hcalls0, hstate0, hthr,
          UpdateLoadBalancer.syncConfigs, hfail, Run.after]
        refine ⟨?_, ?_⟩ <;> first | rfl | trivial
      · intro nbCfgs hcfgs
        refine ⟨?_, ?_⟩
        · intro pre nbc post dpre e hsplit hdpre hpreok hunused hfail
          subst hdpre
          have happ := deleteUnusedConfigs_append l pre (nbc :: post) service.Ports _ hpreok
          rw [← hsplit] at happ
          obtain ⟨h1, h2⟩ := deleteUnusedConfigs_head_fails l nbc post service.Ports _ e
            hunused hfail
          simp only [UpdateLoadBalancer, hv, hcalls0, hstate0, hthr,
            UpdateLoadBalancer.syncConfigs, hcfgs, happ, Run.after, h1, h2]
          refine ⟨?_, ?_⟩ <;> first | rfl | trivial | simp
        · intro d before port after sp hd hdok hports hsp hspok hudp
          subst hd
          subst hsp
          have happ := syncPorts_append P l service nodes lb2.ID nbCfgs before (port :: after)
            _ hspok
          rw [← hports] at happ
          obtain ⟨hbuild, hrebuild, hcreate⟩ :=
            syncPort_fails P l service nodes lb2.ID nbCfgs port
              (UpdateLoadBalancer.syncPorts P l service nodes lb2.ID nbCfgs before
                (deleteUnusedConfigs l nbCfgs service.Ports
                  (l.client.ListNodeBalancerConfigs lb2.ID
                    (UpdateLoadBalancer.syncThrottle P l service lb
                      (l.client.ListNodeBalancers (P.GetLoadBalancerName service) s).2).state).2).state).state
              hudp
          have hrun : ∀ err, (UpdateLoadBalancer.syncPort P l service nodes lb2.ID nbCfgs port
              (UpdateLoadBalancer.syncPorts P l service nodes lb2.ID nbCfgs before
                (deleteUnusedConfigs l nbCfgs service.Ports
                  (l.client.ListNodeBalancerConfigs lb2.ID
                    (UpdateLoadBalancer.syncThrottle P l service lb
                      (l.client.ListNodeBalancers (P.GetLoadBalancerName service) s).2).state).2).state).state).val
                = some err →
              (UpdateLoadBalancer P l service nodes s).val = some err ∧
              (UpdateLoadBalancer P l service nodes s).calls
                = [.ListNodeBalancers (P.GetLoadBalancerName service)]
                  ++ (UpdateLoadBalancer.syncThrottle P l service lb
                      (l.client.ListNodeBalancers (P.GetLoadBalancerName service) s).2).calls
                  ++ [.ListNodeBalancerConfigs lb2.ID]
                  ++ (deleteUnusedConfigs l nbCfgs service.Ports
                      (l.client.ListNodeBalancerConfigs lb2.ID
                        (UpdateLoadBalancer.syncThrottle P l service lb
                          (l.client.ListNodeBalancers (P.GetLoadBalancerName service)
                            s).2).state).2).calls
                  ++ (UpdateLoadBalancer.syncPorts P l service nodes lb2.ID nbCfgs before
                      (deleteUnusedConfigs l nbCfgs service.Ports
                        (l.client.ListNodeBalancerConfigs lb2.ID
                          (UpdateLoadBalancer.syncThrottle P l service lb
                            (l.client.ListNodeBalancers (P.GetLoadBalancerName service)
                              s).2).state).2).state).calls
                  ++ (UpdateLoadBalancer.syncPort P l service nodes lb2.ID nbCfgs port
                      (UpdateLoadBalancer.syncPorts P l service nodes lb2.ID nbCfgs before
                        (deleteUnusedConfigs l nbCfgs service.Ports
                          (l.client.ListNodeBalancerConfigs lb2.ID
                            (UpdateLoadBalancer.syncThrottle P l service lb
                              (l.client.ListNodeBalancers (P.GetLoadBalancerName service)
                                s).2).state).2).state).state).calls := by
            intro err herr
            obtain ⟨h1, h2⟩ := syncPorts_head_fails P l service nodes lb2.ID nbCfgs port after
              _ err herr
            simp only [UpdateLoadBalancer, hv, hcalls0, hstate0, hthr,
              UpdateLoadBalancer.syncConfigs, hcfgs, hdok, happ, Run.after, h1, h2]
            refine ⟨?_, ?_⟩ <;> first | rfl | trivial | simp
          refine ⟨?_, ?_, ?_⟩
          · intro err hb
            obtain ⟨h1, h2⟩ := hbuild err hb
            have := hrun err h1
            rw [h2, List.append_nil] at this
            exact this
          · intro existing e hb hfind hfail
            obtain ⟨h1, h2⟩ := hrebuild existing e hb hfind hfail
            have := hrun _ h1
            rw [h2] at this
            exact this
          · intro e hb hfind hfail
            obtain ⟨h1, h2⟩ := hcreate e hb hfind hfail
            have := hrun _ h1
            rw [h2] at this
            exact this

/-- C14, amended, at a concrete input: the sample service on the provider that
refuses rebuilds; the resolution, the throttle step, the config listing and the
deletes succeed, no port precedes port 80, and the rebuild of the config of port
80 fails. -/
theorem UpdateLoadBalancer_returns_step_error_witness :
    (UpdateLoadBalancer samplePlatform rebuildRefusingLB sampleService [sampleNode]
      sampleCloud).val
      = some (.errorf "[port 80] Error rebuilding NodeBalancer config: rebuild refused") ∧
    (UpdateLoadBalancer samplePlatform rebuildRefusingLB sampleService [sampleNode]
      sampleCloud).calls
      = [.ListNodeBalancers "afoobar123", .ListNodeBalancerConfigs 1,
         .RebuildNodeBalancerConfig 1 2
           { (buildNodeBalancerConfig samplePlatform rebuildRefusingLB sampleService
               80).1.GetRebuildOptions with
             Nodes := backendsOf [sampleNode] 30000 }] :=
  ((((UpdateLoadBalancer_returns_step_error samplePlatform rebuildRefusingLB sampleService
      [sampleNode] sampleCloud).2.2 sampleBalancer [] _ rfl rfl).2 sampleBalancer rfl).2
      sampleCloud.configs rfl).2 _ []
      { Name := "test", Protocol := "TCP", Port := 80, NodePort := 30000 } [] _ rfl rfl rfl
      rfl rfl (by decide) |>.2.1
      { ID := 2, Port := 80, Protocol := "tcp", Check := "connection",
        CheckInterval := 5, CheckAttempts := 2, CheckPassive := true,
        CheckTimeout := 3, NodeBalancerID := 1 }
      "rebuild refused" rfl rfl rfl

end Linode
